import Mathlib

/-!
# IPO analyser front end: the analysis session of `AnalysisPage.jsx`

A shallow embedding of the session logic of
`frontend/src/pages/AnalysisPage.jsx`: the React state of the page
(`useState` cells), the event handlers (`handleDrag`, `handleDrop`,
`handleFileChange`, `handleAnalyze`, the "Upload Another" click,
`downloadReport`) and the conditional structure of the rendered page.

A handler is embedded as the sequence of effects it performs, in program
order: calls of the state setters, the one network request, and the DOM
calls of the report download.  The state a handler leaves behind is the
fold of its setter calls over the state it started from.  `handleAnalyze`
is asynchronous: its effects carry the time (in milliseconds since the
call) at which they run, and the remote call's outcome and settling time
are inputs.

The page as React renders it is the function `renderPage`: the branch of
the markup chosen by `analysis` and `loading`, or the exception thrown
while it is rendered.  An exception is a `TypeError` of a component
function (a property read on `undefined`, a call of something that is no
function, a conversion that finds no primitive) or React's rejection of an
object as a child; on either React removes the page, which then shows
nothing and offers no element (`view`, `render`, `offered`).  The results
branch is `renderResults`: what the component function binds from
`analysis` (`resultsBranch`), then React's rendering of it
(`mountResults`), which includes the component `FinancialCharts` of
`components/FinancialCharts.jsx`.  The conversions JavaScript applies to
the values of a parsed response (`>`, `Math.max`, string to number) are
embedded as far as the exceptions of rendering depend on them.

The running page is a step relation over the state and the effects that
running calls of `handleAnalyze` have still to perform: `Page.Step`, in
which every effect of a call is a step of its own, and `Page.Turn`, in
which the effects before the first `await` run within the click.

`getScoreColor` and the scales of the charts (`maxRevenue`, `maxProfit`,
`profitLossBarWidth`) are embedded on numbers taken as exact rationals,
with `none` for a result that is no finite number.  The revenue bar width
`revenueBarWidth` is embedded in double arithmetic: `roundDouble` rounds
the exact result of an operation to the nearest IEEE 754 binary64 number.
-/

namespace IpoAnalyser


/-! ## JavaScript values -/

/-- A JavaScript value as far as the page handles one: what `JSON.parse`
can produce (numbers as exact rationals), plus `undefined`.  An object is
the list of its own properties; reading a property takes the first entry
with that key. -/
inductive JsVal where
  | undefined
  | null
  | bool (b : Bool)
  | num (x : ℚ)
  | str (s : String)
  | arr (items : List JsVal)
  | obj (props : List (String × JsVal))

namespace JsVal

/-- JavaScript truthiness (`!!v`): `undefined`, `null`, `false`, `0` and
the empty string are falsy, everything else (every array and object
included) is truthy. -/
def truthy : JsVal → Bool
  | undefined => false
  | null => false
  | bool b => b
  | num x => decide (x ≠ 0)
  | str s => decide (s ≠ "")
  | arr _ => true
  | obj _ => true

/-- The JavaScript expression `a || b`: `a` when it is truthy, else `b`. -/
def or (a b : JsVal) : JsVal :=
  if a.truthy then a else b

/-- The optional-chaining read `v?.k` of a data property `k` (a key that is
no built-in property name, such as `detail`): the property's value on an
object that has it, `undefined` on every other value. -/
def optProp (v : JsVal) (k : String) : JsVal :=
  match v with
  | obj props => (props.lookup k).getD undefined
  | _ => undefined

end JsVal

/-! ## Files, responses, errors -/

/-- A DOM `File`: the attributes the page can observe. -/
structure File where
  name : String
  size : Nat
  type : String
  deriving DecidableEq, Repr

/-- The event object of a file selection (`e.target.files`) or of a drop
(`e.dataTransfer.files`): the list of files it carries. -/
structure FileEvent where
  files : List File
  deriving DecidableEq, Repr

/-- The response object axios resolves with, or attaches to the error it
rejects with: `data` is the parsed body. -/
structure Response where
  data : JsVal

/-- The value axios rejects with: `response` is absent when no response
was received (network error, or any other thrown value). -/
structure AxiosError where
  response : Option Response

/-- How the promise of `axios.post` settles. -/
inductive Outcome where
  | resolved (response : Response)
  | rejected (err : AxiosError)

/-- The expression `err.response?.data?.detail`. -/
def AxiosError.detail (err : AxiosError) : JsVal :=
  match err.response with
  | none => JsVal.undefined
  | some r => r.data.optProp "detail"

/-! ## Session state and effects -/

/-- The `useState` cells of `AnalysisPage`. -/
structure State where
  file : Option File
  loading : Bool
  loadingProgress : Nat
  loadingStage : String
  analysis : JsVal
  error : JsVal
  dragActive : Bool

/-- The state of a freshly mounted page (the `useState` initial values). -/
def State.initial : State :=
  { file := none, loading := false, loadingProgress := 0, loadingStage := "",
    analysis := JsVal.null, error := JsVal.null, dragActive := false }

/-- One effect of a handler: a state setter call, the network request, or a
DOM call of the report download. -/
inductive Action where
  | setFile (f : Option File)
  | setLoading (b : Bool)
  | setLoadingProgress (n : Nat)
  | setLoadingStage (stage : String)
  | setAnalysis (v : JsVal)
  | setError (v : JsVal)
  | setDragActive (b : Bool)
  | axiosPost (url : String) (formData : List (String × File))
      (headers : List (String × String))
  | createElement (tag : String)
  | setAttribute (attr value : String)
  | setStyle (prop value : String)
  | appendChild
  | click
  | removeChild

namespace Action

/-- Whether the effect is a network request. -/
def isRequest : Action → Bool
  | axiosPost _ _ _ => true
  | _ => false

/-- Whether the effect is a state setter call. -/
def isWrite : Action → Bool
  | setFile _ => true
  | setLoading _ => true
  | setLoadingProgress _ => true
  | setLoadingStage _ => true
  | setAnalysis _ => true
  | setError _ => true
  | setDragActive _ => true
  | _ => false

/-- Whether the effect is a write of the progress indicator (percentage or
stage label). -/
def isProgressWrite : Action → Bool
  | setLoadingProgress _ => true
  | setLoadingStage _ => true
  | _ => false

end Action

/-- The state after one effect: a setter replaces its cell, every other
effect leaves the state alone. -/
def State.apply (s : State) : Action → State
  | Action.setFile f => { s with file := f }
  | Action.setLoading b => { s with loading := b }
  | Action.setLoadingProgress n => { s with loadingProgress := n }
  | Action.setLoadingStage st => { s with loadingStage := st }
  | Action.setAnalysis v => { s with analysis := v }
  | Action.setError v => { s with error := v }
  | Action.setDragActive b => { s with dragActive := b }
  | _ => s

/-- The state after a sequence of effects, applied in order. -/
def State.run (s : State) (as : List Action) : State :=
  as.foldl State.apply s

/-- The state after a sequence of timed effects, applied in order. -/
def State.runTimed (s : State) (evs : List (Nat × Action)) : State :=
  s.run (evs.map Prod.snd)

/-! ## Selection handlers -/

/-- The handler `handleDrag`, by the event's `type`. -/
def handleDrag (type : String) : List Action :=
  if type = "dragenter" ∨ type = "dragover" then [Action.setDragActive true]
  else if type = "dragleave" then [Action.setDragActive false]
  else []

/-- The handler `handleDrop`: `droppedFile` is `e.dataTransfer.files[0]`. -/
def handleDrop (e : FileEvent) : List Action :=
  Action.setDragActive false ::
    match e.files.head? with
    | some droppedFile =>
      if droppedFile.type = "application/pdf" then
        [Action.setFile (some droppedFile), Action.setError JsVal.null]
      else
        [Action.setError (JsVal.str "Please drop a valid PDF file"), Action.setFile none]
    | none =>
      [Action.setError (JsVal.str "Please drop a valid PDF file"), Action.setFile none]

/-- The handler `handleFileChange`: `selectedFile` is `e.target.files[0]`. -/
def handleFileChange (e : FileEvent) : List Action :=
  match e.files.head? with
  | some selectedFile =>
    if selectedFile.type = "application/pdf" then
      [Action.setFile (some selectedFile), Action.setError JsVal.null]
    else
      [Action.setError (JsVal.str "Please select a valid PDF file"), Action.setFile none]
  | none =>
    [Action.setError (JsVal.str "Please select a valid PDF file"), Action.setFile none]

/-! ## Submission -/

/-- One entry of `progressStages`. -/
structure Stage where
  progress : Nat
  stage : String
  delay : Nat
  deriving DecidableEq, Repr

/-- The constant `progressStages` of `handleAnalyze`. -/
def progressStages : List Stage :=
  [ { progress := 20, stage := "Uploading document...", delay := 1000 },
    { progress := 40, stage := "Extracting text from PDF...", delay := 2000 },
    { progress := 60, stage := "Analyzing financial data...", delay := 3000 },
    { progress := 80, stage := "Processing with AI...", delay := 2000 },
    { progress := 95, stage := "Finalizing results...", delay := 1000 } ]

/-- The timer task `progressPromise`, started at time `now`: for each stage
in list order it waits `stage.delay` and then writes the stage's progress
and label. -/
def progressPromise : Nat → List Stage → List (Nat × Action)
  | _, [] => []
  | now, st :: rest =>
    (now + st.delay, Action.setLoadingProgress st.progress) ::
    (now + st.delay, Action.setLoadingStage st.stage) ::
    progressPromise (now + st.delay) rest

/-- The time at which `progressPromise`, started at `now`, resolves. -/
def progressDone : Nat → List Stage → Nat
  | now, [] => now
  | now, st :: rest => progressDone (now + st.delay) rest

/-- The event loop's ordering of a continuation that becomes runnable at
time `e.1` among the pending timed effects: it runs after every effect
that is due at `e.1` or earlier.  (A timer callback due at the very
millisecond the response arrives is taken to run first; the other order
is the run with the response one millisecond earlier.) -/
def schedule (e : Nat × Action) : List (Nat × Action) → List (Nat × Action)
  | [] => [e]
  | x :: xs => if x.1 ≤ e.1 then x :: schedule e xs else e :: x :: xs

/-- Schedules the effects `es`, in order, among the pending ones. -/
def scheduleAll (es pending : List (Nat × Action)) : List (Nat × Action) :=
  es.foldl (fun q e => schedule e q) pending

/-- The body of `try`/`catch` in `handleAnalyze` after `axios.post`
settles at time `t`: on success the two completion writes, a 500 ms wait
and `setAnalysis(response.data)`; on failure the one `setError`. -/
def afterPost (t : Nat) : Outcome → List (Nat × Action)
  | Outcome.resolved response =>
    [ (t, Action.setLoadingProgress 100),
      (t, Action.setLoadingStage "Analysis complete!"),
      (t + 500, Action.setAnalysis response.data) ]
  | Outcome.rejected err =>
    [ (t, Action.setError
        (err.detail.or (JsVal.str "Failed to analyze document. Please try again."))) ]

/-- The time at which the `try`/`catch` of `handleAnalyze` is left when
`axios.post` settles at time `t`. -/
def afterPostDone (t : Nat) : Outcome → Nat
  | Outcome.resolved _ => t + 500
  | Outcome.rejected _ => t

/-- The handler `handleAnalyze`, called in state `s` (the render it closes
over).  `net` is the fate of the request: `none` when it never settles,
`some (t, o)` when it settles with outcome `o` at `t` ms after the call.
The result is the handler's effects with their times, in the order they
run. -/
def handleAnalyze (s : State) (net : Option (Nat × Outcome)) : List (Nat × Action) :=
  match s.file with
  | none => [(0, Action.setError (JsVal.str "Please select a PDF file"))]
  | some file =>
    let start : List (Nat × Action) :=
      [ (0, Action.setLoading true),
        (0, Action.setError JsVal.null),
        (0, Action.setAnalysis JsVal.null),
        (0, Action.setLoadingProgress 0),
        (0, Action.setLoadingStage "Initializing analysis..."),
        (0, Action.axiosPost "https://ipo-analyser-server.vercel.app/api/v1/ipo/analyze"
              [("rhp", file)] [("Content-Type", "multipart/form-data")]) ]
    match net with
    | none => start ++ progressPromise 0 progressStages
    | some (t, outcome) =>
      start ++ scheduleAll (afterPost t outcome) (progressPromise 0 progressStages)
        ++ [(max (afterPostDone t outcome) (progressDone 0 progressStages),
              Action.setLoading false)]

/-! ## Results view actions -/

/-- The `onClick` of the "Upload Another" button. -/
def uploadAnotherOnClick : List Action :=
  [Action.setAnalysis JsVal.null, Action.setFile none]

/-- The JavaScript built-ins `downloadReport` calls: `stringify v n` is
`JSON.stringify(v, null, n)` (`none` for the result `undefined`). -/
structure Builtins where
  stringify : JsVal → Nat → Option String
  encodeURIComponent : String → String

/-- The string conversion applied to the argument of `encodeURIComponent`. -/
def jsToString : Option String → String
  | some str => str
  | none => "undefined"

/-- The handler `downloadReport`, called in state `s`. -/
def downloadReport (js : Builtins) (s : State) : List Action :=
  let reportData := js.stringify s.analysis 2
  [ Action.createElement "a",
    Action.setAttribute "href"
      ("data:text/plain;charset=utf-8," ++ js.encodeURIComponent (jsToString reportData)),
    Action.setAttribute "download" "ipo-analysis-report.json",
    Action.setStyle "display" "none",
    Action.appendChild,
    Action.click,
    Action.removeChild ]


/-! ## Progress indicator writes -/

/-- The percentage an effect writes to `loadingProgress`, if it is such a
write. -/
def Action.progressWritten : Action → Option Nat
  | Action.setLoadingProgress n => some n
  | _ => none

/-- The label an effect writes to `loadingStage`, if it is such a write. -/
def Action.stageWritten : Action → Option String
  | Action.setLoadingStage stage => some stage
  | _ => none

/-- The writes of the progress indicator (percentage and stage label)
among a sequence of timed effects, in order. -/
def progressWrites (evs : List (Nat × Action)) : List (Nat × Action) :=
  evs.filter fun ev => ev.2.isProgressWrite

/-! ## Conversions and children -/

namespace JsVal

mutual
/-- Whether the conversion of `v` to a primitive (`ToPrimitive`, which is
behind `ToNumber`, `ToString`, `>`, `>=`, `Math.max`, `Math.abs` and the
string concatenation of a React key) throws a `TypeError`.  A parsed
object converts through the inherited `toString`, unless an own property
of that name shadows it: a parsed value is never callable, and the
inherited `valueOf` returns the object itself.  An array converts through
`join`, which converts every element other than `undefined` and `null` to
a string. -/
def coercionThrows : JsVal → Bool
  | obj props => (props.lookup "toString").isSome
  | arr items => anyCoercionThrows items
  | _ => false
/-- Whether the string conversion of some element of the list throws. -/
def anyCoercionThrows : List JsVal → Bool
  | [] => false
  | v :: vs => coercionThrows v || anyCoercionThrows vs
end

mutual
/-- Whether React accepts `v` as a child of an element: `undefined`,
`null` and booleans render nothing, numbers and strings render as text,
an array renders its elements; an object that is no element (every parsed
object) makes React throw. -/
def validChild : JsVal → Bool
  | obj _ => false
  | arr items => validChildren items
  | _ => true
/-- Whether React accepts every value of the list as a child. -/
def validChildren : List JsVal → Bool
  | [] => true
  | v :: vs => validChild v && validChildren vs
end

end JsVal

/-- The white space `StringToNumber` strips from both ends of a string
(`StrWhiteSpaceChar`: the white space and line terminator code points). -/
def isStrWhiteSpace (c : Char) : Bool :=
  decide (c.toNat ∈ [9, 10, 11, 12, 13, 32, 160, 5760, 8232, 8233, 8239, 8287, 12288, 65279]) ||
    (decide (8192 ≤ c.toNat) && decide (c.toNat ≤ 8202))

/-- The value of `c` as a digit of the given base (at most 16), if it is
one. -/
def digitOf (base : Nat) (c : Char) : Option Nat :=
  let d : Option Nat :=
    if 48 ≤ c.toNat ∧ c.toNat ≤ 57 then some (c.toNat - 48)
    else if 97 ≤ c.toNat ∧ c.toNat ≤ 102 then some (c.toNat - 87)
    else if 65 ≤ c.toNat ∧ c.toNat ≤ 70 then some (c.toNat - 55)
    else none
  match d with
  | some n => if n < base then some n else none
  | none => none

/-- The number a non-empty string of digits of the given base denotes;
`none` on the empty string and on a string with another character. -/
def digitsValue (base : Nat) (cs : List Char) : Option Nat :=
  match cs with
  | [] => none
  | _ =>
    cs.foldl
      (fun value c =>
        match value, digitOf base c with
        | some n, some d => some (n * base + d)
        | _, _ => none)
      (some 0)

/-- Whether `cs` is a `StrUnsignedDecimalLiteral` other than `Infinity`
(digits with an optional fraction and an optional exponent, at least one
digit before the exponent) whose value rounds to a positive number: the
exact value exceeds `2 ^ (-1075)`, half the smallest positive double (a
value up to that rounds to zero). -/
def unsignedDecimalPositive (cs : List Char) : Bool :=
  let isE : Char → Bool := fun c => decide (c.toNat = 101) || decide (c.toNat = 69)
  let isDot : Char → Bool := fun c => decide (c.toNat = 46)
  let mantissa := cs.takeWhile fun c => !isE c
  let exponent : Option Int :=
    match cs.dropWhile fun c => !isE c with
    | [] => some 0
    | _ :: [] => none
    | _ :: sign :: ds =>
      if sign.toNat = 45 then (digitsValue 10 ds).map fun n => -(n : Int)
      else if sign.toNat = 43 then (digitsValue 10 ds).map fun n => (n : Int)
      else (digitsValue 10 (sign :: ds)).map fun n => (n : Int)
  let whole := mantissa.takeWhile fun c => !isDot c
  let fraction := (mantissa.dropWhile fun c => !isDot c).drop 1
  let digits : List Char → Bool := fun l => l.all fun c => (digitOf 10 c).isSome
  if digits whole && digits fraction && (!whole.isEmpty || !fraction.isEmpty) then
    match exponent with
    | none => false
    | some e =>
      decide ((2 : ℚ) ^ (-1075 : ℤ) <
        (((whole ++ fraction).foldl (fun n c => n * 10 + (c.toNat - 48)) 0 : Nat) : ℚ)
          * (10 : ℚ) ^ (e - (fraction.length : Int)))
  else false

/-- Whether `StringToNumber(s) > 0`: white space is stripped; the empty
string is 0; `0x`, `0o`, `0b` (either case) introduce an unsigned hex,
octal or binary integer; otherwise an optional sign is followed by
`Infinity` or a decimal literal; anything else is `NaN`. -/
def stringToNumberPositive (s : String) : Bool :=
  let cs := ((s.data.dropWhile isStrWhiteSpace).reverse.dropWhile isStrWhiteSpace).reverse
  let radix : Option Nat :=
    match cs with
    | zero :: x :: _ =>
      if zero.toNat = 48 then
        if x.toNat = 120 ∨ x.toNat = 88 then some 16
        else if x.toNat = 111 ∨ x.toNat = 79 then some 8
        else if x.toNat = 98 ∨ x.toNat = 66 then some 2
        else none
      else none
    | _ => none
  match radix with
  | some base =>
    match digitsValue base (cs.drop 2) with
    | some n => decide (0 < n)
    | none => false
  | none =>
    match cs with
    | [] => false
    | sign :: rest =>
      if sign.toNat = 45 then false
      else
        let body := if sign.toNat = 43 then rest else cs
        if body = "Infinity".data then true else unsignedDecimalPositive body

namespace JsVal

mutual
/-- Whether the string `join` makes of the elements converts to a positive
number: the empty array gives the empty string (0), two or more elements
give a string with a comma (`NaN`), one element gives that element's
string. -/
def joinedPositive : List JsVal → Bool
  | [] => false
  | [v] => elementPositive v
  | _ :: _ :: _ => false
/-- Whether the string `join` makes of one element converts to a positive
number: `undefined` and `null` give the empty string, a boolean and an
object give a string that is no numeral, a number gives its own
numeral. -/
def elementPositive : JsVal → Bool
  | num x => decide (0 < x)
  | str s => stringToNumberPositive s
  | arr items => joinedPositive items
  | _ => false
end

/-- The comparison `v > 0` on a value whose conversion does not throw:
`ToNumber(v) > 0`, where `undefined` and an object convert to `NaN`,
`null` to 0, `true` to 1, `false` to 0, a string by `StringToNumber` and
an array through the string `join` makes of it. -/
def gtZero : JsVal → Bool
  | bool b => b
  | num x => decide (0 < x)
  | str s => stringToNumberPositive s
  | arr items => joinedPositive items
  | _ => false

end JsVal

/-! ## The results view -/

/-- The attribute an effect sets on the download link, if it sets one. -/
def Action.attributeSet : Action → Option (String × String)
  | Action.setAttribute attr value => some (attr, value)
  | _ => none

/-- An exception thrown while the page is rendered: a `TypeError` of the
component function (a property read on `undefined` or `null`, a call of
something that is no function, a conversion that finds no primitive), or
the error React throws when a child is an object. -/
inductive JsError where
  | typeError
  | invalidChild
  deriving DecidableEq, Repr

namespace JsVal

/-- The property read `v.k` of a data property `k` (no built-in property
name): a `TypeError` on `undefined` and `null`, the property's value on an
object that has it, `undefined` otherwise. -/
def prop (v : JsVal) (k : String) : Except JsError JsVal :=
  match v with
  | undefined => Except.error JsError.typeError
  | null => Except.error JsError.typeError
  | obj props => Except.ok ((props.lookup k).getD undefined)
  | _ => Except.ok undefined

/-- The method call `v.map(f)` as far as its success and the elements
passed to `f` go: only an array has a `map` to call. -/
def mapItems (v : JsVal) : Except JsError (List JsVal) :=
  match v with
  | arr items => Except.ok items
  | _ => Except.error JsError.typeError

/-- The method call `v.toFixed(1)` as far as its success goes: only a
number has a `toFixed` to call. -/
def toFixed (v : JsVal) : Except JsError Unit :=
  match v with
  | num _ => Except.ok ()
  | _ => Except.error JsError.typeError

/-- A numeric or string conversion of `v` (an operand of `Math.max`,
`Math.abs`, `>`, `>=`, `*`, `/`, or a React key) as far as its success
goes. -/
def coerce (v : JsVal) : Except JsError Unit :=
  if v.coercionThrows then Except.error JsError.typeError else Except.ok ()

/-- React's reconciliation of `v` as a child of an element, as far as its
success goes. -/
def child (v : JsVal) : Except JsError Unit :=
  if v.validChild then Except.ok () else Except.error JsError.invalidChild

end JsVal

/-- Runs `f` on the values of the list, in order, up to the first
exception. -/
def forEach (f : JsVal → Except JsError Unit) : List JsVal → Except JsError Unit
  | [] => Except.ok ()
  | v :: vs => do
    f v
    forEach f vs

/-- `String.prototype.replace` with a one-character string pattern, on the
characters of the string: the first occurrence of `c` is replaced by `r`,
the rest is kept. -/
def replaceFirst (c r : Char) : List Char → List Char
  | [] => []
  | x :: xs => if x = c then r :: xs else x :: replaceFirst c r xs

/-- The method call `v.replace('-', ' ')` (hyphen is character 45, space
character 32): only a string has a `replace` to call. -/
def JsVal.replaceHyphen (v : JsVal) : Except JsError String :=
  match v with
  | JsVal.str s => Except.ok (String.mk (replaceFirst (Char.ofNat 45) (Char.ofNat 32) s.data))
  | _ => Except.error JsError.typeError

/-- The function `getVerdictColor`: a `switch` on the verdict, whose cases
compare with `===`, so only the three strings match. -/
def getVerdictColor (verdict : JsVal) : String :=
  match verdict with
  | JsVal.str s =>
    if s = "apply" then
      "bg-gradient-to-r from-green-500/20 to-emerald-500/20 border-green-500/50 text-green-400"
    else if s = "high-risk-apply" then
      "bg-gradient-to-r from-yellow-500/20 to-amber-500/20 border-yellow-500/50 text-yellow-400"
    else if s = "avoid" then
      "bg-gradient-to-r from-red-500/20 to-rose-500/20 border-red-500/50 text-red-400"
    else
      "bg-gradient-to-r from-gray-500/20 to-slate-500/20 border-gray-500/50 text-gray-400"
  | _ => "bg-gradient-to-r from-gray-500/20 to-slate-500/20 border-gray-500/50 text-gray-400"

/-- The guard of `FinancialCharts`,
`!financialMetrics || !financialMetrics.yearly_data`: when it holds the
component returns `null` and renders nothing. -/
def FinancialCharts.returnsNull (financialMetrics : JsVal) : Bool :=
  !financialMetrics.truthy || !(financialMetrics.optProp "yearly_data").truthy

/-- What the function body of `FinancialCharts` evaluates on one entry `d`
of `yearly_data`, as far as exceptions go (every exception of the body is
a `TypeError`, so their order is immaterial): the reads `d.revenue`,
`d.profit`, `d.loss` and the conversions of `Math.max` for the two scales;
the key `year.year`; `year.revenue.toFixed(1)`; `year.profit.toFixed(1)`
when `year.profit > 0` (else `Math.abs(year.loss).toFixed(1)`, a call on a
number); `year.margin.toFixed(1)`; the comparison `year.growth_rate > 0`
and `year.growth_rate.toFixed(1)`. -/
def FinancialCharts.entry (d : JsVal) : Except JsError Unit := do
  let revenue ← d.prop "revenue"
  revenue.coerce
  let profit ← d.prop "profit"
  let loss ← d.prop "loss"
  profit.coerce
  loss.coerce
  let year ← d.prop "year"
  year.coerce
  revenue.toFixed
  if profit.gtZero then profit.toFixed
  let margin ← d.prop "margin"
  margin.toFixed
  let growth_rate ← d.prop "growth_rate"
  growth_rate.coerce
  growth_rate.toFixed

/-- The component `FinancialCharts` as React renders it on the prop
`financialMetrics`: `none` when the guard makes it return `null`, the
entries of `yearly_data` it draws when it renders its charts, or the
exception thrown meanwhile.  The function body runs first (`yearly_data`
must have a `map`, every entry is evaluated, the four totals must have a
`toFixed`); then React reconciles the children the body bound: `year.year`
of every entry and the two trend labels. -/
def FinancialCharts (financialMetrics : JsVal) : Except JsError (Option (List JsVal)) :=
  if FinancialCharts.returnsNull financialMetrics then Except.ok none
  else do
    let yearly_data ← (financialMetrics.optProp "yearly_data").mapItems
    forEach FinancialCharts.entry yearly_data
    (financialMetrics.optProp "total_revenue").toFixed
    (financialMetrics.optProp "total_profit").toFixed
    (financialMetrics.optProp "total_loss").toFixed
    (financialMetrics.optProp "avg_margin").toFixed
    forEach (fun year => (year.optProp "year").child) yearly_data
    (financialMetrics.optProp "revenue_growth_trend").child
    (financialMetrics.optProp "profitability_trend").child
    pure (some yearly_data)

/-- One card of the "Analysis Scores" grid. -/
structure ScoreCard where
  label : String
  value : JsVal

/-- What the results branch of `AnalysisPage` binds from `analysis`, in the
order the markup evaluates it: the verdict card's class and label, the
text children, the prop passed to `FinancialCharts`, the items of the two
lists, the four score cards. -/
structure ResultsView where
  verdictClass : String
  verdictLabel : String
  finalComment : JsVal
  companyOverview : JsVal
  businessSummary : JsVal
  financialAnalysis : JsVal
  financialMetrics : JsVal
  keyStrengths : List JsVal
  keyRisks : List JsVal
  valuationAnalysis : JsVal
  profitPotential : JsVal
  investmentRecommendation : JsVal
  scores : List ScoreCard

/-- The results branch of the markup as the component function
`AnalysisPage` evaluates it on `analysis`: the view it binds, or the
`TypeError` the first failing expression throws.  `getScoreColor` compares
each score with `>=`, which converts it. -/
def resultsBranch (analysis : JsVal) : Except JsError ResultsView := do
  let final_verdict ← analysis.prop "final_verdict"
  let verdictClass := getVerdictColor final_verdict
  let verdictLabel ← final_verdict.replaceHyphen
  let final_comment ← analysis.prop "final_comment"
  let company_overview ← analysis.prop "company_overview"
  let business_summary ← analysis.prop "business_summary"
  let financial_analysis ← analysis.prop "financial_analysis"
  let financial_metrics ← analysis.prop "financial_metrics"
  let key_strengths ← analysis.prop "key_strengths"
  let strengths ← key_strengths.mapItems
  let key_risks ← analysis.prop "key_risks"
  let risks ← key_risks.mapItems
  let valuation_analysis ← analysis.prop "valuation_analysis"
  let profit_potential ← analysis.prop "profit_potential"
  let investment_recommendation ← analysis.prop "investment_recommendation"
  let scores ← analysis.prop "scores"
  let financial_strength ← scores.prop "financial_strength"
  let valuation_comfort ← scores.prop "valuation_comfort"
  let promoter_quality ← scores.prop "promoter_quality"
  let demand_strength ← scores.prop "demand_strength"
  financial_strength.coerce
  valuation_comfort.coerce
  promoter_quality.coerce
  demand_strength.coerce
  pure
    { verdictClass := verdictClass
      verdictLabel := verdictLabel
      finalComment := final_comment
      companyOverview := company_overview
      businessSummary := business_summary
      financialAnalysis := financial_analysis
      financialMetrics := financial_metrics
      keyStrengths := strengths
      keyRisks := risks
      valuationAnalysis := valuation_analysis
      profitPotential := profit_potential
      investmentRecommendation := investment_recommendation
      scores :=
        [ { label := "Financial Strength", value := financial_strength },
          { label := "Valuation Comfort", value := valuation_comfort },
          { label := "Promoter Quality", value := promoter_quality },
          { label := "Demand Strength", value := demand_strength } ] }

/-- React's rendering of what the results branch bound, in the order of
the tree: each text child is reconciled, `FinancialCharts` is rendered on
its prop, then the items of the two lists and the score values are
reconciled. -/
def mountResults (bound : ResultsView) : Except JsError Unit := do
  bound.finalComment.child
  bound.companyOverview.child
  bound.businessSummary.child
  bound.financialAnalysis.child
  let _ ← FinancialCharts bound.financialMetrics
  forEach JsVal.child bound.keyStrengths
  forEach JsVal.child bound.keyRisks
  bound.valuationAnalysis.child
  bound.profitPotential.child
  bound.investmentRecommendation.child
  forEach JsVal.child (bound.scores.map fun card => card.value)

/-- The results view of `analysis`: what the results branch binds, when
the component function evaluates it and React renders it without an
exception; else the exception, on which React removes the page. -/
def renderResults (analysis : JsVal) : Except JsError ResultsView := do
  let bound ← resultsBranch analysis
  mountResults bound
  pure bound

/-! ## Which view is shown -/

/-- What the main content of the page shows: one of the three branches of
the markup, or nothing once an exception thrown while rendering has made
React remove the page. -/
inductive View where
  | upload
  | loading
  | results
  | unmounted
  deriving DecidableEq, Repr

/-- React's rendering of `AnalysisPage` in state `s`,
`!analysis ? (!loading ? <upload> : <loading>) : <results>`: the branch
rendered, or the exception thrown meanwhile.  The upload branch has the
child `{error}` when `error` is truthy; the loading branch binds numbers
and strings only. -/
def renderPage (s : State) : Except JsError View :=
  if !s.analysis.truthy then
    if !s.loading then do
      if s.error.truthy then s.error.child
      pure View.upload
    else pure View.loading
  else do
    let _ ← renderResults s.analysis
    pure View.results

/-- What the page shows in state `s`. -/
def view (s : State) : View :=
  match renderPage s with
  | Except.ok shown => shown
  | Except.error _ => View.unmounted

/-! ## The rendered page -/

/-- The handlers bound to elements of the page. -/
inductive Handler where
  | onNavigateToLanding
  | handleDrag
  | handleDrop
  | openFilePicker
  | handleFileChange
  | handleAnalyze
  | uploadAnother
  | downloadReport
  deriving DecidableEq, Repr

/-- An interactive element of the rendered page: the handler bound to it
and whether the element is disabled. -/
structure Control where
  handler : Handler
  disabled : Bool
  deriving DecidableEq, Repr

/-- The interactive elements of the page in state `s`: none when the page
could not be rendered; else the header's back button, with the upload
interface in the upload view, nothing more in the loading view, and the
two action buttons in the results view. -/
def render (s : State) : List Control :=
  match view s with
  | View.unmounted => []
  | View.upload =>
    [ { handler := Handler.onNavigateToLanding, disabled := false },
      { handler := Handler.handleDrag, disabled := false },
      { handler := Handler.handleDrop, disabled := false },
      { handler := Handler.openFilePicker, disabled := false },
      { handler := Handler.handleFileChange, disabled := false },
      { handler := Handler.handleAnalyze, disabled := s.file.isNone || s.loading } ]
  | View.loading => [ { handler := Handler.onNavigateToLanding, disabled := false } ]
  | View.results =>
    [ { handler := Handler.onNavigateToLanding, disabled := false },
      { handler := Handler.uploadAnother, disabled := false },
      { handler := Handler.downloadReport, disabled := false } ]

/-- Whether a user gesture can invoke handler `h` on the page rendered in
state `s`: an element bound to `h` is rendered and not disabled. -/
def offered (s : State) (h : Handler) : Bool :=
  (render s).any fun c => decide (c.handler = h) && !c.disabled

/-- A click on "Download Report" in the page rendered in state `s`: the
effects of `downloadReport` when the page has the button, none when there
is no button to click. -/
def clickDownloadReport (js : Builtins) (s : State) : List Action :=
  if offered s Handler.downloadReport then downloadReport js s else []

/-! ## The running page -/

/-- The page at run time: the state cells and, for every call of
`handleAnalyze` that has not finished, the effects that call has still to
perform, in the call's order. -/
structure Page where
  state : State
  running : List (List (Nat × Action))

/-- The freshly mounted page. -/
def Page.initial : Page :=
  { state := State.initial, running := [] }

/-- One step of the running page: a user gesture on an element the page
offers (drag, drop, file selection, click on Analyze with the fate `net`
of the request it issues, click on Upload Another), the next effect of one
of the running calls of `handleAnalyze`, or leaving the page and coming
back, which mounts a fresh page.  A click on Download Report changes
neither the state nor the running calls and is left out.

The effects of a call are performed one at a time, in the call's order,
with any other step in between.  The browser's event loop admits fewer
interleavings (the effects before the first `await` run at once, timers
fire by their due time), so every run of the page is a run of this
system. -/
inductive Page.Step : Page → Page → Prop where
  | drag (p : Page) (type : String) (h : offered p.state Handler.handleDrag = true) :
      Page.Step p { p with state := p.state.run (handleDrag type) }
  | drop (p : Page) (e : FileEvent) (h : offered p.state Handler.handleDrop = true) :
      Page.Step p { p with state := p.state.run (handleDrop e) }
  | fileChange (p : Page) (e : FileEvent)
      (h : offered p.state Handler.handleFileChange = true) :
      Page.Step p { p with state := p.state.run (handleFileChange e) }
  | analyze (p : Page) (net : Option (Nat × Outcome))
      (h : offered p.state Handler.handleAnalyze = true) :
      Page.Step p { p with running := handleAnalyze p.state net :: p.running }
  | effect (p : Page) (before after : List (List (Nat × Action))) (ev : Nat × Action)
      (rest : List (Nat × Action)) (h : p.running = before ++ (ev :: rest) :: after) :
      Page.Step p { state := p.state.apply ev.2, running := before ++ rest :: after }
  | uploadAnother (p : Page) (h : offered p.state Handler.uploadAnother = true) :
      Page.Step p { p with state := p.state.run uploadAnotherOnClick }
  | remount (p : Page) : Page.Step p Page.initial

/-- The pages reachable from the freshly mounted one. -/
def Page.Reachable (p : Page) : Prop :=
  Relation.ReflTransGen Page.Step Page.initial p

/-- The candidate is absent or a PDF. -/
def State.candidateIsPdf (s : State) : Prop :=
  ∀ f, s.file = some f → f.type = "application/pdf"

/-- Every file in the form data of the effect, if it is a request, is a
PDF. -/
def Action.carriesPdf (a : Action) : Prop :=
  ∀ url form headers, a = Action.axiosPost url form headers →
    ∀ x ∈ form, x.2.type = "application/pdf"

/-- The candidate is absent or a PDF, and the effects still to be performed
by running calls write no candidate and request with PDFs only. -/
def Page.Safe (p : Page) : Prop :=
  p.state.candidateIsPdf ∧
  ∀ l ∈ p.running, ∀ ev ∈ l, (∀ f, ev.2 ≠ Action.setFile f) ∧ ev.2.carriesPdf

/-- The effects of `handleAnalyze` before its first `await`, for the
candidate `file`: the five setter calls and the request.  They run at
once, within the click. -/
def handleAnalyzeStart (file : File) : List (Nat × Action) :=
  [ (0, Action.setLoading true),
    (0, Action.setError JsVal.null),
    (0, Action.setAnalysis JsVal.null),
    (0, Action.setLoadingProgress 0),
    (0, Action.setLoadingStage "Initializing analysis..."),
    (0, Action.axiosPost "https://ipo-analyser-server.vercel.app/api/v1/ipo/analyze"
          [("rhp", file)] [("Content-Type", "multipart/form-data")]) ]

/-- The effects of `handleAnalyze` after its first `await`: those of the
timer task and of the continuation of the request, as the event loop
orders them, and the final `setLoading(false)` when the request
settles. -/
def handleAnalyzeRest (net : Option (Nat × Outcome)) : List (Nat × Action) :=
  match net with
  | none => progressPromise 0 progressStages
  | some (t, outcome) =>
    scheduleAll (afterPost t outcome) (progressPromise 0 progressStages)
      ++ [(max (afterPostDone t outcome) (progressDone 0 progressStages),
            Action.setLoading false)]

/-- One turn of the event loop of the page, with the click on Analyze taken
as the browser runs it: the effects of `handleAnalyze` before its first
`await` are performed within the click, the later ones are left to later
turns.  The other steps are those of `Page.Step`.  The effects a call has
still to perform run in the call's order with any other turn in between;
the event loop admits fewer interleavings (timers fire by their due
time), so every run of the page is a run of this system. -/
inductive Page.Turn : Page → Page → Prop where
  | drag (p : Page) (type : String) (h : offered p.state Handler.handleDrag = true) :
      Page.Turn p { p with state := p.state.run (handleDrag type) }
  | drop (p : Page) (e : FileEvent) (h : offered p.state Handler.handleDrop = true) :
      Page.Turn p { p with state := p.state.run (handleDrop e) }
  | fileChange (p : Page) (e : FileEvent)
      (h : offered p.state Handler.handleFileChange = true) :
      Page.Turn p { p with state := p.state.run (handleFileChange e) }
  | analyze (p : Page) (file : File) (net : Option (Nat × Outcome))
      (hfile : p.state.file = some file)
      (h : offered p.state Handler.handleAnalyze = true) :
      Page.Turn p
        { state := p.state.runTimed (handleAnalyzeStart file),
          running := handleAnalyzeRest net :: p.running }
  | effect (p : Page) (before after : List (List (Nat × Action))) (ev : Nat × Action)
      (rest : List (Nat × Action)) (h : p.running = before ++ (ev :: rest) :: after) :
      Page.Turn p { state := p.state.apply ev.2, running := before ++ rest :: after }
  | uploadAnother (p : Page) (h : offered p.state Handler.uploadAnother = true) :
      Page.Turn p { p with state := p.state.run uploadAnotherOnClick }
  | remount (p : Page) : Page.Turn p Page.initial

/-- The pages that occur in a run of the event loop from the freshly
mounted page. -/
def Page.Occurs (p : Page) : Prop :=
  Relation.ReflTransGen Page.Turn Page.initial p

/-! ## Score colours -/

/-- The function `getScoreColor` on a numeric score (a finite number, taken
as the exact rational it denotes; comparisons of such numbers are
exact). -/
def getScoreColor (score : ℚ) : String :=
  if score ≥ 8 then "from-green-500 to-emerald-500"
  else if score ≥ 6 then "from-blue-500 to-cyan-500"
  else if score ≥ 4 then "from-yellow-500 to-amber-500"
  else "from-red-500 to-rose-500"

/-- The rank of a score colour, from the worst band (red, 0) to the best
(green, 3). -/
def scoreBandRank (color : String) : Nat :=
  if color = "from-green-500 to-emerald-500" then 3
  else if color = "from-blue-500 to-cyan-500" then 2
  else if color = "from-yellow-500 to-amber-500" then 1
  else 0

/-! ## Financial charts -/

/-- One entry of `yearly_data` with numeric fields (finite numbers, taken
as the exact rationals they denote). -/
structure YearData where
  year : JsVal
  revenue : ℚ
  profit : ℚ
  loss : ℚ
  margin : ℚ
  growth_rate : ℚ

/-- The call `Math.max(...xs)`: the largest element; `none` stands for the
result on the empty list, which is no finite number. -/
def mathMax : List ℚ → Option ℚ
  | [] => none
  | x :: xs => some (xs.foldl max x)

/-- The division `x / y` of two finite numbers; `none` stands for a result
that is no finite number (division by zero). -/
def jsDiv (x y : ℚ) : Option ℚ :=
  if y = 0 then none else some (x / y)

/-- The constant `maxRevenue` of `FinancialCharts`. -/
def maxRevenue (yearly_data : List YearData) : Option ℚ :=
  mathMax (yearly_data.map fun d => d.revenue)

/-- The constant `maxProfit` of `FinancialCharts`. -/
def maxProfit (yearly_data : List YearData) : Option ℚ :=
  mathMax (yearly_data.map fun d => max d.profit d.loss)

/-- The integer nearest to `x`, a tie going to the even one. -/
def roundHalfEven (x : ℚ) : ℤ :=
  if x - ⌊x⌋ < 1 / 2 then ⌊x⌋
  else if 1 / 2 < x - ⌊x⌋ then ⌊x⌋ + 1
  else if ⌊x⌋ % 2 = 0 then ⌊x⌋
  else ⌊x⌋ + 1

/-- The exponent of the spacing of the doubles (IEEE 754 binary64 numbers)
around `x`: 53 significant bits, and no finer than `2 ^ (-1074)`, the
spacing of the subnormal numbers. -/
def ulpExponent (x : ℚ) : ℤ :=
  max (Int.log 2 |x| - 52) (-1074)

/-- The double an arithmetic operation returns when its exact result is
`x`: the nearest multiple of the spacing around `x`, a tie going to the
even one; `none` stands for an infinite result (overflow).  The sign of a
zero is not kept. -/
def roundDouble (x : ℚ) : Option ℚ :=
  if |(roundHalfEven (x / 2 ^ ulpExponent x) : ℚ) * 2 ^ ulpExponent x| < 2 ^ (1024 : ℤ) then
    some ((roundHalfEven (x / 2 ^ ulpExponent x) : ℚ) * 2 ^ ulpExponent x)
  else none

/-- The division `x / y` of two doubles; `none` stands for a result that is
no finite number (division by zero, overflow). -/
def doubleDiv (x y : ℚ) : Option ℚ :=
  if y = 0 then none else roundDouble (x / y)

/-- The product `x * y` of two doubles; `none` stands for an infinite
result. -/
def doubleMul (x y : ℚ) : Option ℚ :=
  roundDouble (x * y)

/-- The width, in percent, of the revenue bar of `year`:
`(year.revenue / maxRevenue) * 100` in double arithmetic; `none` when that
is no finite number. -/
def revenueBarWidth (yearly_data : List YearData) (year : YearData) : Option ℚ := do
  let m ← maxRevenue yearly_data
  let q ← doubleDiv year.revenue m
  doubleMul q 100

/-- The width, in percent, of the profit/loss bar of `year`:
`(year.profit / maxProfit) * 100` when `year.profit > 0`, else
`(Math.abs(year.loss) / maxProfit) * 100`; `none` when that is no finite
number. -/
def profitLossBarWidth (yearly_data : List YearData) (year : YearData) : Option ℚ := do
  let m ← maxProfit yearly_data
  let q ← if year.profit > 0 then jsDiv year.profit m else jsDiv |year.loss| m
  pure (q * 100)

/-- What holds of the effects `l` that a call of `handleAnalyze` has still
to perform in state `s`: while there are any, `loading` is true; each is a
write of the progress indicator, of the result, of the error, or the final
`setLoading(false)`, after which nothing follows; while the write of the
result is ahead the error is null and no write of the error follows;
while a write of the error is ahead no result is shown. -/
def Page.Pending (s : State) (l : List (Nat × Action)) : Prop :=
  (l ≠ [] → s.loading = true) ∧
  (∀ ev ∈ l, ev.2.isProgressWrite = true ∨ (∃ v, ev.2 = Action.setAnalysis v) ∨
    (∃ v, ev.2 = Action.setError v) ∨ ev.2 = Action.setLoading false) ∧
  (∀ pre post t, l = pre ++ (t, Action.setLoading false) :: post → post = []) ∧
  ((∃ ev ∈ l, ∃ v, ev.2 = Action.setAnalysis v) →
    s.error = JsVal.null ∧ ∀ ev ∈ l, ∀ v, ev.2 ≠ Action.setError v) ∧
  ((∃ ev ∈ l, ∃ v, ev.2 = Action.setError v) → s.analysis.truthy = false)

/-- No error is held while a result is held, and at most one call of
`handleAnalyze` has effects still to perform, which are as `Page.Pending`
says. -/
def Page.Orderly (p : Page) : Prop :=
  (p.state.analysis.truthy = true → p.state.error = JsVal.null) ∧
  ∃ l, (p.running.filter fun r => !r.isEmpty) = [l].filter (fun r => !r.isEmpty) ∧
    Page.Pending p.state l

/-! ## Basic facts about running effects -/

theorem State.run_nil (s : State) : s.run [] = s := rfl

theorem State.run_cons (s : State) (a : Action) (as : List Action) :
    s.run (a :: as) = (s.apply a).run as := rfl

theorem State.run_append (s : State) (as bs : List Action) :
    s.run (as ++ bs) = (s.run as).run bs := by
  simp [State.run, List.foldl_append]

theorem State.runTimed_append (s : State) (as bs : List (Nat × Action)) :
    s.runTimed (as ++ bs) = (s.runTimed as).runTimed bs := by
  simp [State.runTimed, State.run_append]

/-! ## Facts about rendering -/

/-- `StringToNumber(s) > 0` on some strings. -/
theorem stringToNumberPositive_examples :
    stringToNumberPositive "5" = true ∧ stringToNumberPositive " 12 " = true ∧
    stringToNumberPositive "abc" = false ∧ stringToNumberPositive "-5" = false ∧
    stringToNumberPositive "" = false ∧ stringToNumberPositive "0x1F" = true ∧
    stringToNumberPositive "0" = false := by
  have h1 : ((2 : ℚ) ^ 1075)⁻¹ < 1 :=
    inv_lt_one_of_one_lt₀ (one_lt_pow₀ (by norm_num) (by norm_num))
  refine ⟨?_, ?_, ?_, ?_, ?_, ?_, ?_⟩
  · simp [stringToNumberPositive, isStrWhiteSpace, unsignedDecimalPositive, digitOf, digitsValue]
    linarith
  · simp [stringToNumberPositive, isStrWhiteSpace, unsignedDecimalPositive, digitOf, digitsValue]
    linarith
  · simp [stringToNumberPositive, isStrWhiteSpace, unsignedDecimalPositive, digitOf, digitsValue]
  · simp [stringToNumberPositive, isStrWhiteSpace, unsignedDecimalPositive, digitOf, digitsValue]
  · simp [stringToNumberPositive, isStrWhiteSpace, unsignedDecimalPositive, digitOf, digitsValue]
  · simp [stringToNumberPositive, isStrWhiteSpace, unsignedDecimalPositive, digitOf, digitsValue]
  · simp [stringToNumberPositive, isStrWhiteSpace, unsignedDecimalPositive, digitOf, digitsValue]
    positivity

theorem forEach_ok_iff (f : JsVal → Except JsError Unit) (l : List JsVal) :
    forEach f l = Except.ok () ↔ ∀ v ∈ l, f v = Except.ok () := by
  induction l with
  | nil => simp [forEach]
  | cons v vs ih =>
    simp only [forEach, bind, Except.bind, List.mem_cons, forall_eq_or_imp]
    cases hv : f v with
    | error e => simp
    | ok u => cases u; simp [ih]

theorem forEach_error (f : JsVal → Except JsError Unit) (l : List JsVal) (e e0 : JsError)
    (hf : ∀ v e1, f v = Except.error e1 → e1 = e0) (h : forEach f l = Except.error e) :
    e = e0 := by
  induction l with
  | nil => simp [forEach] at h
  | cons v vs ih =>
    simp only [forEach, bind, Except.bind] at h
    cases hv : f v with
    | error e1 =>
      rw [hv] at h
      simp only [Except.error.injEq] at h
      exact h ▸ hf v e1 hv
    | ok u =>
      rw [hv] at h
      exact ih h

theorem JsVal.child_ok_iff (v : JsVal) : v.child = Except.ok () ↔ v.validChild = true := by
  unfold JsVal.child
  cases v.validChild <;> simp

theorem JsVal.coerce_ok_iff (v : JsVal) :
    v.coerce = Except.ok () ↔ v.coercionThrows = false := by
  unfold JsVal.coerce
  cases v.coercionThrows <;> simp

theorem JsVal.toFixed_ok_iff (v : JsVal) : v.toFixed = Except.ok () ↔ ∃ x, v = JsVal.num x := by
  cases v <;> simp [JsVal.toFixed]

theorem JsVal.prop_eq (v : JsVal) (k : String) (h1 : v ≠ JsVal.undefined)
    (h2 : v ≠ JsVal.null) : v.prop k = Except.ok (v.optProp k) := by
  cases v <;> simp_all [JsVal.prop, JsVal.optProp]

theorem validChildren_iff (l : List JsVal) :
    JsVal.validChildren l = true ↔ ∀ v ∈ l, v.validChild = true := by
  induction l with
  | nil => simp [JsVal.validChildren]
  | cons v vs ih => simp [JsVal.validChildren, ih]

theorem anyCoercionThrows_iff (l : List JsVal) :
    JsVal.anyCoercionThrows l = true ↔ ∃ v ∈ l, v.coercionThrows = true := by
  induction l with
  | nil => simp [JsVal.anyCoercionThrows]
  | cons v vs ih => simp [JsVal.anyCoercionThrows, ih]

mutual
theorem JsVal.coercionThrows_of_validChild :
    ∀ v : JsVal, v.validChild = true → v.coercionThrows = false
  | JsVal.undefined, _ => rfl
  | JsVal.null, _ => rfl
  | JsVal.bool _, _ => rfl
  | JsVal.num _, _ => rfl
  | JsVal.str _, _ => rfl
  | JsVal.arr items, h => by
    simp only [JsVal.validChild] at h
    simp only [JsVal.coercionThrows]
    exact JsVal.anyCoercionThrows_of_validChildren items h
  | JsVal.obj _, h => by simp [JsVal.validChild] at h
theorem JsVal.anyCoercionThrows_of_validChildren :
    ∀ l : List JsVal, JsVal.validChildren l = true → JsVal.anyCoercionThrows l = false
  | [], _ => rfl
  | v :: vs, h => by
    simp only [JsVal.validChildren, Bool.and_eq_true] at h
    simp only [JsVal.anyCoercionThrows, Bool.or_eq_false_iff]
    exact ⟨JsVal.coercionThrows_of_validChild v h.1,
      JsVal.anyCoercionThrows_of_validChildren vs h.2⟩
end

theorem bind_unit_ok_iff (a : Except JsError Unit) (b : Unit → Except JsError Unit) :
    (a >>= b) = Except.ok () ↔ a = Except.ok () ∧ b () = Except.ok () := by
  cases a <;> simp [bind, Except.bind]

theorem ok_bind {α β : Type} (x : α) (f : α → Except JsError β) :
    (Except.ok x >>= f) = f x := rfl

theorem bind_error_cases {α β : Type} (a : Except JsError α) (b : α → Except JsError β)
    (e : JsError) (h : (a >>= b) = Except.error e) :
    a = Except.error e ∨ ∃ x, a = Except.ok x ∧ b x = Except.error e := by
  cases a with
  | error e1 => left; simpa [bind, Except.bind] using h
  | ok x => right; exact ⟨x, rfl, by simpa [bind, Except.bind] using h⟩

theorem JsVal.prop_error (v : JsVal) (k : String) (e : JsError)
    (h : v.prop k = Except.error e) : e = JsError.typeError := by
  cases v <;> simp [JsVal.prop] at h <;> exact h.symm

theorem JsVal.coerce_error (v : JsVal) (e : JsError)
    (h : v.coerce = Except.error e) : e = JsError.typeError := by
  unfold JsVal.coerce at h
  cases hc : v.coercionThrows <;> simp [hc] at h
  exact h.symm

theorem JsVal.toFixed_error (v : JsVal) (e : JsError)
    (h : v.toFixed = Except.error e) : e = JsError.typeError := by
  cases v <;> simp [JsVal.toFixed] at h <;> exact h.symm

theorem JsVal.mapItems_error (v : JsVal) (e : JsError)
    (h : v.mapItems = Except.error e) : e = JsError.typeError := by
  cases v <;> simp [JsVal.mapItems] at h <;> exact h.symm

theorem JsVal.replaceHyphen_error (v : JsVal) (e : JsError)
    (h : v.replaceHyphen = Except.error e) : e = JsError.typeError := by
  cases v <;> simp [JsVal.replaceHyphen] at h <;> exact h.symm

theorem JsVal.child_error (v : JsVal) (e : JsError)
    (h : v.child = Except.error e) : e = JsError.invalidChild := by
  unfold JsVal.child at h
  cases hc : v.validChild <;> simp [hc] at h
  exact h.symm

/-- When the function body of `FinancialCharts` evaluates an entry without
an exception. -/
theorem FinancialCharts.entry_ok_iff (d : JsVal) :
    FinancialCharts.entry d = Except.ok () ↔
      d ≠ JsVal.undefined ∧ d ≠ JsVal.null ∧
      (∃ x, d.optProp "revenue" = JsVal.num x) ∧
      (d.optProp "profit").coercionThrows = false ∧
      (d.optProp "loss").coercionThrows = false ∧
      (d.optProp "year").coercionThrows = false ∧
      ((d.optProp "profit").gtZero = true → ∃ x, d.optProp "profit" = JsVal.num x) ∧
      (∃ x, d.optProp "margin" = JsVal.num x) ∧
      (∃ x, d.optProp "growth_rate" = JsVal.num x) := by
  by_cases h1 : d = JsVal.undefined
  · subst h1; simp [FinancialCharts.entry, JsVal.prop, bind, Except.bind]
  by_cases h2 : d = JsVal.null
  · subst h2; simp [FinancialCharts.entry, JsVal.prop, bind, Except.bind]
  have hnum : ∀ v : JsVal, (∃ x, v = JsVal.num x) → v.coercionThrows = false := by
    rintro v ⟨x, rfl⟩; rfl
  cases hp : (d.optProp "profit").gtZero <;>
    simp only [FinancialCharts.entry, JsVal.prop_eq d _ h1 h2, ok_bind, hp, if_true,
      Bool.false_eq_true, if_false, pure, Except.pure,
      bind_unit_ok_iff, JsVal.coerce_ok_iff, JsVal.toFixed_ok_iff,
      ne_eq, h1, h2, not_false_eq_true, true_and, true_implies, false_implies, and_true]
  · constructor
    · rintro ⟨-, h4, h5, h6, h7, h8, -, h9⟩
      exact ⟨h7, h4, h5, h6, h8, h9⟩
    · rintro ⟨h3, h4, h5, h6, h8, h9⟩
      exact ⟨hnum _ h3, h4, h5, h6, h3, h8, hnum _ h9, h9⟩
  · constructor
    · rintro ⟨-, h4, h5, h6, h7, h7b, h8, -, h9⟩
      exact ⟨h7, h4, h5, h6, h7b, h8, h9⟩
    · rintro ⟨h3, h4, h5, h6, h7b, h8, h9⟩
      exact ⟨hnum _ h3, h4, h5, h6, h3, h7b, h8, hnum _ h9, h9⟩

/-- Every exception of the function body on an entry is a `TypeError`. -/
theorem FinancialCharts.entry_error (d : JsVal) (e : JsError)
    (h : FinancialCharts.entry d = Except.error e) : e = JsError.typeError := by
  unfold FinancialCharts.entry at h
  rcases bind_error_cases _ _ _ h with h | ⟨_, -, h⟩
  · exact JsVal.prop_error _ _ _ h
  rcases bind_error_cases _ _ _ h with h | ⟨_, -, h⟩
  · exact JsVal.coerce_error _ _ h
  rcases bind_error_cases _ _ _ h with h | ⟨_, -, h⟩
  · exact JsVal.prop_error _ _ _ h
  rcases bind_error_cases _ _ _ h with h | ⟨_, -, h⟩
  · exact JsVal.prop_error _ _ _ h
  rcases bind_error_cases _ _ _ h with h | ⟨_, -, h⟩
  · exact JsVal.coerce_error _ _ h
  rcases bind_error_cases _ _ _ h with h | ⟨_, -, h⟩
  · exact JsVal.coerce_error _ _ h
  rcases bind_error_cases _ _ _ h with h | ⟨_, -, h⟩
  · exact JsVal.prop_error _ _ _ h
  rcases bind_error_cases _ _ _ h with h | ⟨_, -, h⟩
  · exact JsVal.coerce_error _ _ h
  rcases bind_error_cases _ _ _ h with h | ⟨_, -, h⟩
  · exact JsVal.toFixed_error _ _ h
  have tail : ∀ r : Except JsError Unit, (do
        let _ ← r
        let margin ← d.prop "margin"
        margin.toFixed
        let growth_rate ← d.prop "growth_rate"
        growth_rate.coerce
        growth_rate.toFixed) = Except.error e →
      r = Except.error e ∨ e = JsError.typeError := by
    intro r h
    rcases bind_error_cases _ _ _ h with h | ⟨_, -, h⟩
    · exact Or.inl h
    right
    rcases bind_error_cases _ _ _ h with h | ⟨_, -, h⟩
    · exact JsVal.prop_error _ _ _ h
    rcases bind_error_cases _ _ _ h with h | ⟨_, -, h⟩
    · exact JsVal.toFixed_error _ _ h
    rcases bind_error_cases _ _ _ h with h | ⟨_, -, h⟩
    · exact JsVal.prop_error _ _ _ h
    rcases bind_error_cases _ _ _ h with h | ⟨_, -, h⟩
    · exact JsVal.coerce_error _ _ h
    exact JsVal.toFixed_error _ _ h
  dsimp only at h
  split at h
  · rcases tail _ h with h | h
    · exact JsVal.toFixed_error _ _ h
    · exact h
  · rcases tail _ h with h | h
    · simp [pure, Except.pure] at h
    · exact h

/-- When `FinancialCharts` renders without an exception: the guard makes it
return `null`, or `yearly_data` is an array whose entries all evaluate,
the four totals are numbers, and the years and the two trend labels are
valid children. -/
theorem FinancialCharts_ok_iff (fm : JsVal) :
    (∃ r, FinancialCharts fm = Except.ok r) ↔
      FinancialCharts.returnsNull fm = true ∨
      ∃ rows, fm.optProp "yearly_data" = JsVal.arr rows ∧
        (∀ d ∈ rows, FinancialCharts.entry d = Except.ok ()) ∧
        (∃ x, fm.optProp "total_revenue" = JsVal.num x) ∧
        (∃ x, fm.optProp "total_profit" = JsVal.num x) ∧
        (∃ x, fm.optProp "total_loss" = JsVal.num x) ∧
        (∃ x, fm.optProp "avg_margin" = JsVal.num x) ∧
        (∀ d ∈ rows, (d.optProp "year").validChild = true) ∧
        (fm.optProp "revenue_growth_trend").validChild = true ∧
        (fm.optProp "profitability_trend").validChild = true := by
  unfold FinancialCharts
  cases hg : FinancialCharts.returnsNull fm
  · simp only [Bool.false_eq_true, if_false, false_or]
    cases hy : fm.optProp "yearly_data" with
    | arr rows =>
      constructor
      · rintro ⟨r, h⟩
        refine ⟨rows, rfl, ?_⟩
        simp only [JsVal.mapItems, ok_bind] at h
        have h2 : (do
            forEach FinancialCharts.entry rows
            (fm.optProp "total_revenue").toFixed
            (fm.optProp "total_profit").toFixed
            (fm.optProp "total_loss").toFixed
            (fm.optProp "avg_margin").toFixed
            forEach (fun year => (year.optProp "year").child) rows
            (fm.optProp "revenue_growth_trend").child
            (fm.optProp "profitability_trend").child : Except JsError Unit) = Except.ok () := by
          revert h
          cases forEach FinancialCharts.entry rows <;>
            cases (fm.optProp "total_revenue").toFixed <;>
            cases (fm.optProp "total_profit").toFixed <;>
            cases (fm.optProp "total_loss").toFixed <;>
            cases (fm.optProp "avg_margin").toFixed <;>
            cases forEach (fun year => (year.optProp "year").child) rows <;>
            cases (fm.optProp "revenue_growth_trend").child <;>
            cases (fm.optProp "profitability_trend").child <;>
            simp [bind, Except.bind, pure, Except.pure]
        simpa only [bind_unit_ok_iff, forEach_ok_iff, JsVal.toFixed_ok_iff,
          JsVal.child_ok_iff] using h2
      · rintro ⟨rows2, hrows, h1, h2, h3, h4, h5, h6, h7, h8⟩
        cases hrows
        refine ⟨some rows, ?_⟩
        rw [← forEach_ok_iff] at h1
        rw [← JsVal.toFixed_ok_iff] at h2 h3 h4 h5
        have h6b := (forEach_ok_iff (fun year => (year.optProp "year").child) rows).2
          (fun d hd => (JsVal.child_ok_iff _).2 (h6 d hd))
        rw [← JsVal.child_ok_iff] at h7 h8
        simp only [JsVal.mapItems, ok_bind]
        rw [h1, h2, h3, h4, h5, h6b, h7, h8]
        rfl
    | _ => simp [JsVal.mapItems, bind, Except.bind]
  · simp

/-- The value `FinancialCharts` returns when it renders: `none` under the
guard, the entries of `yearly_data` otherwise. -/
theorem FinancialCharts_of_returnsNull (fm : JsVal)
    (h : FinancialCharts.returnsNull fm = true) : FinancialCharts fm = Except.ok none := by
  simp [FinancialCharts, h]

/-- `FinancialCharts` on a missing prop, on metrics without totals and on
well-formed metrics; the function body on an entry whose profit is null
(not greater than 0, so the loss is formatted) and on one whose profit is
`true` (greater than 0, and without a `toFixed`). -/
theorem FinancialCharts_examples :
    FinancialCharts JsVal.undefined = Except.ok none ∧
    FinancialCharts (JsVal.obj [("yearly_data", JsVal.arr [])])
      = Except.error JsError.typeError ∧
    FinancialCharts (JsVal.obj
        [ ("yearly_data", JsVal.arr [JsVal.obj
            [ ("year", JsVal.str "FY23"), ("revenue", JsVal.num 100), ("profit", JsVal.num 10),
              ("loss", JsVal.num 0), ("margin", JsVal.num 10), ("growth_rate", JsVal.num 5) ]]),
          ("total_revenue", JsVal.num 100), ("total_profit", JsVal.num 10),
          ("total_loss", JsVal.num 0), ("avg_margin", JsVal.num 10),
          ("revenue_growth_trend", JsVal.str "increasing"),
          ("profitability_trend", JsVal.str "improving") ])
      = Except.ok (some [JsVal.obj
            [ ("year", JsVal.str "FY23"), ("revenue", JsVal.num 100), ("profit", JsVal.num 10),
              ("loss", JsVal.num 0), ("margin", JsVal.num 10), ("growth_rate", JsVal.num 5) ]]) ∧
    FinancialCharts.entry (JsVal.obj
        [ ("year", JsVal.str "FY23"), ("revenue", JsVal.num 100), ("profit", JsVal.null),
          ("loss", JsVal.num 0), ("margin", JsVal.num 10), ("growth_rate", JsVal.num 5) ])
      = Except.ok () ∧
    FinancialCharts.entry (JsVal.obj
        [ ("year", JsVal.str "FY23"), ("revenue", JsVal.num 100), ("profit", JsVal.bool true),
          ("loss", JsVal.num 0), ("margin", JsVal.num 10), ("growth_rate", JsVal.num 5) ])
      = Except.error JsError.typeError := by
  refine ⟨rfl, rfl, ?_, ?_, ?_⟩
  · rfl
  · rfl
  · rfl


/-- The function body on an entry whose profit is a string: `"abc"` is not
greater than 0, so the loss is formatted; `"5"` is greater than 0 and has
no `toFixed`. -/
theorem FinancialCharts.entry_string_profit :
    FinancialCharts.entry (JsVal.obj
        [ ("year", JsVal.str "FY23"), ("revenue", JsVal.num 100), ("profit", JsVal.str "abc"),
          ("loss", JsVal.num 0), ("margin", JsVal.num 10), ("growth_rate", JsVal.num 5) ])
      = Except.ok () ∧
    FinancialCharts.entry (JsVal.obj
        [ ("year", JsVal.str "FY23"), ("revenue", JsVal.num 100), ("profit", JsVal.str "5"),
          ("loss", JsVal.num 0), ("margin", JsVal.num 10), ("growth_rate", JsVal.num 5) ])
      = Except.error JsError.typeError := by
  constructor
  · rw [FinancialCharts.entry_ok_iff]
    simp [JsVal.optProp, List.lookup, JsVal.coercionThrows, JsVal.gtZero,
      stringToNumberPositive_examples.2.2.1]
  · cases h : FinancialCharts.entry (JsVal.obj
        [ ("year", JsVal.str "FY23"), ("revenue", JsVal.num 100), ("profit", JsVal.str "5"),
          ("loss", JsVal.num 0), ("margin", JsVal.num 10), ("growth_rate", JsVal.num 5) ]) with
    | error e => rw [FinancialCharts.entry_error _ e h]
    | ok u =>
      exfalso
      have h2 := (FinancialCharts.entry_ok_iff _).1 h
      have h3 := h2.2.2.2.2.2.2.1
      simp [JsVal.optProp, List.lookup, JsVal.gtZero, stringToNumberPositive_examples.1] at h3

/-- When the component function evaluates the results branch without an
exception. -/
theorem resultsBranch_ok_iff (a : JsVal) :
    (∃ bound, resultsBranch a = Except.ok bound) ↔
      (∃ v, a.optProp "final_verdict" = JsVal.str v) ∧
      (∃ xs, a.optProp "key_strengths" = JsVal.arr xs) ∧
      (∃ ys, a.optProp "key_risks" = JsVal.arr ys) ∧
      a.optProp "scores" ≠ JsVal.undefined ∧
      a.optProp "scores" ≠ JsVal.null ∧
      ((a.optProp "scores").optProp "financial_strength").coercionThrows = false ∧
      ((a.optProp "scores").optProp "valuation_comfort").coercionThrows = false ∧
      ((a.optProp "scores").optProp "promoter_quality").coercionThrows = false ∧
      ((a.optProp "scores").optProp "demand_strength").coercionThrows = false := by
  by_cases h1 : a = JsVal.undefined
  · subst h1; simp [resultsBranch, JsVal.prop, JsVal.optProp, bind, Except.bind]
  by_cases h2 : a = JsVal.null
  · subst h2; simp [resultsBranch, JsVal.prop, JsVal.optProp, bind, Except.bind]
  simp only [resultsBranch, JsVal.prop_eq a _ h1 h2, ok_bind]
  generalize a.optProp "final_verdict" = fv
  generalize a.optProp "key_strengths" = ks
  generalize a.optProp "key_risks" = kr
  generalize a.optProp "scores" = sc
  cases fv <;> simp [JsVal.replaceHyphen, bind, Except.bind]
  cases ks <;> simp [JsVal.mapItems]
  cases kr <;> simp [JsVal.mapItems]
  by_cases h3 : sc = JsVal.undefined
  · subst h3; simp [JsVal.prop]
  by_cases h4 : sc = JsVal.null
  · subst h4; simp [JsVal.prop]
  simp only [JsVal.prop_eq sc _ h3 h4, ne_eq, h3, h4, not_false_eq_true, true_and]
  unfold JsVal.coerce
  cases (sc.optProp "financial_strength").coercionThrows <;>
    cases (sc.optProp "valuation_comfort").coercionThrows <;>
    cases (sc.optProp "promoter_quality").coercionThrows <;>
    cases (sc.optProp "demand_strength").coercionThrows <;>
    simp [pure, Except.pure]

/-- Every exception of the component function on the results branch is a
`TypeError`. -/
theorem resultsBranch_error (a : JsVal) (e : JsError)
    (h : resultsBranch a = Except.error e) : e = JsError.typeError := by
  unfold resultsBranch at h
  rcases bind_error_cases _ _ _ h with h | ⟨_, -, h⟩
  · exact JsVal.prop_error _ _ _ h
  rcases bind_error_cases _ _ _ h with h | ⟨_, -, h⟩
  · exact JsVal.replaceHyphen_error _ _ h
  rcases bind_error_cases _ _ _ h with h | ⟨_, -, h⟩
  · exact JsVal.prop_error _ _ _ h
  rcases bind_error_cases _ _ _ h with h | ⟨_, -, h⟩
  · exact JsVal.prop_error _ _ _ h
  rcases bind_error_cases _ _ _ h with h | ⟨_, -, h⟩
  · exact JsVal.prop_error _ _ _ h
  rcases bind_error_cases _ _ _ h with h | ⟨_, -, h⟩
  · exact JsVal.prop_error _ _ _ h
  rcases bind_error_cases _ _ _ h with h | ⟨_, -, h⟩
  · exact JsVal.prop_error _ _ _ h
  rcases bind_error_cases _ _ _ h with h | ⟨_, -, h⟩
  · exact JsVal.prop_error _ _ _ h
  rcases bind_error_cases _ _ _ h with h | ⟨_, -, h⟩
  · exact JsVal.mapItems_error _ _ h
  rcases bind_error_cases _ _ _ h with h | ⟨_, -, h⟩
  · exact JsVal.prop_error _ _ _ h
  rcases bind_error_cases _ _ _ h with h | ⟨_, -, h⟩
  · exact JsVal.mapItems_error _ _ h
  rcases bind_error_cases _ _ _ h with h | ⟨_, -, h⟩
  · exact JsVal.prop_error _ _ _ h
  rcases bind_error_cases _ _ _ h with h | ⟨_, -, h⟩
  · exact JsVal.prop_error _ _ _ h
  rcases bind_error_cases _ _ _ h with h | ⟨_, -, h⟩
  · exact JsVal.prop_error _ _ _ h
  rcases bind_error_cases _ _ _ h with h | ⟨_, -, h⟩
  · exact JsVal.prop_error _ _ _ h
  rcases bind_error_cases _ _ _ h with h | ⟨_, -, h⟩
  · exact JsVal.prop_error _ _ _ h
  rcases bind_error_cases _ _ _ h with h | ⟨_, -, h⟩
  · exact JsVal.prop_error _ _ _ h
  rcases bind_error_cases _ _ _ h with h | ⟨_, -, h⟩
  · exact JsVal.prop_error _ _ _ h
  rcases bind_error_cases _ _ _ h with h | ⟨_, -, h⟩
  · exact JsVal.prop_error _ _ _ h
  rcases bind_error_cases _ _ _ h with h | ⟨_, -, h⟩
  · exact JsVal.coerce_error _ _ h
  rcases bind_error_cases _ _ _ h with h | ⟨_, -, h⟩
  · exact JsVal.coerce_error _ _ h
  rcases bind_error_cases _ _ _ h with h | ⟨_, -, h⟩
  · exact JsVal.coerce_error _ _ h
  rcases bind_error_cases _ _ _ h with h | ⟨_, -, h⟩
  · exact JsVal.coerce_error _ _ h
  simp [pure, Except.pure] at h

/-- What the results branch binds when the component function evaluates
it: each field is the property read from the result, `undefined` when the
property is missing. -/
theorem resultsBranch_fields (a : JsVal) (bound : ResultsView)
    (h : resultsBranch a = Except.ok bound) :
    bound.verdictClass = getVerdictColor (a.optProp "final_verdict") ∧
    (a.optProp "final_verdict").replaceHyphen = Except.ok bound.verdictLabel ∧
    bound.finalComment = a.optProp "final_comment" ∧
    bound.companyOverview = a.optProp "company_overview" ∧
    bound.businessSummary = a.optProp "business_summary" ∧
    bound.financialAnalysis = a.optProp "financial_analysis" ∧
    bound.financialMetrics = a.optProp "financial_metrics" ∧
    bound.valuationAnalysis = a.optProp "valuation_analysis" ∧
    bound.profitPotential = a.optProp "profit_potential" ∧
    bound.investmentRecommendation = a.optProp "investment_recommendation" ∧
    JsVal.arr bound.keyStrengths = a.optProp "key_strengths" ∧
    JsVal.arr bound.keyRisks = a.optProp "key_risks" ∧
    bound.scores.map ScoreCard.value =
      [ (a.optProp "scores").optProp "financial_strength",
        (a.optProp "scores").optProp "valuation_comfort",
        (a.optProp "scores").optProp "promoter_quality",
        (a.optProp "scores").optProp "demand_strength" ] := by
  by_cases h1 : a = JsVal.undefined
  · subst h1; simp [resultsBranch, JsVal.prop, bind, Except.bind] at h
  by_cases h2 : a = JsVal.null
  · subst h2; simp [resultsBranch, JsVal.prop, bind, Except.bind] at h
  simp only [resultsBranch, JsVal.prop_eq a _ h1 h2, ok_bind] at h
  generalize a.optProp "final_verdict" = fv at h ⊢
  generalize a.optProp "key_strengths" = ks at h ⊢
  generalize a.optProp "key_risks" = kr at h ⊢
  generalize a.optProp "scores" = sc at h ⊢
  cases fv <;> simp [JsVal.replaceHyphen, bind, Except.bind] at h
  cases ks <;> simp [JsVal.mapItems] at h
  cases kr <;> simp [JsVal.mapItems] at h
  by_cases h3 : sc = JsVal.undefined
  · subst h3; simp [JsVal.prop] at h
  by_cases h4 : sc = JsVal.null
  · subst h4; simp [JsVal.prop] at h
  simp only [JsVal.prop_eq sc _ h3 h4] at h
  unfold JsVal.coerce at h
  revert h
  cases (sc.optProp "financial_strength").coercionThrows <;>
    cases (sc.optProp "valuation_comfort").coercionThrows <;>
    cases (sc.optProp "promoter_quality").coercionThrows <;>
    cases (sc.optProp "demand_strength").coercionThrows <;>
    simp [pure, Except.pure] <;> intro h <;> subst h <;> simp [JsVal.replaceHyphen]

/-- When React renders what the results branch bound without an
exception. -/
theorem mountResults_ok_iff (bound : ResultsView) :
    mountResults bound = Except.ok () ↔
      bound.finalComment.validChild = true ∧
      bound.companyOverview.validChild = true ∧
      bound.businessSummary.validChild = true ∧
      bound.financialAnalysis.validChild = true ∧
      (∃ r, FinancialCharts bound.financialMetrics = Except.ok r) ∧
      (∀ v ∈ bound.keyStrengths, v.validChild = true) ∧
      (∀ v ∈ bound.keyRisks, v.validChild = true) ∧
      bound.valuationAnalysis.validChild = true ∧
      bound.profitPotential.validChild = true ∧
      bound.investmentRecommendation.validChild = true ∧
      (∀ card ∈ bound.scores, card.value.validChild = true) := by
  unfold mountResults
  cases hc : FinancialCharts bound.financialMetrics with
  | error e =>
    simp only [bind_unit_ok_iff]
    simp [bind, Except.bind]
  | ok r =>
    simp only [ok_bind, bind_unit_ok_iff, JsVal.child_ok_iff, forEach_ok_iff]
    simp

/-- The results view is produced exactly when the component function
evaluates the results branch and React renders what it bound. -/
theorem renderResults_eq_ok_iff (a : JsVal) (bound : ResultsView) :
    renderResults a = Except.ok bound ↔
      resultsBranch a = Except.ok bound ∧ mountResults bound = Except.ok () := by
  unfold renderResults
  cases hb : resultsBranch a with
  | error e => simp [bind, Except.bind]
  | ok b =>
    cases hm : mountResults b with
    | error e =>
      simp only [ok_bind, hm, bind, Except.bind, Except.ok.injEq]
      constructor
      · intro h; cases h
      · rintro ⟨h, h2⟩; subst h; rw [hm] at h2; cases h2
    | ok u =>
      simp only [ok_bind, hm, bind, Except.bind, pure, Except.pure, Except.ok.injEq]
      constructor
      · intro h; subst h; exact ⟨rfl, hm⟩
      · rintro ⟨h, -⟩; exact h

/-- An exception of the component function is the exception of the
results view. -/
theorem renderResults_of_resultsBranch_error (a : JsVal) (e : JsError)
    (h : resultsBranch a = Except.error e) : renderResults a = Except.error e := by
  simp [renderResults, h, bind, Except.bind]

/-- A result that lacks `final_verdict`, `key_strengths`, `key_risks` or
`scores` makes the component function throw a `TypeError`. -/
theorem renderResults_of_missing (a : JsVal)
    (h : a.optProp "final_verdict" = JsVal.undefined ∨
      a.optProp "key_strengths" = JsVal.undefined ∨
      a.optProp "key_risks" = JsVal.undefined ∨
      a.optProp "scores" = JsVal.undefined) :
    renderResults a = Except.error JsError.typeError := by
  cases hb : resultsBranch a with
  | error e =>
    rw [renderResults_of_resultsBranch_error a e hb, resultsBranch_error a e hb]
  | ok bound =>
    exfalso
    obtain ⟨⟨v, h1⟩, ⟨xs, h2⟩, ⟨ys, h3⟩, h4, -⟩ := (resultsBranch_ok_iff a).1 ⟨bound, hb⟩
    rcases h with h | h | h | h
    · rw [h] at h1; cases h1
    · rw [h] at h2; cases h2
    · rw [h] at h3; cases h3
    · exact h4 h

/-! ## Facts about the rendered page -/

theorem State.run_uploadAnotherOnClick (s : State) :
    s.run uploadAnotherOnClick = { s with analysis := JsVal.null, file := none } := rfl

theorem view_results_iff (s : State) :
    view s = View.results ↔
      s.analysis.truthy = true ∧ ∃ bound, renderResults s.analysis = Except.ok bound := by
  unfold view renderPage
  cases h1 : s.analysis.truthy <;> cases h2 : s.loading <;> cases h3 : s.error.truthy <;>
    cases h4 : s.error.child <;> cases h5 : renderResults s.analysis <;>
    simp [bind, Except.bind, pure, Except.pure]

theorem view_loading_iff (s : State) :
    view s = View.loading ↔ s.analysis.truthy = false ∧ s.loading = true := by
  unfold view renderPage
  cases h1 : s.analysis.truthy <;> cases h2 : s.loading <;> cases h3 : s.error.truthy <;>
    cases h4 : s.error.child <;> cases h5 : renderResults s.analysis <;>
    simp [bind, Except.bind, pure, Except.pure]

theorem view_upload_iff (s : State) :
    view s = View.upload ↔
      s.analysis.truthy = false ∧ s.loading = false ∧
      (s.error.truthy = true → s.error.validChild = true) := by
  unfold view renderPage
  rw [← JsVal.child_ok_iff]
  cases h1 : s.analysis.truthy <;> cases h2 : s.loading <;> cases h3 : s.error.truthy <;>
    cases h4 : s.error.child <;> cases h5 : renderResults s.analysis <;>
    simp [bind, Except.bind, pure, Except.pure]

theorem view_unmounted_iff (s : State) :
    view s = View.unmounted ↔
      (s.analysis.truthy = true ∧ ¬ ∃ bound, renderResults s.analysis = Except.ok bound) ∨
      (s.analysis.truthy = false ∧ s.loading = false ∧ s.error.truthy = true ∧
        s.error.validChild = false) := by
  unfold view renderPage
  have hc : s.error.validChild = false ↔ ¬ s.error.child = Except.ok () := by
    rw [JsVal.child_ok_iff]; simp
  rw [hc]
  cases h1 : s.analysis.truthy <;> cases h2 : s.loading <;> cases h3 : s.error.truthy <;>
    cases h4 : s.error.child <;> cases h5 : renderResults s.analysis <;>
    simp [bind, Except.bind, pure, Except.pure]

theorem offered_uploadAnother (s : State) :
    offered s Handler.uploadAnother = decide (view s = View.results) := by
  unfold offered render
  cases view s <;> simp

theorem offered_downloadReport (s : State) :
    offered s Handler.downloadReport = decide (view s = View.results) := by
  unfold offered render
  cases view s <;> simp

theorem offered_handleAnalyze (s : State) :
    offered s Handler.handleAnalyze =
      (decide (view s = View.upload) && s.file.isSome && !s.loading) := by
  unfold offered render
  cases view s <;> cases s.file <;> cases s.loading <;> simp

theorem offered_handleFileChange (s : State) :
    offered s Handler.handleFileChange = decide (view s = View.upload) := by
  unfold offered render
  cases view s <;> simp

theorem offered_handleDrop (s : State) :
    offered s Handler.handleDrop = decide (view s = View.upload) := by
  unfold offered render
  cases view s <;> simp

theorem offered_handleDrag (s : State) :
    offered s Handler.handleDrag = decide (view s = View.upload) := by
  unfold offered render
  cases view s <;> simp


/-- When the page offers Analyze: in the upload view (no result held, not
loading, the error either falsy or a value React can show) with a
candidate selected. -/
theorem offered_handleAnalyze_eq (s : State) :
    offered s Handler.handleAnalyze =
      (!s.analysis.truthy && !s.loading && s.file.isSome &&
        (!s.error.truthy || s.error.validChild)) := by
  rw [offered_handleAnalyze]
  have h := view_upload_iff s
  cases h1 : s.analysis.truthy <;> cases h2 : s.loading <;> cases h3 : s.file <;>
    cases h4 : s.error.truthy <;> cases h5 : s.error.validChild <;>
    simp [h1, h2, h4, h5] at h ⊢ <;> exact h

/-! ## Selection (C1, C2) -/

/-- C1: a selection event (file picker or drop) whose first file is absent
or has a media type other than `application/pdf` leaves, from every prior
state, a non-null error message and no candidate (`file = null`); loading,
progress, stage and result are untouched, so the session does not advance. -/
theorem select_invalid_sets_error_no_candidate (s : State) (e : FileEvent)
    (h : e.files.head? = none ∨
      ∃ f, e.files.head? = some f ∧ f.type ≠ "application/pdf") :
    (s.run (handleFileChange e) =
        { s with error := JsVal.str "Please select a valid PDF file", file := none } ∧
      (s.run (handleFileChange e)).error ≠ JsVal.null ∧
      (s.run (handleFileChange e)).file = none) ∧
    (s.run (handleDrop e) =
        { s with error := JsVal.str "Please drop a valid PDF file", file := none,
                 dragActive := false } ∧
      (s.run (handleDrop e)).error ≠ JsVal.null ∧
      (s.run (handleDrop e)).file = none) := by
  rcases h with h | ⟨f, hf, hty⟩
  · simp [handleFileChange, handleDrop, h, State.run, State.apply]
  · simp [handleFileChange, handleDrop, hf, hty, State.run, State.apply]

/-- Witness of C1: a dropped or picked text file on a session that already
holds a candidate. -/
theorem select_invalid_sets_error_no_candidate_witness :
    ((({ State.initial with
          file := some { name := "old.pdf", size := 9, type := "application/pdf" } } : State).run
        (handleFileChange { files := [{ name := "notes.txt", size := 12, type := "text/plain" }] })).file
      = none) ∧
    ((State.initial.run (handleDrop { files := [] })).error ≠ JsVal.null) :=
  ⟨(select_invalid_sets_error_no_candidate _
      { files := [{ name := "notes.txt", size := 12, type := "text/plain" }] }
      (Or.inr ⟨_, rfl, by decide⟩)).1.2.2,
   (select_invalid_sets_error_no_candidate State.initial { files := [] }
      (Or.inl rfl)).2.2.1⟩

/-- C2: selecting a file whose media type is exactly `application/pdf`
(file picker or drop) yields, from every prior state, that file as the
candidate and a null error; the candidate and error afterwards are the same
from any two prior states. -/
theorem select_pdf_sets_candidate_clears_error (s : State) (e : FileEvent) (f : File)
    (hf : e.files.head? = some f) (hty : f.type = "application/pdf") :
    s.run (handleFileChange e) = { s with file := some f, error := JsVal.null } ∧
    s.run (handleDrop e) = { s with file := some f, error := JsVal.null, dragActive := false } ∧
    ∀ s2 : State,
      (s2.run (handleFileChange e)).file = (s.run (handleFileChange e)).file ∧
      (s2.run (handleFileChange e)).error = (s.run (handleFileChange e)).error ∧
      (s2.run (handleDrop e)).file = (s.run (handleDrop e)).file ∧
      (s2.run (handleDrop e)).error = (s.run (handleDrop e)).error := by
  simp [handleFileChange, handleDrop, hf, hty, State.run, State.apply]

/-- Witness of C2: a PDF picked on a session that holds an error and
another candidate. -/
theorem select_pdf_sets_candidate_clears_error_witness :
    (({ State.initial with
          file := some { name := "old.pdf", size := 9, type := "application/pdf" },
          error := JsVal.str "Please select a valid PDF file" } : State).run
        (handleFileChange
          { files := [{ name := "rhp.pdf", size := 70000000, type := "application/pdf" }] }))
      = { State.initial with
          file := some { name := "rhp.pdf", size := 70000000, type := "application/pdf" },
          error := JsVal.null } :=
  (select_pdf_sets_candidate_clears_error _
    { files := [{ name := "rhp.pdf", size := 70000000, type := "application/pdf" }] }
    { name := "rhp.pdf", size := 70000000, type := "application/pdf" } rfl rfl).1

/-! ## Submission without a candidate (C3) -/

/-- C3: with no candidate selected, `handleAnalyze` performs exactly one
effect, the write of the error `Please select a PDF file`: it issues no
network request, whatever the network would do, and leaves candidate,
loading, progress, stage and result unchanged. -/
theorem handleAnalyze_no_candidate (s : State) (net : Option (Nat × Outcome))
    (h : s.file = none) :
    handleAnalyze s net = [(0, Action.setError (JsVal.str "Please select a PDF file"))] ∧
    (∀ ev ∈ handleAnalyze s net, ev.2.isRequest = false) ∧
    s.runTimed (handleAnalyze s net) =
      { s with error := JsVal.str "Please select a PDF file" } := by
  simp [handleAnalyze, h, State.runTimed, State.run, State.apply, Action.isRequest]

/-- Witness of C3: submit on the initial state, with a network that would
answer at once. -/
theorem handleAnalyze_no_candidate_witness :
    State.initial.runTimed
        (handleAnalyze State.initial (some (0, Outcome.resolved { data := JsVal.null }))) =
      { State.initial with error := JsVal.str "Please select a PDF file" } :=
  (handleAnalyze_no_candidate State.initial _ rfl).2.2

/-! ## The event queue -/

theorem mem_schedule {x e : Nat × Action} {q : List (Nat × Action)} :
    x ∈ schedule e q ↔ x = e ∨ x ∈ q := by
  induction q with
  | nil => simp [schedule]
  | cons y ys ih =>
    simp only [schedule]
    split
    · simp only [List.mem_cons, ih]; tauto
    · simp only [List.mem_cons]

theorem mem_scheduleAll {x : Nat × Action} {es q : List (Nat × Action)} :
    x ∈ scheduleAll es q ↔ x ∈ es ∨ x ∈ q := by
  induction es generalizing q with
  | nil => simp [scheduleAll]
  | cons e es ih =>
    have h := ih (q := schedule e q)
    simp only [scheduleAll, List.foldl_cons] at h ⊢
    rw [h, mem_schedule, List.mem_cons]
    tauto

/-- Scheduling an effect puts it somewhere into the queue and moves
nothing else; what stands before it is due no later than it. -/
theorem schedule_split (e : Nat × Action) (q : List (Nat × Action)) :
    ∃ l1 l2, schedule e q = l1 ++ e :: l2 ∧ q = l1 ++ l2 ∧ ∀ x ∈ l1, x.1 ≤ e.1 := by
  induction q with
  | nil => exact ⟨[], [], by simp [schedule]⟩
  | cons y ys ih =>
    by_cases hy : y.1 ≤ e.1
    · obtain ⟨l1, l2, h1, h2, h3⟩ := ih
      refine ⟨y :: l1, l2, by simp [schedule, hy, h1], by simp [h2], ?_⟩
      intro x hx
      rcases List.mem_cons.1 hx with rfl | hx
      · exact hy
      · exact h3 x hx
    · exact ⟨[], y :: ys, by simp [schedule, hy], by simp, by simp⟩

theorem pairwise_schedule (e : Nat × Action) (q : List (Nat × Action))
    (hq : q.Pairwise fun a b => a.1 ≤ b.1) :
    (schedule e q).Pairwise fun a b => a.1 ≤ b.1 := by
  induction q with
  | nil => simp [schedule]
  | cons y ys ih =>
    rw [List.pairwise_cons] at hq
    by_cases hy : y.1 ≤ e.1
    · simp only [schedule, hy, if_true, List.pairwise_cons]
      refine ⟨?_, ih hq.2⟩
      intro x hx
      rcases mem_schedule.1 hx with rfl | hx
      · exact hy
      · exact hq.1 x hx
    · simp only [schedule, hy, if_false, List.pairwise_cons]
      refine ⟨?_, hq.1, hq.2⟩
      intro x hx
      rcases List.mem_cons.1 hx with rfl | hx
      · omega
      · have := hq.1 x hx
        omega

theorem pairwise_scheduleAll (es q : List (Nat × Action))
    (hq : q.Pairwise fun a b => a.1 ≤ b.1) :
    (scheduleAll es q).Pairwise fun a b => a.1 ≤ b.1 := by
  induction es generalizing q with
  | nil => simpa [scheduleAll] using hq
  | cons e es ih =>
    have h := ih (schedule e q) (pairwise_schedule e q hq)
    simpa [scheduleAll] using h

/-! ## The timer task -/

theorem le_progressDone (now : Nat) (stages : List Stage) :
    now ≤ progressDone now stages := by
  induction stages generalizing now with
  | nil => simp [progressDone]
  | cons st rest ih =>
    have := ih (now + st.delay)
    simp only [progressDone]
    omega

theorem time_mem_progressPromise {now : Nat} {stages : List Stage} {x : Nat × Action}
    (hx : x ∈ progressPromise now stages) :
    now ≤ x.1 ∧ x.1 ≤ progressDone now stages := by
  induction stages generalizing now with
  | nil => simp [progressPromise] at hx
  | cons st rest ih =>
    simp only [progressPromise, List.mem_cons] at hx
    have hd := le_progressDone (now + st.delay) rest
    simp only [progressDone]
    rcases hx with rfl | rfl | hx
    · simp only; omega
    · simp only; omega
    · have := ih hx
      omega

theorem pairwise_progressPromise (now : Nat) (stages : List Stage) :
    (progressPromise now stages).Pairwise fun a b => a.1 ≤ b.1 := by
  induction stages generalizing now with
  | nil => simp [progressPromise]
  | cons st rest ih =>
    simp only [progressPromise, List.pairwise_cons, List.mem_cons]
    refine ⟨?_, ?_, ih _⟩
    · intro x hx
      rcases hx with rfl | hx
      · exact le_refl _
      · exact (time_mem_progressPromise hx).1
    · intro x hx
      exact (time_mem_progressPromise hx).1

/-- The timer task performs nothing but progress and stage writes, one of
each per stage. -/
theorem action_mem_progressPromise {now : Nat} {stages : List Stage} {x : Nat × Action}
    (hx : x ∈ progressPromise now stages) :
    ∃ st ∈ stages, x.2 = Action.setLoadingProgress st.progress ∨
      x.2 = Action.setLoadingStage st.stage := by
  induction stages generalizing now with
  | nil => simp [progressPromise] at hx
  | cons st rest ih =>
    simp only [progressPromise, List.mem_cons] at hx
    rcases hx with rfl | rfl | hx
    · exact ⟨st, by simp, Or.inl rfl⟩
    · exact ⟨st, by simp, Or.inr rfl⟩
    · obtain ⟨st2, h1, h2⟩ := ih hx
      exact ⟨st2, by simp [h1], h2⟩

theorem stage_mem_progressPromise (now : Nat) {stages : List Stage} {st : Stage}
    (hst : st ∈ stages) :
    ∃ time, (time, Action.setLoadingProgress st.progress) ∈ progressPromise now stages ∧
      (time, Action.setLoadingStage st.stage) ∈ progressPromise now stages := by
  induction stages generalizing now with
  | nil => simp at hst
  | cons st0 rest ih =>
    rcases List.mem_cons.1 hst with rfl | h
    · exact ⟨now + st.delay, by simp [progressPromise], by simp [progressPromise]⟩
    · obtain ⟨time, h1, h2⟩ := ih (now + st0.delay) h
      exact ⟨time, by simp [progressPromise, h1], by simp [progressPromise, h2]⟩

/-! ## What a run of effects leaves alone -/

theorem State.apply_progressWrite (s : State) (a : Action) (h : a.isProgressWrite = true) :
    (s.apply a).file = s.file ∧ (s.apply a).loading = s.loading ∧
    (s.apply a).analysis = s.analysis ∧ (s.apply a).error = s.error := by
  cases a <;> simp [Action.isProgressWrite] at h <;> simp [State.apply]

/-- Progress writes leave candidate, loading flag, result and error alone. -/
theorem State.runTimed_progressWrites (s : State) (evs : List (Nat × Action))
    (h : ∀ ev ∈ evs, ev.2.isProgressWrite = true) :
    (s.runTimed evs).file = s.file ∧ (s.runTimed evs).loading = s.loading ∧
    (s.runTimed evs).analysis = s.analysis ∧ (s.runTimed evs).error = s.error := by
  induction evs generalizing s with
  | nil => simp [State.runTimed, State.run]
  | cons ev evs ih =>
    have h1 := s.apply_progressWrite ev.2 (h ev (by simp))
    have h2 := ih (s.apply ev.2) (fun x hx => h x (by simp [hx]))
    simp only [State.runTimed, List.map_cons, State.run_cons] at h2 ⊢
    rw [h2.1, h2.2.1, h2.2.2.1, h2.2.2.2]
    exact h1

theorem isProgressWrite_progressPromise {now : Nat} {stages : List Stage} {x : Nat × Action}
    (hx : x ∈ progressPromise now stages) : x.2.isProgressWrite = true := by
  obtain ⟨st, _, h | h⟩ := action_mem_progressPromise hx <;> simp [h, Action.isProgressWrite]

/-! ## The state a settled submission ends in -/

/-- The state `handleAnalyze` ends in when the request succeeds: the body
is stored, the error is null, loading is off, the candidate is kept. -/
theorem handleAnalyze_resolved_final (s : State) (f : File) (t : Nat) (response : Response)
    (h : s.file = some f) :
    (s.runTimed (handleAnalyze s (some (t, Outcome.resolved response)))).analysis
      = response.data ∧
    (s.runTimed (handleAnalyze s (some (t, Outcome.resolved response)))).error = JsVal.null ∧
    (s.runTimed (handleAnalyze s (some (t, Outcome.resolved response)))).loading = false ∧
    (s.runTimed (handleAnalyze s (some (t, Outcome.resolved response)))).file = some f := by
  obtain ⟨l1, l2, hM, hQ, -⟩ := schedule_split (t + 500, Action.setAnalysis response.data)
    (schedule (t, Action.setLoadingStage "Analysis complete!")
      (schedule (t, Action.setLoadingProgress 100) (progressPromise 0 progressStages)))
  have hall : ∀ ev ∈ l1 ++ l2, ev.2.isProgressWrite = true := by
    intro ev hev
    rw [← hQ, mem_schedule, mem_schedule] at hev
    rcases hev with rfl | rfl | hev
    · rfl
    · rfl
    · exact isProgressWrite_progressPromise hev
  have hl1 := fun s0 : State => s0.runTimed_progressWrites l1
    (fun ev hev => hall ev (List.mem_append.2 (Or.inl hev)))
  have hl2 := fun s0 : State => s0.runTimed_progressWrites l2
    (fun ev hev => hall ev (List.mem_append.2 (Or.inr hev)))
  simp only [handleAnalyze, h, afterPost, scheduleAll, List.foldl_cons, List.foldl_nil, hM,
    State.runTimed_append]
  simp only [State.runTimed, List.map_cons, List.map_nil, State.run_cons, State.run_nil,
    State.apply] at hl1 hl2 ⊢
  simp [hl1, hl2, h]

/-- The state `handleAnalyze` ends in when the request fails: the error is
`err.response?.data?.detail || <generic message>`, the result is null,
loading is off, the candidate is kept. -/
theorem handleAnalyze_rejected_final (s : State) (f : File) (t : Nat) (err : AxiosError)
    (h : s.file = some f) :
    (s.runTimed (handleAnalyze s (some (t, Outcome.rejected err)))).error
      = err.detail.or (JsVal.str "Failed to analyze document. Please try again.") ∧
    (s.runTimed (handleAnalyze s (some (t, Outcome.rejected err)))).analysis = JsVal.null ∧
    (s.runTimed (handleAnalyze s (some (t, Outcome.rejected err)))).loading = false ∧
    (s.runTimed (handleAnalyze s (some (t, Outcome.rejected err)))).file = some f := by
  obtain ⟨l1, l2, hM, hQ, -⟩ := schedule_split
    (t, Action.setError
      (err.detail.or (JsVal.str "Failed to analyze document. Please try again.")))
    (progressPromise 0 progressStages)
  have hall : ∀ ev ∈ l1 ++ l2, ev.2.isProgressWrite = true := by
    intro ev hev
    rw [← hQ] at hev
    exact isProgressWrite_progressPromise hev
  have hl1 := fun s0 : State => s0.runTimed_progressWrites l1
    (fun ev hev => hall ev (List.mem_append.2 (Or.inl hev)))
  have hl2 := fun s0 : State => s0.runTimed_progressWrites l2
    (fun ev hev => hall ev (List.mem_append.2 (Or.inr hev)))
  simp only [handleAnalyze, h, afterPost, scheduleAll, List.foldl_cons, List.foldl_nil, hM,
    State.runTimed_append]
  simp only [State.runTimed, List.map_cons, List.map_nil, State.run_cons, State.run_nil,
    State.apply] at hl1 hl2 ⊢
  simp [hl1, hl2, h]

/-! ## Remote success (C4) -/

/-- C4: with a candidate selected, when the request succeeds with response
body `B` (at any time `t`), the state in which `handleAnalyze` completes
has `analysis = B` unchanged, `error = null` and `loading = false`. -/
theorem handleAnalyze_success_stores_body (s : State) (f : File) (t : Nat) (B : JsVal)
    (h : s.file = some f) :
    (s.runTimed (handleAnalyze s (some (t, Outcome.resolved { data := B })))).analysis = B ∧
    (s.runTimed (handleAnalyze s (some (t, Outcome.resolved { data := B })))).error
      = JsVal.null ∧
    (s.runTimed (handleAnalyze s (some (t, Outcome.resolved { data := B })))).loading
      = false :=
  let r := handleAnalyze_resolved_final s f t { data := B } h
  ⟨r.1, r.2.1, r.2.2.1⟩

/-- Witness of C4: the body of the specification's example, answered after
2.5 s, on a session that held an old error. -/
theorem handleAnalyze_success_stores_body_witness :
    (({ State.initial with
          file := some { name := "rhp.pdf", size := 4096, type := "application/pdf" },
          error := JsVal.str "Please select a valid PDF file" } : State).runTimed
        (handleAnalyze
          { State.initial with
            file := some { name := "rhp.pdf", size := 4096, type := "application/pdf" },
            error := JsVal.str "Please select a valid PDF file" }
          (some (2500, Outcome.resolved ⟨JsVal.obj
            [ ("final_verdict", JsVal.str "apply"),
              ("scores", JsVal.obj
                [ ("financial_strength", JsVal.num 8), ("valuation_comfort", JsVal.num 7),
                  ("promoter_quality", JsVal.num 9), ("demand_strength", JsVal.num 6) ]) ]⟩)))).analysis
      = JsVal.obj
          [ ("final_verdict", JsVal.str "apply"),
            ("scores", JsVal.obj
              [ ("financial_strength", JsVal.num 8), ("valuation_comfort", JsVal.num 7),
                ("promoter_quality", JsVal.num 9), ("demand_strength", JsVal.num 6) ]) ] :=
  (handleAnalyze_success_stores_body _
    { name := "rhp.pdf", size := 4096, type := "application/pdf" } 2500 _ rfl).1

/-! ## Remote failure (C5, C6) -/

/-- C5: with a candidate selected, when the request fails (at any time
`t`): if the failure body is an object whose `detail` is a non-empty string
`d`, the surfaced error is `d`; if there is no response, or the body is
`undefined`, `null` or the empty string, the surfaced error is the generic
message.  In both cases the result is null and loading ends false. -/
theorem handleAnalyze_failure_error (s : State) (f : File) (t : Nat) (h : s.file = some f) :
    (∀ (props : List (String × JsVal)) (d : String),
      props.lookup "detail" = some (JsVal.str d) → d ≠ "" →
      (s.runTimed (handleAnalyze s (some (t, Outcome.rejected
          { response := some { data := JsVal.obj props } })))).error = JsVal.str d ∧
      (s.runTimed (handleAnalyze s (some (t, Outcome.rejected
          { response := some { data := JsVal.obj props } })))).analysis = JsVal.null ∧
      (s.runTimed (handleAnalyze s (some (t, Outcome.rejected
          { response := some { data := JsVal.obj props } })))).loading = false) ∧
    (∀ err : AxiosError,
      (err.response = none ∨ ∃ r, err.response = some r ∧
        (r.data = JsVal.undefined ∨ r.data = JsVal.null ∨ r.data = JsVal.str "")) →
      (s.runTimed (handleAnalyze s (some (t, Outcome.rejected err)))).error
        = JsVal.str "Failed to analyze document. Please try again." ∧
      (s.runTimed (handleAnalyze s (some (t, Outcome.rejected err)))).analysis = JsVal.null ∧
      (s.runTimed (handleAnalyze s (some (t, Outcome.rejected err)))).loading = false) := by
  constructor
  · intro props d hd hne
    have r := handleAnalyze_rejected_final s f t
      { response := some { data := JsVal.obj props } } h
    refine ⟨?_, r.2.1, r.2.2.1⟩
    rw [r.1]
    simp [AxiosError.detail, JsVal.optProp, hd, JsVal.or, JsVal.truthy, hne]
  · intro err herr
    have r := handleAnalyze_rejected_final s f t err h
    refine ⟨?_, r.2.1, r.2.2.1⟩
    rw [r.1]
    rcases herr with hn | ⟨resp, hr, hd | hd | hd⟩ <;>
      simp [AxiosError.detail, JsVal.optProp, JsVal.or, JsVal.truthy, *]

/-- Witness of C5: the failure body `{detail: "file too large"}` of the
specification's example. -/
theorem handleAnalyze_failure_error_witness :
    (({ State.initial with
          file := some { name := "rhp.pdf", size := 4096, type := "application/pdf" } } :
          State).runTimed
        (handleAnalyze
          { State.initial with
            file := some { name := "rhp.pdf", size := 4096, type := "application/pdf" } }
          (some (700, Outcome.rejected
            { response := some
                { data := JsVal.obj [("detail", JsVal.str "file too large")] } })))).error
      = JsVal.str "file too large" :=
  ((handleAnalyze_failure_error _
    { name := "rhp.pdf", size := 4096, type := "application/pdf" } 700 rfl).1
      [("detail", JsVal.str "file too large")] "file too large" rfl (by decide)).1

/-- Counterexample to C6 as stated: a failure body `{detail: ""}` carries a
detail field, yet the surfaced error is the generic message, not the
detail value `""`. -/
theorem empty_detail_gives_generic_message :
    (({ State.initial with
          file := some { name := "rhp.pdf", size := 4096, type := "application/pdf" } } :
          State).runTimed
        (handleAnalyze
          { State.initial with
            file := some { name := "rhp.pdf", size := 4096, type := "application/pdf" } }
          (some (700, Outcome.rejected
            { response := some { data := JsVal.obj [("detail", JsVal.str "")] } })))).error
      = JsVal.str "Failed to analyze document. Please try again." ∧
    JsVal.str "Failed to analyze document. Please try again." ≠ JsVal.str "" := by
  refine ⟨?_, by simp⟩
  rw [(handleAnalyze_rejected_final _
    { name := "rhp.pdf", size := 4096, type := "application/pdf" } 700 _ rfl).1]
  simp [AxiosError.detail, JsVal.optProp, JsVal.or, JsVal.truthy]

/-- C6, amended: with a candidate selected, when the request fails with a
body that carries a detail field of value `v`, the surfaced error is `v`
exactly when `v` is truthy; when `v` is falsy (which is the case for the
empty string, `null`, `undefined`, `false` and `0`, and for nothing else)
the surfaced error is the generic message. -/
theorem handleAnalyze_failure_detail_or_generic (s : State) (f : File) (t : Nat)
    (props : List (String × JsVal)) (v : JsVal)
    (h : s.file = some f) (hv : props.lookup "detail" = some v) :
    (v.truthy = true →
      (s.runTimed (handleAnalyze s (some (t, Outcome.rejected
          { response := some { data := JsVal.obj props } })))).error = v) ∧
    (v.truthy = false →
      (s.runTimed (handleAnalyze s (some (t, Outcome.rejected
          { response := some { data := JsVal.obj props } })))).error
        = JsVal.str "Failed to analyze document. Please try again.") ∧
    (v.truthy = false ↔
      v = JsVal.str "" ∨ v = JsVal.null ∨ v = JsVal.undefined ∨ v = JsVal.bool false ∨
        v = JsVal.num 0) := by
  have r := (handleAnalyze_rejected_final s f t
      { response := some { data := JsVal.obj props } } h).1
  refine ⟨?_, ?_, ?_⟩
  · intro hvt
    rw [r]
    simp [AxiosError.detail, JsVal.optProp, hv, JsVal.or, hvt]
  · intro hvf
    rw [r]
    simp [AxiosError.detail, JsVal.optProp, hv, JsVal.or, hvf]
  · cases v <;> simp [JsVal.truthy]

/-- Witness of amended C6: a numeric detail value is surfaced as it is. -/
theorem handleAnalyze_failure_detail_or_generic_witness :
    (({ State.initial with
          file := some { name := "rhp.pdf", size := 4096, type := "application/pdf" } } :
          State).runTimed
        (handleAnalyze
          { State.initial with
            file := some { name := "rhp.pdf", size := 4096, type := "application/pdf" } }
          (some (9500, Outcome.rejected
            { response := some { data := JsVal.obj [("detail", JsVal.num 413)] } })))).error
      = JsVal.num 413 :=
  (handleAnalyze_failure_detail_or_generic _
    { name := "rhp.pdf", size := 4096, type := "application/pdf" } 9500
    [("detail", JsVal.num 413)] (JsVal.num 413) rfl rfl).1 (by simp [JsVal.truthy])

/-! ## Report download without a result (C8) -/

/-- C8: `downloadReport` has no guard of its own; the precondition "a
result exists" is enforced by the page, which binds the function to the
Download Report button of the results view only.  In a state with no
result (`analysis = null`) no element of the page is bound to
`downloadReport`, so a click cannot reach it: nothing is serialised, no
link is created, nothing is downloaded.  Wherever the page does offer the
button, a result is held and the click performs `downloadReport`. -/
theorem downloadReport_unreachable_without_result (js : Builtins) (s : State)
    (h : s.analysis = JsVal.null) :
    clickDownloadReport js s = [] ∧
    (∀ c ∈ render s, c.handler ≠ Handler.downloadReport) ∧
    offered s Handler.downloadReport = false ∧
    (∀ s0 : State, offered s0 Handler.downloadReport = true →
      s0.analysis.truthy = true ∧ s0.analysis ≠ JsVal.null ∧
      clickDownloadReport js s0 = downloadReport js s0) := by
  have hview : view s ≠ View.results := by
    rw [Ne, view_results_iff, h]
    simp [JsVal.truthy]
  have hoff : offered s Handler.downloadReport = false := by
    rw [offered_downloadReport]
    simpa using hview
  refine ⟨by simp [clickDownloadReport, hoff], ?_, hoff, ?_⟩
  · intro c hc heq
    unfold render at hc
    cases hv : view s with
    | results => exact hview hv
    | upload =>
      simp only [hv, List.mem_cons, List.mem_singleton, List.not_mem_nil, or_false] at hc
      rcases hc with rfl | rfl | rfl | rfl | rfl | rfl <;> cases heq
    | loading =>
      simp only [hv, List.mem_singleton] at hc
      subst hc
      cases heq
    | unmounted => simp [hv] at hc
  · intro s0 h0
    have hv : view s0 = View.results := by
      rw [offered_downloadReport] at h0
      simpa using h0
    have ht := ((view_results_iff s0).1 hv).1
    refine ⟨ht, ?_, by simp [clickDownloadReport, h0]⟩
    intro hnull
    rw [hnull] at ht
    simp [JsVal.truthy] at ht

/-- Witness of C8: the freshly mounted page, which holds no result. -/
theorem downloadReport_unreachable_without_result_witness :
    (fun js : Builtins => clickDownloadReport js State.initial) = (fun _ => []) :=
  funext fun js => (downloadReport_unreachable_without_result js State.initial rfl).1

/-! ## Start of a submission (C9) -/

theorem isRequest_of_isProgressWrite {a : Action} (h : a.isProgressWrite = true) :
    a.isRequest = false := by
  cases a <;> simp [Action.isProgressWrite] at h <;> rfl

theorem isRequest_afterPost {t : Nat} {o : Outcome} {ev : Nat × Action}
    (h : ev ∈ afterPost t o) : ev.2.isRequest = false := by
  cases o <;> simp [afterPost] at h
  · rcases h with rfl | rfl | rfl <;> rfl
  · subst h; rfl

/-- C9: with a candidate selected, `handleAnalyze` begins, whatever the
network does later, with the five writes `loading := true`,
`error := null`, `analysis := null`, `loadingProgress := 0`,
`loadingStage := 'Initializing analysis...'` and then one POST to the fixed
URL whose form data is the single field `rhp` holding the candidate; no
other effect of the call is a request. -/
theorem handleAnalyze_start_and_single_post (s : State) (f : File)
    (net : Option (Nat × Outcome)) (h : s.file = some f) :
    ∃ rest : List (Nat × Action),
      handleAnalyze s net =
        [ (0, Action.setLoading true),
          (0, Action.setError JsVal.null),
          (0, Action.setAnalysis JsVal.null),
          (0, Action.setLoadingProgress 0),
          (0, Action.setLoadingStage "Initializing analysis..."),
          (0, Action.axiosPost "https://ipo-analyser-server.vercel.app/api/v1/ipo/analyze"
                [("rhp", f)] [("Content-Type", "multipart/form-data")]) ] ++ rest ∧
      (∀ ev ∈ rest, ev.2.isRequest = false) ∧
      ((handleAnalyze s net).filter fun ev => ev.2.isRequest) =
        [ (0, Action.axiosPost "https://ipo-analyser-server.vercel.app/api/v1/ipo/analyze"
                [("rhp", f)] [("Content-Type", "multipart/form-data")]) ] ∧
      s.runTimed
          [ (0, Action.setLoading true),
            (0, Action.setError JsVal.null),
            (0, Action.setAnalysis JsVal.null),
            (0, Action.setLoadingProgress 0),
            (0, Action.setLoadingStage "Initializing analysis...") ] =
        { s with loading := true, error := JsVal.null, analysis := JsVal.null,
                 loadingProgress := 0, loadingStage := "Initializing analysis..." } := by
  have key : ∀ rest : List (Nat × Action), (∀ ev ∈ rest, ev.2.isRequest = false) →
      (rest.filter fun ev => ev.2.isRequest) = [] := by
    intro rest hrest
    simpa [List.filter_eq_nil_iff] using hrest
  cases net with
  | none =>
    have hrest : ∀ ev ∈ progressPromise 0 progressStages, ev.2.isRequest = false :=
      fun ev hev => isRequest_of_isProgressWrite (isProgressWrite_progressPromise hev)
    refine ⟨progressPromise 0 progressStages, by simp [handleAnalyze, h], hrest, ?_, rfl⟩
    simp only [handleAnalyze, h, List.filter_append, key _ hrest]
    rfl
  | some p =>
    obtain ⟨t, o⟩ := p
    have hrest : ∀ ev ∈ scheduleAll (afterPost t o) (progressPromise 0 progressStages)
        ++ [(max (afterPostDone t o) (progressDone 0 progressStages), Action.setLoading false)],
        ev.2.isRequest = false := by
      intro ev hev
      rcases List.mem_append.1 hev with hev | hev
      · rcases mem_scheduleAll.1 hev with hev | hev
        · exact isRequest_afterPost hev
        · exact isRequest_of_isProgressWrite (isProgressWrite_progressPromise hev)
      · simp only [List.mem_singleton] at hev
        subst hev
        rfl
    refine ⟨_, by simp [handleAnalyze, h], hrest, ?_, rfl⟩
    have e : handleAnalyze s (some (t, o)) =
        [ (0, Action.setLoading true),
          (0, Action.setError JsVal.null),
          (0, Action.setAnalysis JsVal.null),
          (0, Action.setLoadingProgress 0),
          (0, Action.setLoadingStage "Initializing analysis..."),
          (0, Action.axiosPost "https://ipo-analyser-server.vercel.app/api/v1/ipo/analyze"
                [("rhp", f)] [("Content-Type", "multipart/form-data")]) ] ++
        (scheduleAll (afterPost t o) (progressPromise 0 progressStages)
          ++ [(max (afterPostDone t o) (progressDone 0 progressStages),
                Action.setLoading false)]) := by
      simp [handleAnalyze, h]
    rw [e, List.filter_append, key _ hrest]
    rfl

/-- Witness of C9: the request of a submit whose network never answers. -/
theorem handleAnalyze_start_and_single_post_witness :
    ((handleAnalyze
        { State.initial with
          file := some { name := "rhp.pdf", size := 4096, type := "application/pdf" } }
        none).filter fun ev => ev.2.isRequest) =
      [ (0, Action.axiosPost "https://ipo-analyser-server.vercel.app/api/v1/ipo/analyze"
              [("rhp", { name := "rhp.pdf", size := 4096, type := "application/pdf" })]
              [("Content-Type", "multipart/form-data")]) ] :=
  (handleAnalyze_start_and_single_post _
    { name := "rhp.pdf", size := 4096, type := "application/pdf" } none rfl).choose_spec.2.2.1

/-! ## End of a submission (C10) -/

theorem ne_setLoading_of_isProgressWrite {a : Action} (h : a.isProgressWrite = true)
    (b : Bool) : a ≠ Action.setLoading b := by
  rintro rfl
  simp [Action.isProgressWrite] at h

theorem afterPost_facts {t : Nat} {o : Outcome} {ev : Nat × Action}
    (h : ev ∈ afterPost t o) :
    (∀ b, ev.2 ≠ Action.setLoading b) ∧ t ≤ ev.1 ∧ ev.1 ≤ afterPostDone t o := by
  cases o <;> simp [afterPost] at h
  · rcases h with rfl | rfl | rfl <;> simp [afterPostDone]
  · subst h; simp [afterPostDone]

theorem pairwise_afterPost_queue (t : Nat) (o : Outcome) :
    (scheduleAll (afterPost t o) (progressPromise 0 progressStages)).Pairwise
      fun a b => a.1 ≤ b.1 :=
  pairwise_scheduleAll _ _ (pairwise_progressPromise 0 progressStages)

/-- C10: with a candidate selected and a request that settles (at time `t`,
with either outcome), the effects of `handleAnalyze` end with
`setLoading(false)`, run at the later of the moment the `try`/`catch` is
left and the moment the timer task finishes (9000 ms).  Everything before
it is no write of `loading := false` and is due no later; it includes
every effect of the settled request and both writes of each of the five
stages; the effects run in time order.  When the request never settles,
`loading := false` is never written. -/
theorem handleAnalyze_loading_off_last (s : State) (f : File) (t : Nat) (o : Outcome)
    (h : s.file = some f) :
    (∃ pre : List (Nat × Action),
      handleAnalyze s (some (t, o)) =
        pre ++ [(max (afterPostDone t o) 9000, Action.setLoading false)] ∧
      (∀ ev ∈ pre, ev.2 ≠ Action.setLoading false ∧ ev.1 ≤ max (afterPostDone t o) 9000) ∧
      (∀ ev ∈ afterPost t o, ev ∈ pre ∧ t ≤ ev.1) ∧
      (∀ st ∈ progressStages, ∃ time,
        (time, Action.setLoadingProgress st.progress) ∈ pre ∧
        (time, Action.setLoadingStage st.stage) ∈ pre)) ∧
    t ≤ max (afterPostDone t o) 9000 ∧
    (handleAnalyze s (some (t, o))).Pairwise (fun a b => a.1 ≤ b.1) ∧
    (∀ ev ∈ handleAnalyze s none, ev.2 ≠ Action.setLoading false) := by
  have hdone : progressDone 0 progressStages = 9000 := rfl
  have htd : t ≤ afterPostDone t o := by cases o <;> simp [afterPostDone]
  have hqueue : ∀ ev ∈ scheduleAll (afterPost t o) (progressPromise 0 progressStages),
      (∀ b, ev.2 ≠ Action.setLoading b) ∧ ev.1 ≤ max (afterPostDone t o) 9000 := by
    intro ev hev
    rcases mem_scheduleAll.1 hev with hev | hev
    · have := afterPost_facts hev
      exact ⟨this.1, le_trans this.2.2 (le_max_left _ _)⟩
    · have h1 := (time_mem_progressPromise hev).2
      rw [hdone] at h1
      exact ⟨ne_setLoading_of_isProgressWrite (isProgressWrite_progressPromise hev),
        le_trans h1 (le_max_right _ _)⟩
  have e : handleAnalyze s (some (t, o)) =
      ([ (0, Action.setLoading true),
        (0, Action.setError JsVal.null),
        (0, Action.setAnalysis JsVal.null),
        (0, Action.setLoadingProgress 0),
        (0, Action.setLoadingStage "Initializing analysis..."),
        (0, Action.axiosPost "https://ipo-analyser-server.vercel.app/api/v1/ipo/analyze"
              [("rhp", f)] [("Content-Type", "multipart/form-data")]) ] ++
        scheduleAll (afterPost t o) (progressPromise 0 progressStages))
        ++ [(max (afterPostDone t o) 9000, Action.setLoading false)] := by
    simp [handleAnalyze, h, hdone]
  refine ⟨⟨_, e, ?_, ?_, ?_⟩, le_trans htd (le_max_left _ _), ?_, ?_⟩
  · intro ev hev
    rcases List.mem_append.1 hev with hev | hev
    · simp only [List.mem_cons, List.mem_singleton, List.not_mem_nil, or_false] at hev
      rcases hev with rfl | rfl | rfl | rfl | rfl | rfl <;> simp
    · exact ⟨(hqueue ev hev).1 false, (hqueue ev hev).2⟩
  · intro ev hev
    exact ⟨List.mem_append.2 (Or.inr (mem_scheduleAll.2 (Or.inl hev))),
      (afterPost_facts hev).2.1⟩
  · intro st hst
    obtain ⟨time, h1, h2⟩ := stage_mem_progressPromise 0 hst
    exact ⟨time, List.mem_append.2 (Or.inr (mem_scheduleAll.2 (Or.inr h1))),
      List.mem_append.2 (Or.inr (mem_scheduleAll.2 (Or.inr h2)))⟩
  · rw [e, List.pairwise_append, List.pairwise_append]
    refine ⟨⟨by simp, pairwise_afterPost_queue t o, ?_⟩, by simp, ?_⟩
    · intro a ha b _
      simp only [List.mem_cons, List.mem_singleton, List.not_mem_nil, or_false] at ha
      rcases ha with rfl | rfl | rfl | rfl | rfl | rfl <;> simp
    · intro a ha b hb
      simp only [List.mem_singleton] at hb
      subst hb
      rcases List.mem_append.1 ha with ha | ha
      · simp only [List.mem_cons, List.mem_singleton, List.not_mem_nil, or_false] at ha
        rcases ha with rfl | rfl | rfl | rfl | rfl | rfl <;> simp
      · exact (hqueue a ha).2
  · intro ev hev
    simp only [handleAnalyze, h, List.mem_append] at hev
    rcases hev with hev | hev
    · simp only [List.mem_cons, List.mem_singleton, List.not_mem_nil, or_false] at hev
      rcases hev with rfl | rfl | rfl | rfl | rfl | rfl <;> simp
    · exact ne_setLoading_of_isProgressWrite (isProgressWrite_progressPromise hev) false

/-- Witness of C10: a request answered after 2.5 s, long before the timer
task ends; `loading := false` is written at 9000 ms, after everything
else. -/
theorem handleAnalyze_loading_off_last_witness :
    ∃ pre : List (Nat × Action),
      handleAnalyze
          { State.initial with
            file := some { name := "rhp.pdf", size := 4096, type := "application/pdf" } }
          (some (2500, Outcome.resolved { data := JsVal.str "ok" })) =
        pre ++ [(9000, Action.setLoading false)] ∧
      (∀ ev ∈ pre, ev.2 ≠ Action.setLoading false ∧ ev.1 ≤ 9000) :=
  let r := (handleAnalyze_loading_off_last
    { State.initial with
      file := some { name := "rhp.pdf", size := 4096, type := "application/pdf" } }
    { name := "rhp.pdf", size := 4096, type := "application/pdf" } 2500
    (Outcome.resolved { data := JsVal.str "ok" }) rfl).1
  ⟨r.choose, r.choose_spec.1, r.choose_spec.2.1⟩

/-! ## The stage sequence (C11) -/

/-- C11: the timer task of a submit call writes exactly the five stage
percentages 20, 40, 60, 80, 95, in list order, at 1000, 3000, 6000, 8000
and 9000 ms; starting from the initial value 0 each value is at least as
large as (indeed larger than) the one before it.  With the initial write
these are all the percentages a call writes whose request never settles. -/
theorem progress_stage_values_nondecreasing :
    progressStages.map Stage.progress = [20, 40, 60, 80, 95] ∧
    (progressPromise 0 progressStages).filterMap (fun ev => ev.2.progressWritten)
      = [20, 40, 60, 80, 95] ∧
    ((progressPromise 0 progressStages).filter fun ev => ev.2.progressWritten.isSome).map
        Prod.fst = [1000, 3000, 6000, 8000, 9000] ∧
    (0 :: (progressPromise 0 progressStages).filterMap (fun ev => ev.2.progressWritten)).Pairwise
      (fun a b => a ≤ b) ∧
    (0 :: (progressPromise 0 progressStages).filterMap (fun ev => ev.2.progressWritten)).Pairwise
      (fun a b => a < b) ∧
    (∀ (s : State) (f : File), s.file = some f →
      (handleAnalyze s none).filterMap (fun ev => ev.2.progressWritten)
        = [0, 20, 40, 60, 80, 95]) := by
  refine ⟨rfl, rfl, rfl, by decide, by decide, ?_⟩
  intro s f h
  simp only [handleAnalyze, h]
  rfl

/-! ## Progress writes and the network (C12) -/

theorem progressWrites_append (as bs : List (Nat × Action)) :
    progressWrites (as ++ bs) = progressWrites as ++ progressWrites bs := by
  simp [progressWrites]

theorem progressWrites_progressPromise (now : Nat) (stages : List Stage) :
    progressWrites (progressPromise now stages) = progressPromise now stages := by
  simp only [progressWrites, List.filter_eq_self]
  intro ev hev
  exact isProgressWrite_progressPromise hev

/-- Scheduling an effect that is no progress write leaves the progress
writes of the queue as they were. -/
theorem progressWrites_schedule_other (e : Nat × Action) (q : List (Nat × Action))
    (he : e.2.isProgressWrite = false) :
    progressWrites (schedule e q) = progressWrites q := by
  obtain ⟨l1, l2, h1, h2, -⟩ := schedule_split e q
  rw [h1, h2]
  simp [progressWrites, he]

/-- Scheduling a progress write into a queue of progress writes gives a
queue of progress writes. -/
theorem progressWrites_schedule_self (e : Nat × Action) (q : List (Nat × Action))
    (he : e.2.isProgressWrite = true) (hq : progressWrites q = q) :
    progressWrites (schedule e q) = schedule e q := by
  simp only [progressWrites, List.filter_eq_self] at hq ⊢
  intro ev hev
  rcases mem_schedule.1 hev with rfl | hev
  · exact he
  · exact hq ev hev

theorem sublist_schedule (e : Nat × Action) (q : List (Nat × Action)) :
    q.Sublist (schedule e q) := by
  obtain ⟨l1, l2, h1, h2, -⟩ := schedule_split e q
  rw [h1, h2]
  exact List.Sublist.append (List.Sublist.refl l1) (List.sublist_cons_self e l2)

/-- The progress writes of a call whose request never settles. -/
theorem progressWrites_handleAnalyze_none (s : State) (f : File) (h : s.file = some f) :
    progressWrites (handleAnalyze s none) =
      [ (0, Action.setLoadingProgress 0),
        (0, Action.setLoadingStage "Initializing analysis...") ]
        ++ progressPromise 0 progressStages := by
  simp only [handleAnalyze, h, progressWrites_append, progressWrites_progressPromise]
  rfl

/-- The progress writes of a call whose request fails. -/
theorem progressWrites_handleAnalyze_rejected (s : State) (f : File) (t : Nat)
    (err : AxiosError) (h : s.file = some f) :
    progressWrites (handleAnalyze s (some (t, Outcome.rejected err))) =
      [ (0, Action.setLoadingProgress 0),
        (0, Action.setLoadingStage "Initializing analysis...") ]
        ++ progressPromise 0 progressStages := by
  simp only [handleAnalyze, h, afterPost, scheduleAll, List.foldl_cons, List.foldl_nil,
    progressWrites_append]
  rw [progressWrites_schedule_other
    (t, Action.setError
      (err.detail.or (JsVal.str "Failed to analyze document. Please try again."))) _ rfl,
    progressWrites_progressPromise]
  rfl

/-- The progress writes of a call whose request succeeds. -/
theorem progressWrites_handleAnalyze_resolved (s : State) (f : File) (t : Nat)
    (response : Response) (h : s.file = some f) :
    progressWrites (handleAnalyze s (some (t, Outcome.resolved response))) =
      [ (0, Action.setLoadingProgress 0),
        (0, Action.setLoadingStage "Initializing analysis...") ]
        ++ schedule (t, Action.setLoadingStage "Analysis complete!")
            (schedule (t, Action.setLoadingProgress 100) (progressPromise 0 progressStages)) := by
  have h2 : progressWrites
      (schedule (t, Action.setLoadingStage "Analysis complete!")
        (schedule (t, Action.setLoadingProgress 100) (progressPromise 0 progressStages))) =
      schedule (t, Action.setLoadingStage "Analysis complete!")
        (schedule (t, Action.setLoadingProgress 100) (progressPromise 0 progressStages)) :=
    progressWrites_schedule_self _ _ rfl
      (progressWrites_schedule_self _ _ rfl (progressWrites_progressPromise 0 progressStages))
  simp only [handleAnalyze, h, afterPost, scheduleAll, List.foldl_cons, List.foldl_nil,
    progressWrites_append]
  rw [progressWrites_schedule_other (t + 500, Action.setAnalysis response.data) _ rfl, h2]
  simp [progressWrites, Action.isProgressWrite]

/-- Counterexample to C12 as stated: from the same state, a request that
succeeds after 2.5 s, one that fails after 2.5 s and one that succeeds
after 9.5 s give three different sequences of percentages written to
`loadingProgress`, and different sequences of stage labels: the success
path writes 100 and `Analysis complete!` when the response arrives. -/
theorem progress_writes_differ_by_outcome :
    (handleAnalyze
        { State.initial with
          file := some { name := "rhp.pdf", size := 4096, type := "application/pdf" } }
        (some (2500, Outcome.resolved { data := JsVal.str "ok" }))).filterMap
        (fun ev => ev.2.progressWritten) = [0, 20, 100, 40, 60, 80, 95] ∧
    (handleAnalyze
        { State.initial with
          file := some { name := "rhp.pdf", size := 4096, type := "application/pdf" } }
        (some (2500, Outcome.rejected { response := none }))).filterMap
        (fun ev => ev.2.progressWritten) = [0, 20, 40, 60, 80, 95] ∧
    (handleAnalyze
        { State.initial with
          file := some { name := "rhp.pdf", size := 4096, type := "application/pdf" } }
        (some (9500, Outcome.resolved { data := JsVal.str "ok" }))).filterMap
        (fun ev => ev.2.progressWritten) = [0, 20, 40, 60, 80, 95, 100] ∧
    (handleAnalyze
        { State.initial with
          file := some { name := "rhp.pdf", size := 4096, type := "application/pdf" } }
        (some (2500, Outcome.resolved { data := JsVal.str "ok" }))).filterMap
        (fun ev => ev.2.stageWritten) ≠
      (handleAnalyze
        { State.initial with
          file := some { name := "rhp.pdf", size := 4096, type := "application/pdf" } }
        (some (2500, Outcome.rejected { response := none }))).filterMap
        (fun ev => ev.2.stageWritten) := by
  refine ⟨rfl, rfl, rfl, ?_⟩
  decide

/-- C12, amended: with a candidate selected, the progress and stage writes
of the timer task do not depend on the network.  A call whose request
fails (at any time, with any error) or never settles writes exactly the
initial 0 / `Initializing analysis...` and the five timed stage updates.
A call whose request succeeds at time `t` writes these same updates at the
same times and, in addition, 100 / `Analysis complete!` at time `t`; its
writes do not depend on the response body. -/
theorem timer_progress_writes_independent_of_network (s : State) (f : File)
    (h : s.file = some f) :
    progressWrites (handleAnalyze s none) =
      [ (0, Action.setLoadingProgress 0),
        (0, Action.setLoadingStage "Initializing analysis...") ]
        ++ progressPromise 0 progressStages ∧
    (∀ (t : Nat) (err : AxiosError),
      progressWrites (handleAnalyze s (some (t, Outcome.rejected err))) =
        progressWrites (handleAnalyze s none)) ∧
    (∀ (t : Nat) (response : Response),
      progressWrites (handleAnalyze s (some (t, Outcome.resolved response))) =
        [ (0, Action.setLoadingProgress 0),
          (0, Action.setLoadingStage "Initializing analysis...") ]
          ++ schedule (t, Action.setLoadingStage "Analysis complete!")
              (schedule (t, Action.setLoadingProgress 100)
                (progressPromise 0 progressStages))) ∧
    (∀ (t : Nat) (response : Response),
      (progressWrites (handleAnalyze s none)).Sublist
        (progressWrites (handleAnalyze s (some (t, Outcome.resolved response))))) := by
  have hn := progressWrites_handleAnalyze_none s f h
  refine ⟨hn, ?_, ?_, ?_⟩
  · intro t err
    rw [hn, progressWrites_handleAnalyze_rejected s f t err h]
  · intro t response
    exact progressWrites_handleAnalyze_resolved s f t response h
  · intro t response
    rw [hn, progressWrites_handleAnalyze_resolved s f t response h]
    exact List.Sublist.append (List.Sublist.refl _)
      (List.Sublist.trans (sublist_schedule _ _) (sublist_schedule _ _))

/-- Witness of amended C12: a failure after 2.5 s writes what a request
that never settles writes. -/
theorem timer_progress_writes_independent_of_network_witness :
    progressWrites (handleAnalyze
        { State.initial with
          file := some { name := "rhp.pdf", size := 4096, type := "application/pdf" } }
        (some (2500, Outcome.rejected { response := none }))) =
      progressWrites (handleAnalyze
        { State.initial with
          file := some { name := "rhp.pdf", size := 4096, type := "application/pdf" } }
        none) :=
  (timer_progress_writes_independent_of_network _
    { name := "rhp.pdf", size := 4096, type := "application/pdf" } rfl).2.1 2500
    { response := none }

/-! ## The candidate is always a PDF (C13) -/

/-- Where an effect of `handleAnalyze`, called with a candidate, comes
from. -/
theorem mem_handleAnalyze_cases {s : State} {f : File} {net : Option (Nat × Outcome)}
    {ev : Nat × Action} (h : s.file = some f) (hev : ev ∈ handleAnalyze s net) :
    ev ∈ [ (0, Action.setLoading true),
           (0, Action.setError JsVal.null),
           (0, Action.setAnalysis JsVal.null),
           (0, Action.setLoadingProgress 0),
           (0, Action.setLoadingStage "Initializing analysis..."),
           (0, Action.axiosPost "https://ipo-analyser-server.vercel.app/api/v1/ipo/analyze"
                 [("rhp", f)] [("Content-Type", "multipart/form-data")]) ] ∨
    ev.2.isProgressWrite = true ∨
    (∃ t o, ev ∈ afterPost t o) ∨
    ev.2 = Action.setLoading false := by
  cases net with
  | none =>
    simp only [handleAnalyze, h, List.mem_append] at hev
    rcases hev with hev | hev
    · exact Or.inl hev
    · exact Or.inr (Or.inl (isProgressWrite_progressPromise hev))
  | some p =>
    obtain ⟨t, o⟩ := p
    simp only [handleAnalyze, h, List.mem_append, List.mem_singleton] at hev
    rcases hev with (hev | hev) | hev
    · exact Or.inl hev
    · rcases mem_scheduleAll.1 hev with hev | hev
      · exact Or.inr (Or.inr (Or.inl ⟨t, o, hev⟩))
      · exact Or.inr (Or.inl (isProgressWrite_progressPromise hev))
    · exact Or.inr (Or.inr (Or.inr (by rw [hev])))

/-- No effect of `handleAnalyze` writes the candidate, and its requests
carry the candidate of the state it was called in. -/
theorem handleAnalyze_effects_safe {s : State} {net : Option (Nat × Outcome)}
    {ev : Nat × Action} (hs : s.candidateIsPdf) (hev : ev ∈ handleAnalyze s net) :
    (∀ f, ev.2 ≠ Action.setFile f) ∧ ev.2.carriesPdf := by
  cases hfile : s.file with
  | none =>
    simp only [handleAnalyze, hfile, List.mem_singleton] at hev
    subst hev
    exact ⟨fun f => by simp, fun url form headers h => by simp at h⟩
  | some f =>
    have hpdf := hs f hfile
    rcases mem_handleAnalyze_cases hfile hev with hev | hev | ⟨t, o, hev⟩ | hev
    · simp only [List.mem_cons, List.mem_singleton, List.not_mem_nil, or_false] at hev
      rcases hev with rfl | rfl | rfl | rfl | rfl | rfl
      all_goals refine ⟨fun f => by simp, fun url form headers h => ?_⟩
      all_goals simp only [reduceCtorEq, Action.axiosPost.injEq] at h
      obtain ⟨-, rfl, -⟩ := h
      intro x hx
      simp only [List.mem_singleton] at hx
      subst hx
      exact hpdf
    · refine ⟨fun f hf => ?_, fun url form headers hf => ?_⟩ <;>
        simp [hf, Action.isProgressWrite] at hev
    · refine ⟨fun f hf => ?_, fun url form headers hf => ?_⟩
      · cases o <;> simp [afterPost] at hev
        · rcases hev with rfl | rfl | rfl <;> simp at hf
        · subst hev; simp at hf
      · have := isRequest_afterPost hev
        simp [hf, Action.isRequest] at this
    · refine ⟨fun f hf => ?_, fun url form headers hf => ?_⟩ <;> simp [hf] at hev

theorem file_apply_of_ne_setFile (s : State) (a : Action) (h : ∀ f, a ≠ Action.setFile f) :
    (s.apply a).file = s.file := by
  cases a <;> first | rfl | exact absurd rfl (h _)

theorem file_run_handleDrag (s : State) (type : String) :
    (s.run (handleDrag type)).file = s.file := by
  unfold handleDrag
  split_ifs <;> rfl

theorem candidateIsPdf_handleDrop (s : State) (e : FileEvent) :
    (s.run (handleDrop e)).candidateIsPdf := by
  intro f hf
  unfold handleDrop at hf
  cases hd : e.files.head? with
  | none => simp [hd, State.run, State.apply] at hf
  | some g =>
    by_cases hty : g.type = "application/pdf"
    · simp [hd, hty, State.run, State.apply] at hf
      rw [← hf]; exact hty
    · simp [hd, hty, State.run, State.apply] at hf

theorem candidateIsPdf_handleFileChange (s : State) (e : FileEvent) :
    (s.run (handleFileChange e)).candidateIsPdf := by
  intro f hf
  unfold handleFileChange at hf
  cases hd : e.files.head? with
  | none => simp [hd, State.run, State.apply] at hf
  | some g =>
    by_cases hty : g.type = "application/pdf"
    · simp [hd, hty, State.run, State.apply] at hf
      rw [← hf]; exact hty
    · simp [hd, hty, State.run, State.apply] at hf

theorem Page.Safe.initial : Page.initial.Safe :=
  ⟨fun f hf => by simp [Page.initial, State.initial] at hf,
   fun l hl => by simp [Page.initial] at hl⟩

/-- Every step of the page keeps it safe. -/
theorem Page.Safe.step {p q : Page} (hp : p.Safe) (hstep : Page.Step p q) : q.Safe := by
  cases hstep with
  | drag type h =>
    refine ⟨fun f hf => hp.1 f ?_, hp.2⟩
    simpa [file_run_handleDrag] using hf
  | drop e h => exact ⟨candidateIsPdf_handleDrop _ e, hp.2⟩
  | fileChange e h => exact ⟨candidateIsPdf_handleFileChange _ e, hp.2⟩
  | analyze net h =>
    refine ⟨hp.1, fun l hl ev hev => ?_⟩
    rcases List.mem_cons.1 hl with rfl | hl
    · exact handleAnalyze_effects_safe hp.1 hev
    · exact hp.2 l hl ev hev
  | effect before after ev rest h =>
    have hev := hp.2 (ev :: rest) (by rw [h]; simp) ev (by simp)
    refine ⟨fun f hf => hp.1 f ?_, fun l hl ev2 hev2 => ?_⟩
    · simpa [file_apply_of_ne_setFile _ _ hev.1] using hf
    · simp only [List.mem_append, List.mem_cons] at hl
      rcases hl with hl | rfl | hl
      · exact hp.2 l (by rw [h]; simp [hl]) ev2 hev2
      · exact hp.2 (ev :: l) (by rw [h]; simp) ev2 (by simp [hev2])
      · exact hp.2 l (by rw [h]; simp [hl]) ev2 hev2
  | uploadAnother h =>
    exact ⟨fun f hf => by simp [State.run_uploadAnotherOnClick] at hf, hp.2⟩
  | remount => exact Page.Safe.initial

theorem Page.Reachable.safe {p : Page} (h : p.Reachable) : p.Safe := by
  induction h with
  | refl => exact Page.Safe.initial
  | tail _ hstep ih => exact ih.step hstep

/-- C13: in every page reachable from the freshly mounted one by drags,
drops, file selections, submits with any fate of the request, effects of
running submits, resets and remounts, the candidate is null or a file of
type `application/pdf`; hence every request a submit would issue from
that state, and every request still to be issued by a running submit,
carries only files of type `application/pdf`. -/
theorem candidate_always_pdf (p : Page) (h : p.Reachable) :
    (p.state.file = none ∨ ∃ f, p.state.file = some f ∧ f.type = "application/pdf") ∧
    (∀ (net : Option (Nat × Outcome)), ∀ ev ∈ handleAnalyze p.state net,
      ∀ url form headers, ev.2 = Action.axiosPost url form headers →
        ∀ x ∈ form, x.2.type = "application/pdf") ∧
    (∀ l ∈ p.running, ∀ ev ∈ l,
      ∀ url form headers, ev.2 = Action.axiosPost url form headers →
        ∀ x ∈ form, x.2.type = "application/pdf") := by
  have hs := h.safe
  refine ⟨?_, ?_, ?_⟩
  · cases hf : p.state.file with
    | none => exact Or.inl rfl
    | some f => exact Or.inr ⟨f, rfl, hs.1 f hf⟩
  · intro net ev hev
    exact (handleAnalyze_effects_safe hs.1 hev).2
  · intro l hl ev hev
    exact (hs.2 l hl ev hev).2

/-- Witness of C13: the page after a PDF was selected and Analyze was
clicked is reachable; its candidate is that PDF. -/
theorem candidate_always_pdf_witness :
    ((State.initial.run (handleFileChange
        { files := [{ name := "rhp.pdf", size := 4096, type := "application/pdf" }] })).file
        = none ∨
      ∃ f, (State.initial.run (handleFileChange
        { files := [{ name := "rhp.pdf", size := 4096, type := "application/pdf" }] })).file
          = some f ∧ f.type = "application/pdf") :=
  (candidate_always_pdf
    { state := State.initial.run (handleFileChange
        { files := [{ name := "rhp.pdf", size := 4096, type := "application/pdf" }] }),
      running := [handleAnalyze (State.initial.run (handleFileChange
        { files := [{ name := "rhp.pdf", size := 4096, type := "application/pdf" }] })) none] }
    (Relation.ReflTransGen.tail
      (Relation.ReflTransGen.single
        (Page.Step.fileChange Page.initial
          { files := [{ name := "rhp.pdf", size := 4096, type := "application/pdf" }] } rfl))
      (Page.Step.analyze _ none rfl))).1

/-! ## No size validation (C14) -/

/-- C14: selection looks at the media type only.  For two first files of
the same media type, whatever their sizes and names (and whatever else the
events carry), `handleFileChange` and `handleDrop` agree on whether a
candidate is accepted and on the error they leave; the file is accepted
exactly when its media type is `application/pdf`. -/
theorem selection_depends_on_type_only (s : State) (f1 f2 : File) (rest1 rest2 : List File)
    (h : f1.type = f2.type) :
    ((s.run (handleFileChange { files := f1 :: rest1 })).file.isSome =
        (s.run (handleFileChange { files := f2 :: rest2 })).file.isSome ∧
      (s.run (handleFileChange { files := f1 :: rest1 })).error =
        (s.run (handleFileChange { files := f2 :: rest2 })).error ∧
      ((s.run (handleFileChange { files := f1 :: rest1 })).file = some f1 ↔
        f1.type = "application/pdf")) ∧
    ((s.run (handleDrop { files := f1 :: rest1 })).file.isSome =
        (s.run (handleDrop { files := f2 :: rest2 })).file.isSome ∧
      (s.run (handleDrop { files := f1 :: rest1 })).error =
        (s.run (handleDrop { files := f2 :: rest2 })).error ∧
      ((s.run (handleDrop { files := f1 :: rest1 })).file = some f1 ↔
        f1.type = "application/pdf")) := by
  by_cases hty : f2.type = "application/pdf"
  · simp [handleFileChange, handleDrop, h, hty, State.run, State.apply]
  · simp [handleFileChange, handleDrop, h, hty, State.run, State.apply]

/-- Witness of C14: a 1 kB PDF and a PDF of 60 MiB, above the advertised
50MB, under another name: both are accepted. -/
theorem selection_depends_on_type_only_witness :
    (State.initial.run (handleFileChange
        { files := [{ name := "small.pdf", size := 1024, type := "application/pdf" }] })).file.isSome
      = (State.initial.run (handleFileChange
        { files := [{ name := "huge.pdf", size := 62914560, type := "application/pdf" }] })).file.isSome ∧
    (State.initial.run (handleFileChange
        { files := [{ name := "huge.pdf", size := 62914560, type := "application/pdf" }] })).file
      = some { name := "huge.pdf", size := 62914560, type := "application/pdf" } :=
  ⟨(selection_depends_on_type_only State.initial
      { name := "small.pdf", size := 1024, type := "application/pdf" }
      { name := "huge.pdf", size := 62914560, type := "application/pdf" } [] [] rfl).1.1,
   ((selection_depends_on_type_only State.initial
      { name := "huge.pdf", size := 62914560, type := "application/pdf" }
      { name := "huge.pdf", size := 62914560, type := "application/pdf" } [] [] rfl).1.2.2).2 rfl⟩

/-! ## Submitting again (C15, C16) -/

/-- The requests of a call of `handleAnalyze` with a candidate: the one
POST of the candidate, whatever the network does. -/
theorem requests_handleAnalyze (s : State) (f : File) (net : Option (Nat × Outcome))
    (h : s.file = some f) :
    ((handleAnalyze s net).filter fun ev => ev.2.isRequest) =
      [ (0, Action.axiosPost "https://ipo-analyser-server.vercel.app/api/v1/ipo/analyze"
              [("rhp", f)] [("Content-Type", "multipart/form-data")]) ] := by
  have key : ∀ l : List (Nat × Action),
      (∀ ev ∈ l, ev.2.isProgressWrite = true ∨ (∃ t o, ev ∈ afterPost t o) ∨
        ev.2 = Action.setLoading false) →
      (l.filter fun ev => ev.2.isRequest) = [] := by
    intro l hl
    simp only [List.filter_eq_nil_iff, Bool.not_eq_true]
    intro ev hev
    rcases hl ev hev with h1 | ⟨t, o, h1⟩ | h1
    · exact isRequest_of_isProgressWrite h1
    · exact isRequest_afterPost h1
    · rw [h1]; rfl
  cases net with
  | none =>
    simp only [handleAnalyze, h, List.filter_append]
    rw [key (progressPromise 0 progressStages)
      (fun ev hev => Or.inl (isProgressWrite_progressPromise hev))]
    rfl
  | some p =>
    obtain ⟨t, o⟩ := p
    simp only [handleAnalyze, h, List.filter_append]
    rw [key (scheduleAll (afterPost t o) (progressPromise 0 progressStages)) ?_,
      key [(max (afterPostDone t o) (progressDone 0 progressStages), Action.setLoading false)]
        (fun ev hev => Or.inr (Or.inr (by simp at hev; rw [hev])))]
    · rfl
    · intro ev hev
      rcases mem_scheduleAll.1 hev with hev | hev
      · exact Or.inr (Or.inl ⟨t, o, hev⟩)
      · exact Or.inl (isProgressWrite_progressPromise hev)

/-- Counterexample to C15 as stated: in the Failed state a failed submit
of `rhp.pdf` ends in, the candidate is still `rhp.pdf`, the page offers
Analyze, and a further submit posts `rhp.pdf` again: no file has to be
selected anew. -/
theorem failed_state_offers_resubmit :
    (({ State.initial with
          file := some { name := "rhp.pdf", size := 4096, type := "application/pdf" } } :
          State).runTimed
        (handleAnalyze
          { State.initial with
            file := some { name := "rhp.pdf", size := 4096, type := "application/pdf" } }
          (some (700, Outcome.rejected
            { response := some
                { data := JsVal.obj [("detail", JsVal.str "file too large")] } })))).file
      = some { name := "rhp.pdf", size := 4096, type := "application/pdf" } ∧
    offered
      (({ State.initial with
          file := some { name := "rhp.pdf", size := 4096, type := "application/pdf" } } :
          State).runTimed
        (handleAnalyze
          { State.initial with
            file := some { name := "rhp.pdf", size := 4096, type := "application/pdf" } }
          (some (700, Outcome.rejected
            { response := some
                { data := JsVal.obj [("detail", JsVal.str "file too large")] } }))))
      Handler.handleAnalyze = true ∧
    ((handleAnalyze
        (({ State.initial with
            file := some { name := "rhp.pdf", size := 4096, type := "application/pdf" } } :
            State).runTimed
          (handleAnalyze
            { State.initial with
              file := some { name := "rhp.pdf", size := 4096, type := "application/pdf" } }
            (some (700, Outcome.rejected
              { response := some
                  { data := JsVal.obj [("detail", JsVal.str "file too large")] } }))))
        none).filter fun ev => ev.2.isRequest) =
      [ (0, Action.axiosPost "https://ipo-analyser-server.vercel.app/api/v1/ipo/analyze"
              [("rhp", { name := "rhp.pdf", size := 4096, type := "application/pdf" })]
              [("Content-Type", "multipart/form-data")]) ] := by
  have r := handleAnalyze_rejected_final
    { State.initial with
      file := some { name := "rhp.pdf", size := 4096, type := "application/pdf" } }
    { name := "rhp.pdf", size := 4096, type := "application/pdf" } 700
    { response := some { data := JsVal.obj [("detail", JsVal.str "file too large")] } } rfl
  refine ⟨r.2.2.2, ?_, requests_handleAnalyze _ _ none r.2.2.2⟩
  rw [offered_handleAnalyze_eq, r.1, r.2.1, r.2.2.1, r.2.2.2]
  rfl

/-- C15, amended: with a candidate selected, a submit whose request fails
issues exactly one request (no retry).  In the Failed state it ends in the
candidate is kept and the error is the detail or the generic message.
The page offers Analyze there exactly when it can show that error (the
value is a valid child: text, as the generic message and every string
detail are, but not an object nor an array holding one, on which
rendering throws and the page is removed); the user can then submit again
without selecting a file anew, and that submit posts the same
candidate. -/
theorem failed_submit_no_retry_candidate_kept (s : State) (f : File) (t : Nat)
    (err : AxiosError) (h : s.file = some f) :
    ((handleAnalyze s (some (t, Outcome.rejected err))).filter fun ev => ev.2.isRequest) =
      [ (0, Action.axiosPost "https://ipo-analyser-server.vercel.app/api/v1/ipo/analyze"
              [("rhp", f)] [("Content-Type", "multipart/form-data")]) ] ∧
    (s.runTimed (handleAnalyze s (some (t, Outcome.rejected err)))).file = some f ∧
    (s.runTimed (handleAnalyze s (some (t, Outcome.rejected err)))).error =
      err.detail.or (JsVal.str "Failed to analyze document. Please try again.") ∧
    offered (s.runTimed (handleAnalyze s (some (t, Outcome.rejected err))))
        Handler.handleAnalyze =
      (err.detail.or (JsVal.str "Failed to analyze document. Please try again.")).validChild ∧
    (err.detail.truthy = false →
      offered (s.runTimed (handleAnalyze s (some (t, Outcome.rejected err))))
        Handler.handleAnalyze = true) ∧
    (∀ message, err.detail = JsVal.str message →
      offered (s.runTimed (handleAnalyze s (some (t, Outcome.rejected err))))
        Handler.handleAnalyze = true) ∧
    (∀ net : Option (Nat × Outcome),
      ((handleAnalyze (s.runTimed (handleAnalyze s (some (t, Outcome.rejected err)))) net).filter
          fun ev => ev.2.isRequest) =
        [ (0, Action.axiosPost "https://ipo-analyser-server.vercel.app/api/v1/ipo/analyze"
                [("rhp", f)] [("Content-Type", "multipart/form-data")]) ]) := by
  have r := handleAnalyze_rejected_final s f t err h
  have hoff : offered (s.runTimed (handleAnalyze s (some (t, Outcome.rejected err))))
        Handler.handleAnalyze =
      (err.detail.or (JsVal.str "Failed to analyze document. Please try again.")).validChild := by
    rw [offered_handleAnalyze_eq, r.1, r.2.1, r.2.2.1, r.2.2.2]
    have ht : (err.detail.or
        (JsVal.str "Failed to analyze document. Please try again.")).truthy = true := by
      unfold JsVal.or
      cases hd : err.detail.truthy
      · simp [JsVal.truthy]
      · simp [hd]
    rw [ht]
    simp [JsVal.truthy]
  refine ⟨requests_handleAnalyze s f _ h, r.2.2.2, r.1, hoff, ?_, ?_,
    fun net => requests_handleAnalyze _ f net r.2.2.2⟩
  · intro hd
    rw [hoff]
    simp [JsVal.or, hd, JsVal.validChild]
  · intro message hm
    rw [hoff, hm]
    unfold JsVal.or
    split <;> rfl

/-- Witness of amended C15: a network error after 3 s. -/
theorem failed_submit_no_retry_candidate_kept_witness :
    offered
      (({ State.initial with
          file := some { name := "rhp.pdf", size := 4096, type := "application/pdf" } } :
          State).runTimed
        (handleAnalyze
          { State.initial with
            file := some { name := "rhp.pdf", size := 4096, type := "application/pdf" } }
          (some (3000, Outcome.rejected { response := none }))))
      Handler.handleAnalyze = true :=
  (failed_submit_no_retry_candidate_kept _
    { name := "rhp.pdf", size := 4096, type := "application/pdf" } 3000
    { response := none } rfl).2.2.2.2.1 rfl

/-- Counterexample to C16 as stated: there is no state at all, reachable or
not, with `loading = true` in which the page offers Analyze. -/
theorem no_loading_state_offers_analyze :
    ¬ ∃ s : State, s.loading = true ∧ offered s Handler.handleAnalyze = true := by
  rintro ⟨s, hl, ho⟩
  rw [offered_handleAnalyze_eq, hl] at ho
  simp at ho

/-- C16, amended: `handleAnalyze` itself has no in-flight check: called in
a state with `loading = true` and a candidate it issues a request.  The
page guards it: in a state with `loading = true` no rendered element is
bound to `handleAnalyze`, so a second submit cannot be invoked while one
is in flight; Analyze is offered exactly in the upload view (no result
held, not loading, the error either falsy or a value React can show as a
child) with a candidate selected. -/
theorem analyze_not_offered_while_loading (s : State) (h : s.loading = true) :
    offered s Handler.handleAnalyze = false ∧
    (∀ c ∈ render s, c.handler ≠ Handler.handleAnalyze) ∧
    (∀ (f : File) (net : Option (Nat × Outcome)), s.file = some f →
      ((handleAnalyze s net).filter fun ev => ev.2.isRequest) =
        [ (0, Action.axiosPost "https://ipo-analyser-server.vercel.app/api/v1/ipo/analyze"
                [("rhp", f)] [("Content-Type", "multipart/form-data")]) ]) ∧
    (∀ s0 : State, offered s0 Handler.handleAnalyze =
      (!s0.analysis.truthy && !s0.loading && s0.file.isSome &&
        (!s0.error.truthy || s0.error.validChild))) := by
  refine ⟨?_, ?_, fun f net hf => requests_handleAnalyze s f net hf,
    offered_handleAnalyze_eq⟩
  · rw [offered_handleAnalyze_eq, h]
    simp
  · intro c hc heq
    have hview : view s ≠ View.upload := by
      rw [Ne, view_upload_iff, h]
      simp
    unfold render at hc
    cases hv : view s with
    | upload => exact hview hv
    | results =>
      simp only [hv, List.mem_cons, List.mem_singleton, List.not_mem_nil, or_false] at hc
      rcases hc with rfl | rfl | rfl <;> cases heq
    | loading =>
      simp only [hv, List.mem_singleton] at hc
      subst hc
      cases heq
    | unmounted => simp [hv] at hc

/-- Witness of amended C16: the state right after the synchronous part of
a submit of `rhp.pdf`. -/
theorem analyze_not_offered_while_loading_witness :
    offered
      { State.initial with
        file := some { name := "rhp.pdf", size := 4096, type := "application/pdf" },
        loading := true, loadingStage := "Initializing analysis..." }
      Handler.handleAnalyze = false :=
  (analyze_not_offered_while_loading _ rfl).1

/-! ## Report download (C17) -/

/-- C17: `downloadReport` performs no state setter call and no network
request: in every state (with a result present or not) the session state
after the call is the state before it.  Its effects end with
`appendChild`, `click`, `removeChild`: the temporary link is added once
and removed again after the click. -/
theorem downloadReport_no_state_change_no_request (js : Builtins) (s : State) :
    s.run (downloadReport js s) = s ∧
    (∀ a ∈ downloadReport js s, a.isWrite = false ∧ a.isRequest = false) ∧
    (∃ before : List Action,
      downloadReport js s =
        before ++ [Action.appendChild, Action.click, Action.removeChild] ∧
      (∀ a ∈ before, a ≠ Action.appendChild ∧ a ≠ Action.removeChild)) := by
  refine ⟨rfl, ?_,
    ⟨[ Action.createElement "a",
       Action.setAttribute "href"
         ("data:text/plain;charset=utf-8," ++
           js.encodeURIComponent (jsToString (js.stringify s.analysis 2))),
       Action.setAttribute "download" "ipo-analysis-report.json",
       Action.setStyle "display" "none" ], rfl, ?_⟩⟩
  · intro a ha
    simp only [downloadReport, List.mem_cons, List.mem_singleton, List.not_mem_nil,
      or_false] at ha
    rcases ha with rfl | rfl | rfl | rfl | rfl | rfl | rfl <;> exact ⟨rfl, rfl⟩
  · intro a ha
    simp only [List.mem_cons, List.mem_singleton, List.not_mem_nil, or_false] at ha
    rcases ha with rfl | rfl | rfl | rfl <;> simp

/-- The link `downloadReport` builds and clicks, for the result `R` held in
`analysis`: an `a` element whose `href` is `data:text/plain;charset=utf-8,`
followed by `encodeURIComponent(JSON.stringify(R, null, 2))` and whose
`download` name is `ipo-analysis-report.json`; these are the only
attributes it sets. -/
theorem downloadReport_effects (js : Builtins) (s : State) :
    downloadReport js s =
      [ Action.createElement "a",
        Action.setAttribute "href"
          ("data:text/plain;charset=utf-8," ++
            js.encodeURIComponent (jsToString (js.stringify s.analysis 2))),
        Action.setAttribute "download" "ipo-analysis-report.json",
        Action.setStyle "display" "none",
        Action.appendChild,
        Action.click,
        Action.removeChild ] ∧
    (downloadReport js s).filterMap Action.attributeSet =
      [ ("href", "data:text/plain;charset=utf-8," ++
          js.encodeURIComponent (jsToString (js.stringify s.analysis 2))),
        ("download", "ipo-analysis-report.json") ] :=
  ⟨rfl, rfl⟩

/-! ## Malformed results (C19) -/

/-- When the results view is produced: the component function evaluates
the results branch, every bound text, list item and score is a valid
child, and `FinancialCharts` renders on `financial_metrics`. -/
theorem renderResults_ok_iff (a : JsVal) :
    (∃ bound, renderResults a = Except.ok bound) ↔
      (∃ v, a.optProp "final_verdict" = JsVal.str v) ∧
      (∃ xs, a.optProp "key_strengths" = JsVal.arr xs ∧ ∀ v ∈ xs, v.validChild = true) ∧
      (∃ ys, a.optProp "key_risks" = JsVal.arr ys ∧ ∀ v ∈ ys, v.validChild = true) ∧
      a.optProp "scores" ≠ JsVal.undefined ∧
      a.optProp "scores" ≠ JsVal.null ∧
      ((a.optProp "scores").optProp "financial_strength").validChild = true ∧
      ((a.optProp "scores").optProp "valuation_comfort").validChild = true ∧
      ((a.optProp "scores").optProp "promoter_quality").validChild = true ∧
      ((a.optProp "scores").optProp "demand_strength").validChild = true ∧
      (a.optProp "final_comment").validChild = true ∧
      (a.optProp "company_overview").validChild = true ∧
      (a.optProp "business_summary").validChild = true ∧
      (a.optProp "financial_analysis").validChild = true ∧
      (a.optProp "valuation_analysis").validChild = true ∧
      (a.optProp "profit_potential").validChild = true ∧
      (a.optProp "investment_recommendation").validChild = true ∧
      (∃ r, FinancialCharts (a.optProp "financial_metrics") = Except.ok r) := by
  constructor
  · rintro ⟨bound, h⟩
    obtain ⟨hb, hm⟩ := (renderResults_eq_ok_iff a bound).1 h
    obtain ⟨h1, -, -, h4, h5, -⟩ := (resultsBranch_ok_iff a).1 ⟨bound, hb⟩
    obtain ⟨-, -, f3, f4, f5, f6, f7, f8, f9, f10, f11, f12, f13⟩ :=
      resultsBranch_fields a bound hb
    obtain ⟨m1, m2, m3, m4, m5, m6, m7, m8, m9, m10, m11⟩ := (mountResults_ok_iff bound).1 hm
    have hs : ∀ v ∈ bound.scores.map ScoreCard.value, v.validChild = true := by
      intro v hv
      obtain ⟨card, hcard, rfl⟩ := List.mem_map.1 hv
      exact m11 card hcard
    rw [f13] at hs
    simp only [List.mem_cons, List.mem_singleton, List.not_mem_nil, or_false,
      forall_eq_or_imp, forall_eq] at hs
    rw [f3] at m1; rw [f4] at m2; rw [f5] at m3; rw [f6] at m4; rw [f7] at m5
    rw [f8] at m8; rw [f9] at m9; rw [f10] at m10
    exact ⟨h1, ⟨_, f11.symm, m6⟩, ⟨_, f12.symm, m7⟩, h4, h5, hs.1, hs.2.1, hs.2.2.1,
      hs.2.2.2, m1, m2, m3, m4, m8, m9, m10, m5⟩
  · rintro ⟨h1, ⟨xs, h2, v2⟩, ⟨ys, h3, v3⟩, h4, h5, s1, s2, s3, s4, c1, c2, c3, c4, c5, c6,
      c7, hc⟩
    obtain ⟨bound, hb⟩ := (resultsBranch_ok_iff a).2
      ⟨h1, ⟨xs, h2⟩, ⟨ys, h3⟩, h4, h5, JsVal.coercionThrows_of_validChild _ s1,
        JsVal.coercionThrows_of_validChild _ s2, JsVal.coercionThrows_of_validChild _ s3,
        JsVal.coercionThrows_of_validChild _ s4⟩
    refine ⟨bound, (renderResults_eq_ok_iff a bound).2 ⟨hb, ?_⟩⟩
    obtain ⟨-, -, f3, f4, f5, f6, f7, f8, f9, f10, f11, f12, f13⟩ :=
      resultsBranch_fields a bound hb
    rw [h2] at f11; rw [h3] at f12
    cases f11; cases f12
    rw [mountResults_ok_iff, f3, f4, f5, f6, f7, f8, f9, f10]
    refine ⟨c1, c2, c3, c4, hc, v2, v3, c5, c6, c7, ?_⟩
    intro card hcard
    have hv : card.value ∈ bound.scores.map ScoreCard.value := List.mem_map.2 ⟨card, hcard, rfl⟩
    rw [f13] at hv
    simp only [List.mem_cons, List.mem_singleton, List.not_mem_nil, or_false] at hv
    rcases hv with hv | hv | hv | hv <;> rw [hv] <;> assumption

/-- What the results view shows: each bound field is the property read
from the result, `undefined` when the property is missing. -/
theorem renderResults_fields (a : JsVal) (bound : ResultsView)
    (h : renderResults a = Except.ok bound) :
    bound.verdictClass = getVerdictColor (a.optProp "final_verdict") ∧
    bound.finalComment = a.optProp "final_comment" ∧
    bound.companyOverview = a.optProp "company_overview" ∧
    bound.businessSummary = a.optProp "business_summary" ∧
    bound.financialAnalysis = a.optProp "financial_analysis" ∧
    bound.financialMetrics = a.optProp "financial_metrics" ∧
    bound.valuationAnalysis = a.optProp "valuation_analysis" ∧
    bound.profitPotential = a.optProp "profit_potential" ∧
    bound.investmentRecommendation = a.optProp "investment_recommendation" ∧
    JsVal.arr bound.keyStrengths = a.optProp "key_strengths" ∧
    JsVal.arr bound.keyRisks = a.optProp "key_risks" ∧
    bound.scores.map ScoreCard.value =
      [ (a.optProp "scores").optProp "financial_strength",
        (a.optProp "scores").optProp "valuation_comfort",
        (a.optProp "scores").optProp "promoter_quality",
        (a.optProp "scores").optProp "demand_strength" ] := by
  obtain ⟨f1, -, f3⟩ := resultsBranch_fields a bound ((renderResults_eq_ok_iff a bound).1 h).1
  exact ⟨f1, f3⟩

/-- Counterexample to C19 as stated: a stored result that lacks
`final_verdict` (and is complete otherwise), and one that lacks `scores`,
make the results branch throw a `TypeError`: no results view is
produced. -/
theorem renderResults_missing_field_throws :
    renderResults (JsVal.obj
        [ ("final_comment", JsVal.str "Sound business."),
          ("key_strengths", JsVal.arr [JsVal.str "brand"]),
          ("key_risks", JsVal.arr [JsVal.str "debt"]),
          ("scores", JsVal.obj
            [ ("financial_strength", JsVal.num 8), ("valuation_comfort", JsVal.num 7),
              ("promoter_quality", JsVal.num 9), ("demand_strength", JsVal.num 6) ]) ])
      = Except.error JsError.typeError ∧
    renderResults (JsVal.obj
        [ ("final_verdict", JsVal.str "apply"),
          ("final_comment", JsVal.str "Sound business."),
          ("key_strengths", JsVal.arr [JsVal.str "brand"]),
          ("key_risks", JsVal.arr [JsVal.str "debt"]) ])
      = Except.error JsError.typeError :=
  ⟨rfl, rfl⟩

/-- C19, amended: no invariant is enforced on the result's shape, and a
malformed result can make rendering fail.  A stored result that lacks
`final_verdict`, `key_strengths`, `key_risks` or `scores` makes the
results branch throw a `TypeError`: no results view is produced.  A result
that lacks `financial_metrics`, text fields or sub-scores is still
rendered when what it does hold is well formed (`final_verdict` a string,
the two lists arrays of valid children, `scores` neither `undefined` nor
null, the sub-scores and the text fields valid children): the missing
fields are shown as `undefined` values, and on a missing
`financial_metrics` `FinancialCharts` returns null.  The last part is one
such result. -/
theorem renderResults_needs_verdict_lists_scores (props : List (String × JsVal)) :
    ((props.lookup "final_verdict" = none ∨ props.lookup "key_strengths" = none ∨
        props.lookup "key_risks" = none ∨ props.lookup "scores" = none) →
      renderResults (JsVal.obj props) = Except.error JsError.typeError) ∧
    ((∃ v, (JsVal.obj props).optProp "final_verdict" = JsVal.str v) →
      (∃ xs, (JsVal.obj props).optProp "key_strengths" = JsVal.arr xs ∧
        ∀ v ∈ xs, v.validChild = true) →
      (∃ ys, (JsVal.obj props).optProp "key_risks" = JsVal.arr ys ∧
        ∀ v ∈ ys, v.validChild = true) →
      (JsVal.obj props).optProp "scores" ≠ JsVal.undefined →
      (JsVal.obj props).optProp "scores" ≠ JsVal.null →
      (∀ k ∈ ["financial_strength", "valuation_comfort", "promoter_quality",
          "demand_strength"],
        (((JsVal.obj props).optProp "scores").optProp k).validChild = true) →
      (∀ k ∈ ["final_comment", "company_overview", "business_summary",
          "financial_analysis", "valuation_analysis", "profit_potential",
          "investment_recommendation"],
        ((JsVal.obj props).optProp k).validChild = true) →
      props.lookup "financial_metrics" = none →
      ∃ bound, renderResults (JsVal.obj props) = Except.ok bound ∧
        bound.financialMetrics = JsVal.undefined ∧
        FinancialCharts bound.financialMetrics = Except.ok none) ∧
    (∀ bound, renderResults (JsVal.obj props) = Except.ok bound →
      bound.finalComment = (JsVal.obj props).optProp "final_comment" ∧
      bound.companyOverview = (JsVal.obj props).optProp "company_overview" ∧
      bound.businessSummary = (JsVal.obj props).optProp "business_summary" ∧
      bound.financialAnalysis = (JsVal.obj props).optProp "financial_analysis" ∧
      bound.financialMetrics = (JsVal.obj props).optProp "financial_metrics" ∧
      bound.valuationAnalysis = (JsVal.obj props).optProp "valuation_analysis" ∧
      bound.profitPotential = (JsVal.obj props).optProp "profit_potential" ∧
      bound.investmentRecommendation =
        (JsVal.obj props).optProp "investment_recommendation" ∧
      bound.scores.map ScoreCard.value =
        [ ((JsVal.obj props).optProp "scores").optProp "financial_strength",
          ((JsVal.obj props).optProp "scores").optProp "valuation_comfort",
          ((JsVal.obj props).optProp "scores").optProp "promoter_quality",
          ((JsVal.obj props).optProp "scores").optProp "demand_strength" ]) ∧
    (∃ bound, renderResults (JsVal.obj
        [ ("final_verdict", JsVal.str "high-risk-apply"),
          ("key_strengths", JsVal.arr [JsVal.str "brand"]),
          ("key_risks", JsVal.arr [JsVal.str "debt"]),
          ("scores", JsVal.obj [("financial_strength", JsVal.num 8)]) ]) = Except.ok bound ∧
      bound.finalComment = JsVal.undefined ∧
      bound.scores.map ScoreCard.value =
        [JsVal.num 8, JsVal.undefined, JsVal.undefined, JsVal.undefined]) := by
  refine ⟨?_, ?_, ?_, ?_⟩
  · intro h
    apply renderResults_of_missing
    simp only [JsVal.optProp]
    rcases h with h | h | h | h
    · exact Or.inl (by rw [h]; rfl)
    · exact Or.inr (Or.inl (by rw [h]; rfl))
    · exact Or.inr (Or.inr (Or.inl (by rw [h]; rfl)))
    · exact Or.inr (Or.inr (Or.inr (by rw [h]; rfl)))
  · intro h1 h2 h3 h4 h5 hs ht hfm
    have hund : (JsVal.obj props).optProp "financial_metrics" = JsVal.undefined := by
      simp [JsVal.optProp, hfm]
    obtain ⟨bound, hb⟩ := (renderResults_ok_iff (JsVal.obj props)).2
      ⟨h1, h2, h3, h4, h5, hs _ (by simp), hs _ (by simp), hs _ (by simp), hs _ (by simp),
        ht _ (by simp), ht _ (by simp), ht _ (by simp), ht _ (by simp), ht _ (by simp),
        ht _ (by simp), ht _ (by simp), ⟨none, by rw [hund]; rfl⟩⟩
    have hf := (renderResults_fields _ bound hb).2.2.2.2.2.1
    rw [hund] at hf
    exact ⟨bound, hb, hf, by rw [hf]; rfl⟩
  · intro bound hb
    have r := renderResults_fields _ bound hb
    exact ⟨r.2.1, r.2.2.1, r.2.2.2.1, r.2.2.2.2.1, r.2.2.2.2.2.1, r.2.2.2.2.2.2.1,
      r.2.2.2.2.2.2.2.1, r.2.2.2.2.2.2.2.2.1, r.2.2.2.2.2.2.2.2.2.2.2⟩
  · exact ⟨_, rfl, rfl, rfl⟩

/-! ## Verdict styles (C20) -/

/-- C20: `getVerdictColor` maps the three verdicts `apply`,
`high-risk-apply` and `avoid` to the green, yellow and red style, which
are pairwise different, and every other value (any other string, and any
value that is no string) to the one gray style, which differs from all
three.  It is a total function of the verdict alone. -/
theorem getVerdictColor_three_verdicts_else_gray :
    getVerdictColor (JsVal.str "apply") =
      "bg-gradient-to-r from-green-500/20 to-emerald-500/20 border-green-500/50 text-green-400" ∧
    getVerdictColor (JsVal.str "high-risk-apply") =
      "bg-gradient-to-r from-yellow-500/20 to-amber-500/20 border-yellow-500/50 text-yellow-400" ∧
    getVerdictColor (JsVal.str "avoid") =
      "bg-gradient-to-r from-red-500/20 to-rose-500/20 border-red-500/50 text-red-400" ∧
    getVerdictColor (JsVal.str "apply") ≠ getVerdictColor (JsVal.str "high-risk-apply") ∧
    getVerdictColor (JsVal.str "apply") ≠ getVerdictColor (JsVal.str "avoid") ∧
    getVerdictColor (JsVal.str "high-risk-apply") ≠ getVerdictColor (JsVal.str "avoid") ∧
    (∀ v : JsVal, v ≠ JsVal.str "apply" → v ≠ JsVal.str "high-risk-apply" →
      v ≠ JsVal.str "avoid" →
      getVerdictColor v =
        "bg-gradient-to-r from-gray-500/20 to-slate-500/20 border-gray-500/50 text-gray-400") ∧
    (∀ v : JsVal,
      getVerdictColor v =
          "bg-gradient-to-r from-gray-500/20 to-slate-500/20 border-gray-500/50 text-gray-400" →
        v ≠ JsVal.str "apply" ∧ v ≠ JsVal.str "high-risk-apply" ∧ v ≠ JsVal.str "avoid") := by
  refine ⟨rfl, rfl, rfl, by decide, by decide, by decide, ?_, ?_⟩
  · intro v h1 h2 h3
    cases v with
    | str s =>
      have e1 : s ≠ "apply" := fun h => h1 (by rw [h])
      have e2 : s ≠ "high-risk-apply" := fun h => h2 (by rw [h])
      have e3 : s ≠ "avoid" := fun h => h3 (by rw [h])
      simp [getVerdictColor, e1, e2, e3]
    | _ => rfl
  · intro v hv
    refine ⟨?_, ?_, ?_⟩ <;> rintro rfl <;> revert hv <;> decide

/-! ## The indicator after an early success (C21) -/

theorem State.apply_progress_fields (s1 s2 : State) (a : Action)
    (h1 : s1.loadingProgress = s2.loadingProgress) (h2 : s1.loadingStage = s2.loadingStage) :
    (s1.apply a).loadingProgress = (if a.isProgressWrite then s2.apply a else s2).loadingProgress ∧
    (s1.apply a).loadingStage = (if a.isProgressWrite then s2.apply a else s2).loadingStage := by
  cases a <;> simp [State.apply, Action.isProgressWrite, h1, h2]

/-- The progress indicator a run of effects leaves depends only on the
progress writes among them and on the indicator it started from. -/
theorem State.runTimed_progress_fields (evs : List (Nat × Action)) (s1 s2 : State)
    (h1 : s1.loadingProgress = s2.loadingProgress) (h2 : s1.loadingStage = s2.loadingStage) :
    (s1.runTimed evs).loadingProgress = (s2.runTimed (progressWrites evs)).loadingProgress ∧
    (s1.runTimed evs).loadingStage = (s2.runTimed (progressWrites evs)).loadingStage := by
  induction evs generalizing s1 s2 with
  | nil => exact ⟨h1, h2⟩
  | cons ev evs ih =>
    have hstep := State.apply_progress_fields s1 s2 ev.2 h1 h2
    by_cases hp : ev.2.isProgressWrite = true
    · simp only [hp, if_true] at hstep
      have := ih (s1.apply ev.2) (s2.apply ev.2) hstep.1 hstep.2
      simpa [State.runTimed, progressWrites, hp, State.run_cons] using this
    · simp only [hp] at hstep
      have := ih (s1.apply ev.2) s2 hstep.1 hstep.2
      simpa [State.runTimed, progressWrites, hp, State.run_cons] using this

/-- The percentages a sequence of effects writes are those of its progress
writes. -/
theorem filterMap_progressWritten_progressWrites (evs : List (Nat × Action)) :
    (progressWrites evs).filterMap (fun ev => ev.2.progressWritten) =
      evs.filterMap (fun ev => ev.2.progressWritten) := by
  induction evs with
  | nil => rfl
  | cons ev evs ih =>
    by_cases hp : ev.2.isProgressWrite = true
    · simp only [progressWrites, List.filter_cons, hp, if_true, List.filterMap_cons] at ih ⊢
      rw [ih]
    · have hn : ev.2.progressWritten = none := by
        cases h : ev.2 <;> simp [h, Action.isProgressWrite] at hp <;> rfl
      simp only [progressWrites, List.filter_cons, hp, List.filterMap_cons, hn] at ih ⊢
      simpa using ih

/-- In a queue in time order, a scheduled effect goes between the effects
due by its time and those due later. -/
theorem schedule_eq_filter (e : Nat × Action) (q : List (Nat × Action))
    (hq : q.Pairwise fun a b => a.1 ≤ b.1) :
    schedule e q =
      (q.filter fun ev => decide (ev.1 ≤ e.1)) ++
        e :: (q.filter fun ev => decide (e.1 < ev.1)) := by
  induction q with
  | nil => rfl
  | cons y ys ih =>
    rw [List.pairwise_cons] at hq
    by_cases hy : y.1 ≤ e.1
    · have hy2 : ¬ e.1 < y.1 := by omega
      simp [schedule, hy, hy2, ih hq.2]
    · have hy2 : e.1 < y.1 := by omega
      have h1 : (ys.filter fun ev => decide (ev.1 ≤ e.1)) = [] := by
        simp only [List.filter_eq_nil_iff, decide_eq_true_eq]
        intro x hx
        have := hq.1 x hx
        omega
      have h2 : (ys.filter fun ev => decide (e.1 < ev.1)) = ys := by
        simp only [List.filter_eq_self, decide_eq_true_eq]
        intro x hx
        have := hq.1 x hx
        omega
      simp [schedule, hy, hy2, h1, h2]

/-- The queue of progress writes of a call whose request succeeds at time
`t`: the stage updates due by `t`, the two completion writes, the stage
updates due after `t`. -/
theorem resolved_progress_queue (t : Nat) :
    schedule (t, Action.setLoadingStage "Analysis complete!")
        (schedule (t, Action.setLoadingProgress 100) (progressPromise 0 progressStages)) =
      ((progressPromise 0 progressStages).filter fun ev => decide (ev.1 ≤ t)) ++
        (t, Action.setLoadingProgress 100) ::
          (t, Action.setLoadingStage "Analysis complete!") ::
            ((progressPromise 0 progressStages).filter fun ev => decide (t < ev.1)) := by
  have hP := pairwise_progressPromise 0 progressStages
  rw [schedule_eq_filter _ _ (pairwise_schedule _ _ hP), schedule_eq_filter _ _ hP]
  have h1 : ∀ a : Nat × Action, (decide (a.1 ≤ t) && decide (t < a.1)) = false := by
    intro a
    simp only [Bool.and_eq_false_imp, decide_eq_true_eq, decide_eq_false_iff_not]
    omega
  have h2 : ∀ a : Nat × Action, (decide (t < a.1) && decide (a.1 ≤ t)) = false := by
    intro a
    simp only [Bool.and_eq_false_imp, decide_eq_true_eq, decide_eq_false_iff_not]
    omega
  simp [List.filter_append, List.filter_filter, h1, h2]

/-- C21: with a candidate selected and a request that succeeds at time
`t`, the percentages written by the call are 0, the stage values due by
`t`, then 100, then the stage values due after `t`.  When the response
arrives before the timer task has finished (`t < 9000`), values below 100
follow the 100, the last of them 95, and when loading ends the indicator
holds 95 / `Finalizing results...`.  The indicator ends at 100 /
`Analysis complete!` exactly when the response arrives after the last
stage update (`9000 ≤ t`). -/
theorem early_success_progress_overwritten (s : State) (f : File) (t : Nat)
    (response : Response) (h : s.file = some f) :
    (handleAnalyze s (some (t, Outcome.resolved response))).filterMap
        (fun ev => ev.2.progressWritten) =
      0 :: ((progressPromise 0 progressStages).filter fun ev => decide (ev.1 ≤ t)).filterMap
            (fun ev => ev.2.progressWritten)
        ++ 100 :: ((progressPromise 0 progressStages).filter
            fun ev => decide (t < ev.1)).filterMap (fun ev => ev.2.progressWritten) ∧
    (t < 9000 →
      (s.runTimed (handleAnalyze s (some (t, Outcome.resolved response)))).loadingProgress
        = 95 ∧
      (s.runTimed (handleAnalyze s (some (t, Outcome.resolved response)))).loadingStage
        = "Finalizing results..." ∧
      (∃ rest, ((progressPromise 0 progressStages).filter
          fun ev => decide (t < ev.1)).filterMap (fun ev => ev.2.progressWritten)
            = rest ++ [95]) ∧
      (∀ x ∈ ((progressPromise 0 progressStages).filter
          fun ev => decide (t < ev.1)).filterMap (fun ev => ev.2.progressWritten),
        x < 100)) ∧
    (9000 ≤ t →
      (s.runTimed (handleAnalyze s (some (t, Outcome.resolved response)))).loadingProgress
        = 100 ∧
      (s.runTimed (handleAnalyze s (some (t, Outcome.resolved response)))).loadingStage
        = "Analysis complete!" ∧
      (handleAnalyze s (some (t, Outcome.resolved response))).filterMap
        (fun ev => ev.2.progressWritten) = [0, 20, 40, 60, 80, 95, 100]) := by
  have hf := State.runTimed_progress_fields
    (handleAnalyze s (some (t, Outcome.resolved response))) s s rfl rfl
  have hvals : (handleAnalyze s (some (t, Outcome.resolved response))).filterMap
        (fun ev => ev.2.progressWritten) =
      0 :: ((progressPromise 0 progressStages).filter fun ev => decide (ev.1 ≤ t)).filterMap
            (fun ev => ev.2.progressWritten)
        ++ 100 :: ((progressPromise 0 progressStages).filter
            fun ev => decide (t < ev.1)).filterMap (fun ev => ev.2.progressWritten) := by
    rw [← filterMap_progressWritten_progressWrites,
      progressWrites_handleAnalyze_resolved s f t response h, resolved_progress_queue]
    simp [List.filterMap_append, Action.progressWritten]
  rw [progressWrites_handleAnalyze_resolved s f t response h, resolved_progress_queue] at hf
  have hP : progressPromise 0 progressStages =
      [ (1000, Action.setLoadingProgress 20), (1000, Action.setLoadingStage "Uploading document..."),
        (3000, Action.setLoadingProgress 40),
        (3000, Action.setLoadingStage "Extracting text from PDF..."),
        (6000, Action.setLoadingProgress 60),
        (6000, Action.setLoadingStage "Analyzing financial data..."),
        (8000, Action.setLoadingProgress 80), (8000, Action.setLoadingStage "Processing with AI...") ]
      ++ [ (9000, Action.setLoadingProgress 95),
           (9000, Action.setLoadingStage "Finalizing results...") ] := rfl
  refine ⟨hvals, ?_, ?_⟩
  · intro ht
    have hlate : ((progressPromise 0 progressStages).filter fun ev => decide (t < ev.1)) =
        ([ (1000, Action.setLoadingProgress 20),
           (1000, Action.setLoadingStage "Uploading document..."),
           (3000, Action.setLoadingProgress 40),
           (3000, Action.setLoadingStage "Extracting text from PDF..."),
           (6000, Action.setLoadingProgress 60),
           (6000, Action.setLoadingStage "Analyzing financial data..."),
           (8000, Action.setLoadingProgress 80),
           (8000, Action.setLoadingStage "Processing with AI...") ].filter
            fun ev => decide (t < ev.1))
        ++ [ (9000, Action.setLoadingProgress 95),
             (9000, Action.setLoadingStage "Finalizing results...") ] := by
      rw [hP, List.filter_append]
      simp [ht]
    refine ⟨?_, ?_, ?_, ?_⟩
    · rw [hf.1, hlate]
      simp [State.runTimed, State.run, State.apply]
    · rw [hf.2, hlate]
      simp [State.runTimed, State.run, State.apply]
    · rw [hlate]
      exact ⟨_, by simp [List.filterMap_append, Action.progressWritten]; rfl⟩
    · intro x hx
      rw [List.mem_filterMap] at hx
      obtain ⟨ev, hev, hx⟩ := hx
      have hev2 := (List.mem_filter.1 hev).1
      rw [hP] at hev2
      simp only [List.mem_append, List.mem_cons, List.mem_singleton, List.not_mem_nil,
        or_false] at hev2
      rcases hev2 with (rfl | rfl | rfl | rfl | rfl | rfl | rfl | rfl) | (rfl | rfl) <;>
        simp [Action.progressWritten] at hx <;> omega
  · intro ht
    have hlate : ((progressPromise 0 progressStages).filter fun ev => decide (t < ev.1)) = [] := by
      simp only [List.filter_eq_nil_iff, decide_eq_true_eq]
      intro ev hev
      have := (time_mem_progressPromise hev).2
      have hd : progressDone 0 progressStages = 9000 := rfl
      omega
    have hearly : ((progressPromise 0 progressStages).filter fun ev => decide (ev.1 ≤ t)) =
        progressPromise 0 progressStages := by
      simp only [List.filter_eq_self, decide_eq_true_eq]
      intro ev hev
      have := (time_mem_progressPromise hev).2
      have hd : progressDone 0 progressStages = 9000 := rfl
      omega
    refine ⟨?_, ?_, ?_⟩
    · rw [hf.1, hlate]
      simp [State.runTimed, State.run, State.apply]
    · rw [hf.2, hlate]
      simp [State.runTimed, State.run, State.apply]
    · rw [hvals, hlate, hearly]
      rfl

/-- Witness of C21: a response after 2.5 s; the percentages written are
0, 20, 100, 40, 60, 80, 95. -/
theorem early_success_progress_overwritten_witness :
    (handleAnalyze
        { State.initial with
          file := some { name := "rhp.pdf", size := 4096, type := "application/pdf" } }
        (some (2500, Outcome.resolved { data := JsVal.str "ok" }))).filterMap
        (fun ev => ev.2.progressWritten) =
      0 :: ((progressPromise 0 progressStages).filter fun ev => decide (ev.1 ≤ 2500)).filterMap
            (fun ev => ev.2.progressWritten)
        ++ 100 :: ((progressPromise 0 progressStages).filter
            fun ev => decide (2500 < ev.1)).filterMap (fun ev => ev.2.progressWritten) ∧
    (({ State.initial with
          file := some { name := "rhp.pdf", size := 4096, type := "application/pdf" } } :
          State).runTimed
        (handleAnalyze
          { State.initial with
            file := some { name := "rhp.pdf", size := 4096, type := "application/pdf" } }
          (some (2500, Outcome.resolved { data := JsVal.str "ok" })))).loadingProgress = 95 :=
  ⟨(early_success_progress_overwritten _
      { name := "rhp.pdf", size := 4096, type := "application/pdf" } 2500
      { data := JsVal.str "ok" } rfl).1,
   ((early_success_progress_overwritten _
      { name := "rhp.pdf", size := 4096, type := "application/pdf" } 2500
      { data := JsVal.str "ok" } rfl).2.1 (by decide)).1⟩

/-! ## The verdict label (C22) -/

theorem replaceFirst_of_not_mem (c r : Char) (l : List Char) (h : c ∉ l) :
    replaceFirst c r l = l := by
  induction l with
  | nil => rfl
  | cons x xs ih =>
    have hx : x ≠ c := fun e => h (by simp [e])
    have hxs : c ∉ xs := fun e => h (by simp [e])
    simp [replaceFirst, hx, ih hxs]

theorem count_replaceFirst (c r : Char) (l : List Char) (hr : r ≠ c) :
    (replaceFirst c r l).count c = l.count c - 1 := by
  induction l with
  | nil => rfl
  | cons x xs ih =>
    by_cases hx : x = c
    · subst hx
      simp [replaceFirst, List.count_cons, hr]
    · have hx2 : (x == c) = false := by simpa using hx
      simp [replaceFirst, hx, List.count_cons, hx2, ih]

theorem length_replaceFirst (c r : Char) (l : List Char) :
    (replaceFirst c r l).length = l.length := by
  induction l with
  | nil => rfl
  | cons x xs ih =>
    by_cases hx : x = c <;> simp [replaceFirst, hx, ih]

/-- The label of the verdict card is `final_verdict.replace('-', ' ')`. -/
theorem renderResults_verdictLabel (props : List (String × JsVal)) (view : ResultsView)
    (h : renderResults (JsVal.obj props) = Except.ok view) :
    ((JsVal.obj props).optProp "final_verdict").replaceHyphen = Except.ok view.verdictLabel :=
  (resultsBranch_fields _ view ((renderResults_eq_ok_iff _ view).1 h).1).2.1

/-- C22: the verdict label is the verdict with its first hyphen replaced
by a space and nothing else changed.  For `high-risk-apply` it is
`high risk-apply`, in which a hyphen remains; for a verdict with at most
one hyphen the label has no hyphen; a verdict without a hyphen is its own
label.  In general the label has the verdict's length and one hyphen
less.  (Hyphen is character 45, space character 32.) -/
theorem verdictLabel_replaces_first_hyphen_only :
    (JsVal.str "high-risk-apply").replaceHyphen = Except.ok "high risk-apply" ∧
    Char.ofNat 45 ∈ "high risk-apply".data ∧
    (JsVal.str "apply").replaceHyphen = Except.ok "apply" ∧
    (∀ verdict : String, ∃ label : String,
      (JsVal.str verdict).replaceHyphen = Except.ok label ∧
      label.data = replaceFirst (Char.ofNat 45) (Char.ofNat 32) verdict.data ∧
      label.data.length = verdict.data.length ∧
      label.data.count (Char.ofNat 45) = verdict.data.count (Char.ofNat 45) - 1 ∧
      (verdict.data.count (Char.ofNat 45) ≤ 1 → Char.ofNat 45 ∉ label.data) ∧
      (Char.ofNat 45 ∉ verdict.data → label = verdict)) ∧
    (∀ (props : List (String × JsVal)) (view : ResultsView),
      renderResults (JsVal.obj props) = Except.ok view →
      ((JsVal.obj props).optProp "final_verdict").replaceHyphen
        = Except.ok view.verdictLabel) := by
  refine ⟨?_, by decide, ?_, ?_, renderResults_verdictLabel⟩
  · exact congrArg Except.ok (by decide)
  · exact congrArg Except.ok (by decide)
  intro verdict
  have hne : Char.ofNat 32 ≠ Char.ofNat 45 := by decide
  have hcount := count_replaceFirst (Char.ofNat 45) (Char.ofNat 32) verdict.data hne
  refine ⟨String.mk (replaceFirst (Char.ofNat 45) (Char.ofNat 32) verdict.data), rfl, rfl,
    length_replaceFirst _ _ _, hcount, ?_, ?_⟩
  · intro hle
    have h0 : (replaceFirst (Char.ofNat 45) (Char.ofNat 32) verdict.data).count
        (Char.ofNat 45) = 0 := by omega
    exact List.count_eq_zero.1 h0
  · intro hnot
    show String.mk (replaceFirst (Char.ofNat 45) (Char.ofNat 32) verdict.data) = verdict
    rw [replaceFirst_of_not_mem _ _ _ hnot]

/-! ## Score colours (C25) -/

theorem scoreBandRank_getScoreColor (score : ℚ) :
    scoreBandRank (getScoreColor score) =
      if score ≥ 8 then 3 else if score ≥ 6 then 2 else if score ≥ 4 then 1 else 0 := by
  unfold getScoreColor
  split_ifs <;> decide

/-- C25: `getScoreColor` is a total step function of the numeric score
with thresholds 8, 6 and 4: green for `score ≥ 8`, blue for
`6 ≤ score < 8`, yellow for `4 ≤ score < 6`, red for `score < 4`, for
every score, also outside 0..10.  The four colours are pairwise
different, so every score is in exactly one band, and the band never gets
worse as the score increases. -/
theorem getScoreColor_bands_monotone :
    (∀ score : ℚ,
      (8 ≤ score ↔ getScoreColor score = "from-green-500 to-emerald-500") ∧
      (6 ≤ score ∧ score < 8 ↔ getScoreColor score = "from-blue-500 to-cyan-500") ∧
      (4 ≤ score ∧ score < 6 ↔ getScoreColor score = "from-yellow-500 to-amber-500") ∧
      (score < 4 ↔ getScoreColor score = "from-red-500 to-rose-500")) ∧
    (scoreBandRank "from-green-500 to-emerald-500" = 3 ∧
      scoreBandRank "from-blue-500 to-cyan-500" = 2 ∧
      scoreBandRank "from-yellow-500 to-amber-500" = 1 ∧
      scoreBandRank "from-red-500 to-rose-500" = 0) ∧
    (∀ a b : ℚ, a ≤ b →
      scoreBandRank (getScoreColor a) ≤ scoreBandRank (getScoreColor b)) ∧
    getScoreColor (-3) = "from-red-500 to-rose-500" ∧
    getScoreColor 12 = "from-green-500 to-emerald-500" := by
  refine ⟨?_, ⟨by decide, by decide, by decide, by decide⟩, ?_, ?_, ?_⟩
  · intro score
    by_cases h8 : 8 ≤ score
    · have hc : getScoreColor score = "from-green-500 to-emerald-500" := by
        simp [getScoreColor, h8]
      rw [hc]
      exact ⟨iff_of_true h8 rfl,
        iff_of_false (by rintro ⟨_, hh⟩; linarith) (by decide),
        iff_of_false (by rintro ⟨_, hh⟩; linarith) (by decide),
        iff_of_false (by intro hh; linarith) (by decide)⟩
    · by_cases h6 : 6 ≤ score
      · have hc : getScoreColor score = "from-blue-500 to-cyan-500" := by
          simp [getScoreColor, h8, h6]
        rw [hc]
        exact ⟨iff_of_false h8 (by decide),
          iff_of_true ⟨h6, not_le.1 h8⟩ rfl,
          iff_of_false (by rintro ⟨_, hh⟩; linarith) (by decide),
          iff_of_false (by intro hh; linarith) (by decide)⟩
      · by_cases h4 : 4 ≤ score
        · have hc : getScoreColor score = "from-yellow-500 to-amber-500" := by
            simp [getScoreColor, h8, h6, h4]
          rw [hc]
          exact ⟨iff_of_false h8 (by decide),
            iff_of_false (by rintro ⟨hh, _⟩; exact h6 hh) (by decide),
            iff_of_true ⟨h4, not_le.1 h6⟩ rfl,
            iff_of_false (by intro hh; linarith) (by decide)⟩
        · have hc : getScoreColor score = "from-red-500 to-rose-500" := by
            simp [getScoreColor, h8, h6, h4]
          rw [hc]
          exact ⟨iff_of_false h8 (by decide),
            iff_of_false (by rintro ⟨hh, _⟩; exact h6 hh) (by decide),
            iff_of_false (by rintro ⟨hh, _⟩; exact h4 hh) (by decide),
            iff_of_true (not_le.1 h4) rfl⟩
  · intro a b hab
    rw [scoreBandRank_getScoreColor, scoreBandRank_getScoreColor]
    split_ifs <;> first | omega | (exfalso; linarith)
  · unfold getScoreColor
    norm_num
  · unfold getScoreColor
    norm_num

/-! ## Which view is shown (C24) -/

/-- The effects of a call whose request succeeds, around the write of the
result: before and after it, up to the final `setLoading(false)`, there
are only progress writes besides the start of the call. -/
theorem handleAnalyze_resolved_split (s : State) (f : File) (t : Nat) (response : Response)
    (h : s.file = some f) :
    ∃ l1 l2 : List (Nat × Action),
      handleAnalyze s (some (t, Outcome.resolved response)) =
        ([ (0, Action.setLoading true),
           (0, Action.setError JsVal.null),
           (0, Action.setAnalysis JsVal.null),
           (0, Action.setLoadingProgress 0),
           (0, Action.setLoadingStage "Initializing analysis..."),
           (0, Action.axiosPost "https://ipo-analyser-server.vercel.app/api/v1/ipo/analyze"
                 [("rhp", f)] [("Content-Type", "multipart/form-data")]) ] ++ l1) ++
          (t + 500, Action.setAnalysis response.data) ::
            (l2 ++ [(max (t + 500) 9000, Action.setLoading false)]) ∧
      (∀ ev ∈ l1, ev.2.isProgressWrite = true) ∧
      (∀ ev ∈ l2, ev.2.isProgressWrite = true) := by
  obtain ⟨l1, l2, hM, hQ, -⟩ := schedule_split (t + 500, Action.setAnalysis response.data)
    (schedule (t, Action.setLoadingStage "Analysis complete!")
      (schedule (t, Action.setLoadingProgress 100) (progressPromise 0 progressStages)))
  have hall : ∀ ev ∈ l1 ++ l2, ev.2.isProgressWrite = true := by
    intro ev hev
    rw [← hQ, mem_schedule, mem_schedule] at hev
    rcases hev with rfl | rfl | hev
    · rfl
    · rfl
    · exact isProgressWrite_progressPromise hev
  refine ⟨l1, l2, ?_, fun ev hev => hall ev (List.mem_append.2 (Or.inl hev)),
    fun ev hev => hall ev (List.mem_append.2 (Or.inr hev))⟩
  have hdone : progressDone 0 progressStages = 9000 := rfl
  simp only [handleAnalyze, h, afterPost, afterPostDone, scheduleAll, List.foldl_cons,
    List.foldl_nil, hM, hdone]
  simp

/-- Counterexample to C24 as stated: after a successful response whose
body is the string `ok`, and after one whose body is an object with a
verdict only, the stored result is truthy, yet the page does not show the
results view: rendering the results branch throws (`final_verdict`,
respectively `key_strengths`, is `undefined`) and the page is removed. -/
theorem truthy_result_without_results_view :
    ((({ State.initial with
          file := some { name := "rhp.pdf", size := 4096, type := "application/pdf" } } :
          State).runTimed
        (handleAnalyze
          { State.initial with
            file := some { name := "rhp.pdf", size := 4096, type := "application/pdf" } }
          (some (12000, Outcome.resolved { data := JsVal.str "ok" })))).analysis.truthy
        = true ∧
      view (({ State.initial with
          file := some { name := "rhp.pdf", size := 4096, type := "application/pdf" } } :
          State).runTimed
        (handleAnalyze
          { State.initial with
            file := some { name := "rhp.pdf", size := 4096, type := "application/pdf" } }
          (some (12000, Outcome.resolved { data := JsVal.str "ok" }))))
        = View.unmounted ∧
      View.unmounted ≠ View.results) ∧
    ((({ State.initial with
          file := some { name := "rhp.pdf", size := 4096, type := "application/pdf" } } :
          State).runTimed
        (handleAnalyze
          { State.initial with
            file := some { name := "rhp.pdf", size := 4096, type := "application/pdf" } }
          (some (12000, Outcome.resolved
            ⟨JsVal.obj [("final_verdict", JsVal.str "avoid")]⟩)))).analysis.truthy
        = true ∧
      view (({ State.initial with
          file := some { name := "rhp.pdf", size := 4096, type := "application/pdf" } } :
          State).runTimed
        (handleAnalyze
          { State.initial with
            file := some { name := "rhp.pdf", size := 4096, type := "application/pdf" } }
          (some (12000, Outcome.resolved
            ⟨JsVal.obj [("final_verdict", JsVal.str "avoid")]⟩))))
        = View.unmounted) := by
  have r1 := handleAnalyze_resolved_final
    { State.initial with
      file := some { name := "rhp.pdf", size := 4096, type := "application/pdf" } }
    { name := "rhp.pdf", size := 4096, type := "application/pdf" } 12000
    { data := JsVal.str "ok" } rfl
  have r2 := handleAnalyze_resolved_final
    { State.initial with
      file := some { name := "rhp.pdf", size := 4096, type := "application/pdf" } }
    { name := "rhp.pdf", size := 4096, type := "application/pdf" } 12000
    ⟨JsVal.obj [("final_verdict", JsVal.str "avoid")]⟩ rfl
  refine ⟨⟨?_, ?_, by decide⟩, ?_, ?_⟩
  · rw [r1.1]; rfl
  · rw [view_unmounted_iff, r1.1]
    left
    refine ⟨rfl, ?_⟩
    rintro ⟨bound, hb⟩
    cases hb
  · rw [r2.1]; rfl
  · rw [view_unmounted_iff, r2.1]
    left
    refine ⟨rfl, ?_⟩
    rintro ⟨bound, hb⟩
    cases hb

/-- C24, amended: the page takes the results branch exactly when
`analysis` is truthy, whatever `loading` is; it shows the results view
when that branch renders, and nothing (the page is removed) when rendering
it throws.  Otherwise it shows the loading view when `loading` is true,
and the upload view when it is false and the error, if truthy, can be
shown.  Hence, when a request succeeds with a truthy body that renders,
from the write of the result until the final `setLoading(false)` of the
call the results view is shown while `loading` is still true (and when
the response came early, `t + 500 < 9000`, that final write comes later
in time); and when a request succeeds with a falsy body, the call ends in
the upload view with the body stored and no error.  The last part is a
state with a well-formed result and `loading` true, in which the results
view is shown. -/
theorem view_follows_result_truthiness (s : State) :
    ((view s = View.results ↔
        s.analysis.truthy = true ∧ ∃ bound, renderResults s.analysis = Except.ok bound) ∧
      (s.analysis.truthy = true → view s = View.results ∨ view s = View.unmounted) ∧
      (view s = View.loading ↔ s.analysis.truthy = false ∧ s.loading = true) ∧
      (view s = View.upload ↔ s.analysis.truthy = false ∧ s.loading = false ∧
        (s.error.truthy = true → s.error.validChild = true))) ∧
    (∀ (f : File) (t : Nat) (B : JsVal) (bound : ResultsView), s.file = some f →
      B.truthy = true → renderResults B = Except.ok bound →
      ∃ pre mid : List (Nat × Action),
        handleAnalyze s (some (t, Outcome.resolved { data := B })) =
          pre ++ (t + 500, Action.setAnalysis B) ::
            (mid ++ [(max (t + 500) 9000, Action.setLoading false)]) ∧
        (∀ shown later : List (Nat × Action), mid = shown ++ later →
          (s.runTimed (pre ++ (t + 500, Action.setAnalysis B) :: shown)).loading = true ∧
          view (s.runTimed (pre ++ (t + 500, Action.setAnalysis B) :: shown))
            = View.results) ∧
        (t + 500 < 9000 → t + 500 < max (t + 500) 9000)) ∧
    (∀ (f : File) (t : Nat) (B : JsVal), s.file = some f → B.truthy = false →
      view (s.runTimed (handleAnalyze s (some (t, Outcome.resolved { data := B }))))
        = View.upload ∧
      (s.runTimed (handleAnalyze s (some (t, Outcome.resolved { data := B })))).analysis = B ∧
      (s.runTimed (handleAnalyze s (some (t, Outcome.resolved { data := B })))).error
        = JsVal.null) ∧
    view ({ State.initial with
        loading := true,
        analysis := (JsVal.obj
          [ ("final_verdict", JsVal.str "apply"),
            ("final_comment", JsVal.str "Sound business."),
            ("key_strengths", JsVal.arr [JsVal.str "brand"]),
            ("key_risks", JsVal.arr [JsVal.str "debt"]),
            ("scores", JsVal.obj
              [ ("financial_strength", JsVal.num 8), ("valuation_comfort", JsVal.num 7),
                ("promoter_quality", JsVal.num 9), ("demand_strength", JsVal.num 6) ]) ]) } :
        State) = View.results := by
  refine ⟨⟨view_results_iff s, ?_, view_loading_iff s, view_upload_iff s⟩, ?_, ?_, rfl⟩
  · intro ht
    by_cases hr : ∃ bound, renderResults s.analysis = Except.ok bound
    · exact Or.inl ((view_results_iff s).2 ⟨ht, hr⟩)
    · exact Or.inr ((view_unmounted_iff s).2 (Or.inl ⟨ht, hr⟩))
  · intro f t B bound hfile hB hrender
    obtain ⟨l1, l2, htrace, h1, h2⟩ := handleAnalyze_resolved_split s f t { data := B } hfile
    refine ⟨_, l2, htrace, ?_, fun ht => by omega⟩
    intro shown later hmid
    have hshown : ∀ ev ∈ shown, ev.2.isProgressWrite = true :=
      fun ev hev => h2 ev (by rw [hmid]; exact List.mem_append.2 (Or.inl hev))
    have e : (([ (0, Action.setLoading true),
           (0, Action.setError JsVal.null),
           (0, Action.setAnalysis JsVal.null),
           (0, Action.setLoadingProgress 0),
           (0, Action.setLoadingStage "Initializing analysis..."),
           (0, Action.axiosPost "https://ipo-analyser-server.vercel.app/api/v1/ipo/analyze"
                 [("rhp", f)] [("Content-Type", "multipart/form-data")]) ] ++ l1) ++
          (t + 500, Action.setAnalysis B) :: shown) =
        [ (0, Action.setLoading true),
           (0, Action.setError JsVal.null),
           (0, Action.setAnalysis JsVal.null),
           (0, Action.setLoadingProgress 0),
           (0, Action.setLoadingStage "Initializing analysis..."),
           (0, Action.axiosPost "https://ipo-analyser-server.vercel.app/api/v1/ipo/analyze"
                 [("rhp", f)] [("Content-Type", "multipart/form-data")]) ] ++
          (l1 ++ ([(t + 500, Action.setAnalysis B)] ++ shown)) := by simp
    have r1 := fun s0 : State => s0.runTimed_progressWrites l1 h1
    have r2 := fun s0 : State => s0.runTimed_progressWrites shown hshown
    have hstate :
        (s.runTimed (([ (0, Action.setLoading true),
           (0, Action.setError JsVal.null),
           (0, Action.setAnalysis JsVal.null),
           (0, Action.setLoadingProgress 0),
           (0, Action.setLoadingStage "Initializing analysis..."),
           (0, Action.axiosPost "https://ipo-analyser-server.vercel.app/api/v1/ipo/analyze"
                 [("rhp", f)] [("Content-Type", "multipart/form-data")]) ] ++ l1) ++
          (t + 500, Action.setAnalysis B) :: shown)).loading = true ∧
        (s.runTimed (([ (0, Action.setLoading true),
           (0, Action.setError JsVal.null),
           (0, Action.setAnalysis JsVal.null),
           (0, Action.setLoadingProgress 0),
           (0, Action.setLoadingStage "Initializing analysis..."),
           (0, Action.axiosPost "https://ipo-analyser-server.vercel.app/api/v1/ipo/analyze"
                 [("rhp", f)] [("Content-Type", "multipart/form-data")]) ] ++ l1) ++
          (t + 500, Action.setAnalysis B) :: shown)).analysis = B := by
      rw [e]
      simp only [State.runTimed_append]
      simp only [State.runTimed, List.map_cons, List.map_nil, State.run_cons, State.run_nil,
        State.apply] at r1 r2 ⊢
      simp [r1, r2]
    refine ⟨hstate.1, ?_⟩
    rw [view_results_iff, hstate.2]
    exact ⟨hB, bound, hrender⟩
  · intro f t B hfile hB
    have r := handleAnalyze_resolved_final s f t { data := B } hfile
    refine ⟨?_, r.1, r.2.1⟩
    rw [view_upload_iff, r.1, r.2.1, r.2.2.1]
    exact ⟨hB, rfl, fun h => by simp [JsVal.truthy] at h⟩

/-! ## Reset (C7) -/

/-- With a candidate, the effects of `handleAnalyze` are those before the
first `await` followed by the later ones. -/
theorem handleAnalyze_eq_start_append_rest (s : State) (f : File)
    (net : Option (Nat × Outcome)) (h : s.file = some f) :
    handleAnalyze s net = handleAnalyzeStart f ++ handleAnalyzeRest net := by
  cases net with
  | none => simp [handleAnalyze, h, handleAnalyzeStart, handleAnalyzeRest]
  | some p =>
    obtain ⟨t, o⟩ := p
    simp [handleAnalyze, h, handleAnalyzeStart, handleAnalyzeRest]

theorem State.runTimed_handleAnalyzeStart (s : State) (f : File) :
    s.runTimed (handleAnalyzeStart f) =
      { s with loading := true, error := JsVal.null, analysis := JsVal.null,
               loadingProgress := 0, loadingStage := "Initializing analysis..." } := rfl

theorem Page.Pending.nil (s : State) : Page.Pending s [] :=
  ⟨fun h => absurd rfl h, fun ev h => by simp at h, fun pre post t h => by simp at h,
   fun ⟨ev, h, _⟩ => by simp at h, fun ⟨ev, h, _⟩ => by simp at h⟩

/-- The effects after the first `await` are pending effects of the state
the synchronous part leaves. -/
theorem pending_handleAnalyzeRest (s : State) (net : Option (Nat × Outcome))
    (hl : s.loading = true) (he : s.error = JsVal.null) (ha : s.analysis = JsVal.null) :
    Page.Pending s (handleAnalyzeRest net) := by
  have hmem : ∀ ev ∈ handleAnalyzeRest net,
      ev.2.isProgressWrite = true ∨ (∃ t o, ev ∈ afterPost t o ∧ net = some (t, o)) ∨
        ev.2 = Action.setLoading false := by
    intro ev hev
    cases net with
    | none => exact Or.inl (isProgressWrite_progressPromise hev)
    | some p =>
      obtain ⟨t, o⟩ := p
      simp only [handleAnalyzeRest, List.mem_append, List.mem_singleton] at hev
      rcases hev with hev | hev
      · rcases mem_scheduleAll.1 hev with hev | hev
        · exact Or.inr (Or.inl ⟨t, o, hev, rfl⟩)
        · exact Or.inl (isProgressWrite_progressPromise hev)
      · exact Or.inr (Or.inr (by rw [hev]))
  refine ⟨fun _ => hl, ?_, ?_, ?_, ?_⟩
  · intro ev hev
    rcases hmem ev hev with h | ⟨t, o, h, -⟩ | h
    · exact Or.inl h
    · cases o <;> simp [afterPost] at h
      · rcases h with rfl | rfl | rfl
        · exact Or.inl rfl
        · exact Or.inl rfl
        · exact Or.inr (Or.inl ⟨_, rfl⟩)
      · subst h; exact Or.inr (Or.inr (Or.inl ⟨_, rfl⟩))
    · exact Or.inr (Or.inr (Or.inr h))
  · intro pre post t hsplit
    cases net with
    | none =>
      have hin : (t, Action.setLoading false) ∈ handleAnalyzeRest none := by
        rw [hsplit]; simp
      have := isProgressWrite_progressPromise hin
      simp [Action.isProgressWrite] at this
    | some p =>
      obtain ⟨t0, o⟩ := p
      simp only [handleAnalyzeRest] at hsplit
      by_contra hpost
      obtain ⟨init, last, hlast⟩ : ∃ init last, post = init ++ [last] := by
        rcases List.eq_nil_or_concat post with h | ⟨init, last, h⟩
        · exact absurd h hpost
        · exact ⟨init, last, by simpa using h⟩
      rw [hlast, ← List.cons_append, ← List.append_assoc] at hsplit
      have h2 := List.append_inj_left' hsplit rfl
      have hin : (t, Action.setLoading false) ∈
          scheduleAll (afterPost t0 o) (progressPromise 0 progressStages) := by
        rw [h2]; simp
      rcases mem_scheduleAll.1 hin with hin | hin
      · exact (afterPost_facts hin).1 false rfl
      · have := isProgressWrite_progressPromise hin
        simp [Action.isProgressWrite] at this
  · rintro ⟨ev, hev, v, hv⟩
    refine ⟨he, ?_⟩
    intro ev2 hev2 v2 hv2
    rcases hmem ev hev with h | ⟨t, o, h, hnet⟩ | h
    · simp [hv, Action.isProgressWrite] at h
    · rcases hmem ev2 hev2 with h2 | ⟨t2, o2, h2, hnet2⟩ | h2
      · simp [hv2, Action.isProgressWrite] at h2
      · rw [hnet] at hnet2
        simp only [Option.some.injEq, Prod.mk.injEq] at hnet2
        obtain ⟨rfl, rfl⟩ := hnet2
        cases o <;> simp [afterPost] at h h2
        · rcases h2 with rfl | rfl | rfl <;> simp at hv2
        · subst h; simp at hv
      · simp [hv2] at h2
    · simp [hv] at h
  · intro _
    rw [ha]; rfl

/-- Performing the first pending effect keeps the remaining ones pending,
and keeps the error null where a result is held. -/
theorem pending_apply (s : State) (ev : Nat × Action) (rest : List (Nat × Action))
    (h0 : s.analysis.truthy = true → s.error = JsVal.null)
    (h : Page.Pending s (ev :: rest)) :
    ((s.apply ev.2).analysis.truthy = true → (s.apply ev.2).error = JsVal.null) ∧
    Page.Pending (s.apply ev.2) rest := by
  obtain ⟨hload, hkind, hlast, hres, herr⟩ := h
  have hkind_rest : ∀ e ∈ rest, e.2.isProgressWrite = true ∨ (∃ v, e.2 = Action.setAnalysis v) ∨
      (∃ v, e.2 = Action.setError v) ∨ e.2 = Action.setLoading false :=
    fun e he => hkind e (List.mem_cons_of_mem _ he)
  have hlast_rest : ∀ pre post t, rest = pre ++ (t, Action.setLoading false) :: post →
      post = [] := by
    intro pre post t hsplit
    exact hlast (ev :: pre) post t (by rw [hsplit]; rfl)
  rcases hkind ev (List.mem_cons_self _ _) with hk | ⟨v, hk⟩ | ⟨v, hk⟩ | hk
  · have hs := s.apply_progressWrite ev.2 hk
    have e1 : (s.apply ev.2).analysis = s.analysis := by
      cases hev : ev.2 <;> simp [hev, Action.isProgressWrite] at hk <;> rfl
    have e2 : (s.apply ev.2).error = s.error := by
      cases hev : ev.2 <;> simp [hev, Action.isProgressWrite] at hk <;> rfl
    have e3 : (s.apply ev.2).loading = s.loading := by
      cases hev : ev.2 <;> simp [hev, Action.isProgressWrite] at hk <;> rfl
    refine ⟨by rw [e1, e2]; exact h0, ?_, hkind_rest, hlast_rest, ?_, ?_⟩
    · intro _; rw [e3]; exact hload (by simp)
    · rintro ⟨e, he, hv⟩
      obtain ⟨h1, h2⟩ := hres ⟨e, List.mem_cons_of_mem _ he, hv⟩
      exact ⟨by rw [e2]; exact h1, fun e' he' => h2 e' (List.mem_cons_of_mem _ he')⟩
    · rintro ⟨e, he, hv⟩
      rw [e1]
      exact herr ⟨e, List.mem_cons_of_mem _ he, hv⟩
  · obtain ⟨h1, h2⟩ := hres ⟨ev, List.mem_cons_self _ _, v, hk⟩
    rw [hk]
    refine ⟨fun _ => h1, ?_, hkind_rest, hlast_rest, ?_, ?_⟩
    · intro _; exact hload (by simp)
    · rintro ⟨e, he, hv⟩
      exact ⟨h1, fun e' he' => h2 e' (List.mem_cons_of_mem _ he')⟩
    · rintro ⟨e, he, v2, hv⟩
      exact absurd hv (h2 e (List.mem_cons_of_mem _ he) v2)
  · have hfalsy := herr ⟨ev, List.mem_cons_self _ _, v, hk⟩
    rw [hk]
    refine ⟨?_, ?_, hkind_rest, hlast_rest, ?_, ?_⟩
    · intro ht
      change s.analysis.truthy = true at ht
      rw [hfalsy] at ht
      cases ht
    · intro _; exact hload (by simp)
    · rintro ⟨e, he, hv⟩
      exact absurd hk ((hres ⟨e, List.mem_cons_of_mem _ he, hv⟩).2 ev
        (List.mem_cons_self _ _) v)
    · intro _
      exact hfalsy
  · have hnil : rest = [] := hlast [] rest ev.1 (by rw [← hk]; rfl)
    subst hnil
    rw [hk]
    exact ⟨h0, Page.Pending.nil _⟩

theorem Page.Orderly.mounted : Page.initial.Orderly :=
  ⟨fun h => by simp [Page.initial, State.initial, JsVal.truthy] at h,
   [], rfl, Page.Pending.nil _⟩

/-- While the page shows the upload view no call has effects still to
perform. -/
theorem Page.Orderly.idle {p : Page} (hp : p.Orderly) (hl : p.state.loading = false) :
    (p.running.filter fun r => !r.isEmpty) = [] := by
  obtain ⟨-, l, hrun, hpend⟩ := hp
  cases l with
  | nil => simpa using hrun
  | cons ev rest =>
    have := hpend.1 (by simp)
    rw [hl] at this
    cases this

/-- Every turn of the event loop keeps the page orderly. -/
theorem Page.Orderly.turn {p q : Page} (hp : p.Orderly) (hturn : Page.Turn p q) :
    q.Orderly := by
  cases hturn with
  | drag type h =>
    have hv : view p.state = View.upload := by
      rw [offered_handleDrag] at h; simpa using h
    have hl := ((view_upload_iff _).1 hv).2.1
    have hs : ∀ s : State, (s.run (handleDrag type)).analysis = s.analysis ∧
        (s.run (handleDrag type)).error = s.error := by
      intro s
      unfold handleDrag
      split_ifs <;> exact ⟨rfl, rfl⟩
    refine ⟨by rw [(hs _).1, (hs _).2]; exact hp.1, [], ?_, Page.Pending.nil _⟩
    simpa using hp.idle hl
  | drop e h =>
    have hv : view p.state = View.upload := by
      rw [offered_handleDrop] at h; simpa using h
    obtain ⟨ha, hl, -⟩ := (view_upload_iff _).1 hv
    have hs : (p.state.run (handleDrop e)).analysis = p.state.analysis := by
      unfold handleDrop
      cases e.files.head? with
      | none => rfl
      | some g => simp only []; split_ifs <;> rfl
    refine ⟨?_, [], ?_, Page.Pending.nil _⟩
    · intro ht
      rw [hs, ha] at ht
      cases ht
    · simpa using hp.idle hl
  | fileChange e h =>
    have hv : view p.state = View.upload := by
      rw [offered_handleFileChange] at h; simpa using h
    obtain ⟨ha, hl, -⟩ := (view_upload_iff _).1 hv
    have hs : (p.state.run (handleFileChange e)).analysis = p.state.analysis := by
      unfold handleFileChange
      cases e.files.head? with
      | none => rfl
      | some g => simp only []; split_ifs <;> rfl
    refine ⟨?_, [], ?_, Page.Pending.nil _⟩
    · intro ht
      rw [hs, ha] at ht
      cases ht
    · simpa using hp.idle hl
  | analyze file net hfile h =>
    have hv : view p.state = View.upload := by
      rw [offered_handleAnalyze] at h
      simp only [Bool.and_eq_true, decide_eq_true_eq] at h
      exact h.1.1
    have hl := ((view_upload_iff _).1 hv).2.1
    refine ⟨fun _ => rfl, handleAnalyzeRest net, ?_,
      pending_handleAnalyzeRest _ net rfl rfl rfl⟩
    simp only [List.filter_cons, hp.idle hl, List.filter_nil]
  | effect before after ev rest h =>
    obtain ⟨h0, l, hrun, hpend⟩ := hp
    rw [h, List.filter_append, List.filter_cons] at hrun
    simp only [List.isEmpty_cons, Bool.not_false, if_true] at hrun
    cases l with
    | nil =>
      simp at hrun
    | cons ev2 rest2 =>
      simp only [List.filter_cons, List.isEmpty_cons, Bool.not_false, if_true,
        List.filter_nil] at hrun
      have hlen := congrArg List.length hrun
      simp only [List.length_append, List.length_cons, List.length_nil] at hlen
      have hb : List.filter (fun r => !r.isEmpty) before = [] :=
        List.length_eq_zero.1 (by omega)
      have ha : List.filter (fun r => !r.isEmpty) after = [] :=
        List.length_eq_zero.1 (by omega)
      rw [hb, ha] at hrun
      simp only [List.nil_append, List.cons.injEq, and_true] at hrun
      obtain ⟨rfl, rfl⟩ := hrun
      obtain ⟨k1, k2⟩ := pending_apply p.state ev rest h0 hpend
      refine ⟨k1, rest, ?_, k2⟩
      rw [List.filter_append, List.filter_cons, hb, ha]
      simp [List.filter_cons]
  | uploadAnother h =>
    obtain ⟨h0, l, hrun, hload, hkind, hlast, hres, herr⟩ := hp
    refine ⟨?_, l, hrun, hload, hkind, hlast, hres, fun _ => rfl⟩
    intro ht
    simp [State.run_uploadAnotherOnClick, JsVal.truthy] at ht
  | remount => exact Page.Orderly.mounted

theorem Page.Occurs.orderly {p : Page} (h : p.Occurs) : p.Orderly := by
  induction h with
  | refl => exact Page.Orderly.mounted
  | tail _ hturn ih => exact ih.turn hturn

/-- A page that has a call's effects still to perform reaches the page in
which they have all been performed. -/
theorem Page.Occurs.drain (s : State) (l : List (Nat × Action))
    (others : List (List (Nat × Action)))
    (h : Page.Occurs { state := s, running := l :: others }) :
    Page.Occurs { state := s.runTimed l, running := [] :: others } := by
  induction l generalizing s with
  | nil => exact h
  | cons ev rest ih =>
    have hstep : Page.Turn { state := s, running := (ev :: rest) :: others }
        { state := s.apply ev.2, running := [] ++ rest :: others } :=
      Page.Turn.effect _ [] others ev rest rfl
    exact ih (s.apply ev.2) (Relation.ReflTransGen.tail h hstep)

/-- In every page that occurs, a held result comes with no error. -/
theorem Page.Occurs.error_null_of_result {p : Page} (h : p.Occurs)
    (ht : p.state.analysis.truthy = true) : p.state.error = JsVal.null :=
  h.orderly.1 ht

/-- C7: in every page that occurs in a run from the freshly mounted page
(by drags, drops, file selections, submits with any fate of the request,
the effects of the submit in flight, resets and remounts) and offers
"Upload Another", the click leaves candidate, result and error null,
whatever they held before: the candidate and the result because the click
writes them, the error because no error is held while a result is.  The
click does not write `loading`; when the submit has finished (`loading`
false) the page is back in the upload view.  The page offers the button
only while it shows a result: in a state without a result, such as the
one a failed submit ends in, there is nothing to reset from. -/
theorem uploadAnother_returns_to_idle (p : Page) (h : p.Occurs)
    (ho : offered p.state Handler.uploadAnother = true) :
    (p.state.run uploadAnotherOnClick).file = none ∧
    (p.state.run uploadAnotherOnClick).analysis = JsVal.null ∧
    (p.state.run uploadAnotherOnClick).error = JsVal.null ∧
    (p.state.run uploadAnotherOnClick).loading = p.state.loading ∧
    (p.state.loading = false → view (p.state.run uploadAnotherOnClick) = View.upload) ∧
    Page.Occurs { p with state := p.state.run uploadAnotherOnClick } ∧
    (∀ s : State, s.analysis.truthy = false → offered s Handler.uploadAnother = false) := by
  have hv : view p.state = View.results := by
    rw [offered_uploadAnother] at ho
    simpa using ho
  have ht := ((view_results_iff _).1 hv).1
  have he : p.state.error = JsVal.null := h.error_null_of_result ht
  refine ⟨rfl, rfl, he, rfl, ?_, Relation.ReflTransGen.tail h (Page.Turn.uploadAnother p ho), ?_⟩
  · intro hl
    rw [view_upload_iff]
    refine ⟨rfl, hl, ?_⟩
    intro hte
    change p.state.error.truthy = true at hte
    rw [he] at hte
    cases hte
  · intro s hs
    rw [offered_uploadAnother]
    have : view s ≠ View.results := by
      rw [Ne, view_results_iff, hs]
      simp
    simpa using this

/-- Witness of C7: `rhp.pdf` is selected and submitted, the request
succeeds after 12 s with a well-formed result, the call runs to its end;
the page then offers "Upload Another", and the click leaves no error. -/
theorem uploadAnother_returns_to_idle_witness :
    offered
      (((State.initial.run (handleFileChange
          { files := [{ name := "rhp.pdf", size := 4096, type := "application/pdf" }] })).runTimed
        (handleAnalyzeStart { name := "rhp.pdf", size := 4096, type := "application/pdf" })).runTimed
        (handleAnalyzeRest (some (12000, Outcome.resolved ⟨JsVal.obj
          [ ("final_verdict", JsVal.str "apply"),
            ("final_comment", JsVal.str "Sound business."),
            ("key_strengths", JsVal.arr [JsVal.str "brand"]),
            ("key_risks", JsVal.arr [JsVal.str "debt"]),
            ("scores", JsVal.obj
              [ ("financial_strength", JsVal.num 8), ("valuation_comfort", JsVal.num 7),
                ("promoter_quality", JsVal.num 9), ("demand_strength", JsVal.num 6) ]) ]⟩))))
      Handler.uploadAnother = true ∧
    ((((State.initial.run (handleFileChange
          { files := [{ name := "rhp.pdf", size := 4096, type := "application/pdf" }] })).runTimed
        (handleAnalyzeStart { name := "rhp.pdf", size := 4096, type := "application/pdf" })).runTimed
        (handleAnalyzeRest (some (12000, Outcome.resolved ⟨JsVal.obj
          [ ("final_verdict", JsVal.str "apply"),
            ("final_comment", JsVal.str "Sound business."),
            ("key_strengths", JsVal.arr [JsVal.str "brand"]),
            ("key_risks", JsVal.arr [JsVal.str "debt"]),
            ("scores", JsVal.obj
              [ ("financial_strength", JsVal.num 8), ("valuation_comfort", JsVal.num 7),
                ("promoter_quality", JsVal.num 9), ("demand_strength", JsVal.num 6) ]) ]⟩)))).run
      uploadAnotherOnClick).error = JsVal.null :=
  ⟨rfl,
   (uploadAnother_returns_to_idle
    { state := ((State.initial.run (handleFileChange
          { files := [{ name := "rhp.pdf", size := 4096, type := "application/pdf" }] })).runTimed
        (handleAnalyzeStart { name := "rhp.pdf", size := 4096, type := "application/pdf" })).runTimed
        (handleAnalyzeRest (some (12000, Outcome.resolved ⟨JsVal.obj
          [ ("final_verdict", JsVal.str "apply"),
            ("final_comment", JsVal.str "Sound business."),
            ("key_strengths", JsVal.arr [JsVal.str "brand"]),
            ("key_risks", JsVal.arr [JsVal.str "debt"]),
            ("scores", JsVal.obj
              [ ("financial_strength", JsVal.num 8), ("valuation_comfort", JsVal.num 7),
                ("promoter_quality", JsVal.num 9), ("demand_strength", JsVal.num 6) ]) ]⟩))),
      running := [[]] }
    (Page.Occurs.drain _ _ []
      (Relation.ReflTransGen.tail
        (Relation.ReflTransGen.single
          (Page.Turn.fileChange Page.initial
            { files := [{ name := "rhp.pdf", size := 4096, type := "application/pdf" }] } rfl))
        (Page.Turn.analyze _ { name := "rhp.pdf", size := 4096, type := "application/pdf" }
          _ rfl rfl)))
    rfl).2.2.1⟩

/-! ## Double arithmetic -/

theorem floor_le_roundHalfEven (x : ℚ) : ⌊x⌋ ≤ roundHalfEven x := by
  unfold roundHalfEven
  split_ifs <;> omega

theorem roundHalfEven_le_floor_add_one (x : ℚ) : roundHalfEven x ≤ ⌊x⌋ + 1 := by
  unfold roundHalfEven
  split_ifs <;> omega

theorem roundHalfEven_intCast (n : ℤ) : roundHalfEven (n : ℚ) = n := by
  unfold roundHalfEven
  simp

/-- Rounding does not cross an integer from below. -/
theorem roundHalfEven_le_of_le (x : ℚ) (n : ℤ) (h : x ≤ n) : roundHalfEven x ≤ n := by
  rcases lt_or_eq_of_le h with hlt | heq
  · have h1 : ⌊x⌋ < n := Int.floor_lt.2 hlt
    have h2 := roundHalfEven_le_floor_add_one x
    omega
  · rw [heq, roundHalfEven_intCast]

/-- Rounding does not cross an integer from above. -/
theorem le_roundHalfEven_of_le (x : ℚ) (n : ℤ) (h : (n : ℚ) ≤ x) : n ≤ roundHalfEven x :=
  le_trans (Int.le_floor.2 h) (floor_le_roundHalfEven x)

theorem ulpExponent_ge (x : ℚ) : -1074 ≤ ulpExponent x := le_max_right _ _

/-- Below `2 ^ 53` the doubles are no coarser than the integers. -/
theorem ulpExponent_nonpos (x : ℚ) (h0 : 0 ≤ x) (h : x < 2 ^ (53 : ℤ)) :
    ulpExponent x ≤ 0 := by
  unfold ulpExponent
  rw [abs_of_nonneg h0]
  rcases eq_or_lt_of_le h0 with h1 | h1
  · rw [← h1, Int.log_zero_right]
    decide
  · have h2 : x < ((2 : ℕ) : ℚ) ^ (53 : ℤ) := by exact_mod_cast h
    have h3 := (Int.lt_zpow_iff_log_lt (by norm_num : 1 < 2) h1).1 h2
    simp only [max_le_iff]
    omega

/-- The spacing of the doubles around `x` is at most `x`, for `x` at least
the smallest positive double. -/
theorem two_zpow_ulpExponent_le (x : ℚ) (h : (2 : ℚ) ^ (-1074 : ℤ) ≤ x) :
    (2 : ℚ) ^ ulpExponent x ≤ x := by
  have hpos : 0 < x := lt_of_lt_of_le (by positivity) h
  unfold ulpExponent
  rw [abs_of_pos hpos]
  rcases max_choice (Int.log 2 x - 52) (-1074) with hm | hm
  · rw [hm]
    have h1 : ((2 : ℕ) : ℚ) ^ Int.log 2 x ≤ x := Int.zpow_log_le_self (by norm_num) hpos
    have h2 : (2 : ℚ) ^ (Int.log 2 x - 52) ≤ (2 : ℚ) ^ Int.log 2 x :=
      zpow_le_zpow_right₀ (by norm_num) (by omega)
    exact le_trans h2 (by exact_mod_cast h1)
  · rw [hm]; exact h

/-- A natural number below `2 ^ 53` bounds the double a result below it
rounds to: rounding does not cross it. -/
theorem roundDouble_le_natCast (x : ℚ) (n : ℕ) (h0 : 0 ≤ x) (h : x ≤ n)
    (hn : (n : ℚ) < 2 ^ (53 : ℤ)) :
    ∃ y, roundDouble x = some y ∧ 0 ≤ y ∧ y ≤ n := by
  have he := ulpExponent_nonpos x h0 (lt_of_le_of_lt h hn)
  have hpos : (0 : ℚ) < 2 ^ ulpExponent x := by positivity
  obtain ⟨k, hk⟩ : ∃ k : ℕ, ulpExponent x = -(k : ℤ) :=
    ⟨(-ulpExponent x).toNat, by omega⟩
  have hgrid : (n : ℚ) / 2 ^ ulpExponent x = ((n * 2 ^ k : ℕ) : ℤ) := by
    rw [hk, zpow_neg, zpow_natCast]
    push_cast
    field_simp
  have hup : roundHalfEven (x / 2 ^ ulpExponent x) ≤ ((n * 2 ^ k : ℕ) : ℤ) := by
    apply roundHalfEven_le_of_le
    rw [← hgrid]
    exact div_le_div_of_nonneg_right h hpos.le
  have hlo : (0 : ℤ) ≤ roundHalfEven (x / 2 ^ ulpExponent x) := by
    apply le_roundHalfEven_of_le
    simpa using div_nonneg h0 hpos.le
  have hy0 : (0 : ℚ) ≤ (roundHalfEven (x / 2 ^ ulpExponent x) : ℚ) * 2 ^ ulpExponent x :=
    mul_nonneg (by exact_mod_cast hlo) hpos.le
  have hyn : (roundHalfEven (x / 2 ^ ulpExponent x) : ℚ) * 2 ^ ulpExponent x ≤ n := by
    have h1 : (roundHalfEven (x / 2 ^ ulpExponent x) : ℚ) ≤ (n : ℚ) / 2 ^ ulpExponent x := by
      rw [hgrid]; exact_mod_cast hup
    calc (roundHalfEven (x / 2 ^ ulpExponent x) : ℚ) * 2 ^ ulpExponent x
        ≤ (n : ℚ) / 2 ^ ulpExponent x * 2 ^ ulpExponent x :=
          mul_le_mul_of_nonneg_right h1 hpos.le
      _ = n := by field_simp
  refine ⟨_, ?_, hy0, hyn⟩
  unfold roundDouble
  rw [if_pos]
  rw [abs_of_nonneg hy0]
  calc (roundHalfEven (x / 2 ^ ulpExponent x) : ℚ) * 2 ^ ulpExponent x
      ≤ n := hyn
    _ < 2 ^ (53 : ℤ) := hn
    _ < 2 ^ (1024 : ℤ) := zpow_lt_zpow_right₀ (by norm_num) (by norm_num)

/-- A natural number below `2 ^ 53` is a double: an operation whose exact
result it is returns it. -/
theorem roundDouble_natCast (n : ℕ) (hn : (n : ℚ) < 2 ^ (53 : ℤ)) :
    roundDouble (n : ℚ) = some (n : ℚ) := by
  obtain ⟨y, hy, -, hyn⟩ := roundDouble_le_natCast n n (Nat.cast_nonneg n) le_rfl hn
  have he := ulpExponent_nonpos (n : ℚ) (Nat.cast_nonneg n) hn
  have hpos : (0 : ℚ) < 2 ^ ulpExponent (n : ℚ) := by positivity
  obtain ⟨k, hk⟩ : ∃ k : ℕ, ulpExponent (n : ℚ) = -(k : ℤ) :=
    ⟨(-ulpExponent (n : ℚ)).toNat, by omega⟩
  have hgrid : (n : ℚ) / 2 ^ ulpExponent (n : ℚ) = ((n * 2 ^ k : ℕ) : ℤ) := by
    rw [hk, zpow_neg, zpow_natCast]
    push_cast
    field_simp
  have hround : roundHalfEven ((n : ℚ) / 2 ^ ulpExponent (n : ℚ)) = ((n * 2 ^ k : ℕ) : ℤ) := by
    rw [hgrid, roundHalfEven_intCast]
  have hval : (roundHalfEven ((n : ℚ) / 2 ^ ulpExponent (n : ℚ)) : ℚ)
      * 2 ^ ulpExponent (n : ℚ) = n := by
    rw [hround, ← hgrid]
    field_simp
  unfold roundDouble
  rw [hval, if_pos]
  rw [abs_of_nonneg (Nat.cast_nonneg n)]
  exact lt_trans hn (zpow_lt_zpow_right₀ (by norm_num) (by norm_num))

/-- A result that is at least the smallest positive double `2 ^ (-1074)`
does not round below it. -/
theorem le_roundDouble (x y : ℚ) (h : (2 : ℚ) ^ (-1074 : ℤ) ≤ x)
    (hy : roundDouble x = some y) : (2 : ℚ) ^ (-1074 : ℤ) ≤ y := by
  have hpos : (0 : ℚ) < 2 ^ ulpExponent x := by positivity
  have h1 : ((1 : ℤ) : ℚ) ≤ x / 2 ^ ulpExponent x := by
    rw [Int.cast_one, le_div_iff₀ hpos, one_mul]
    exact two_zpow_ulpExponent_le x h
  have h2 := le_roundHalfEven_of_le _ 1 h1
  have h3 : (1 : ℚ) ≤ (roundHalfEven (x / 2 ^ ulpExponent x) : ℚ) := by exact_mod_cast h2
  unfold roundDouble at hy
  split_ifs at hy
  simp only [Option.some.injEq] at hy
  rw [← hy]
  calc (2 : ℚ) ^ (-1074 : ℤ) ≤ 2 ^ ulpExponent x :=
        zpow_le_zpow_right₀ (by norm_num) (ulpExponent_ge x)
    _ = 1 * 2 ^ ulpExponent x := (one_mul _).symm
    _ ≤ (roundHalfEven (x / 2 ^ ulpExponent x) : ℚ) * 2 ^ ulpExponent x :=
        mul_le_mul_of_nonneg_right h3 hpos.le

theorem roundDouble_zero : roundDouble 0 = some 0 := by
  unfold roundDouble
  simp only [zero_div, roundHalfEven, Int.floor_zero, Int.cast_zero, sub_zero, zero_mul,
    abs_zero]
  rw [if_pos (by norm_num), if_pos (by positivity)]
  simp

/-- A result below half the smallest positive double rounds to zero
(underflow). -/
theorem roundDouble_underflow (x : ℚ) (h0 : 0 ≤ x) (h : x < 2 ^ (-1075 : ℤ)) :
    roundDouble x = some 0 := by
  rcases eq_or_lt_of_le h0 with h1 | h1
  · rw [← h1]; exact roundDouble_zero
  have he : ulpExponent x = -1074 := by
    unfold ulpExponent
    rw [abs_of_nonneg h0]
    apply max_eq_right
    have h2 : x < ((2 : ℕ) : ℚ) ^ (-1075 : ℤ) := by exact_mod_cast h
    have h3 := (Int.lt_zpow_iff_log_lt (by norm_num : 1 < 2) h1).1 h2
    omega
  have hq : x / 2 ^ (-1074 : ℤ) < 1 / 2 := by
    rw [div_lt_iff₀ (by positivity)]
    calc x < 2 ^ (-1075 : ℤ) := h
      _ = 1 / 2 * 2 ^ (-1074 : ℤ) := by
        rw [show (-1075 : ℤ) = -1074 - 1 by norm_num, zpow_sub₀ (by norm_num : (2 : ℚ) ≠ 0)]
        simp
        ring
  have hq0 : 0 ≤ x / 2 ^ (-1074 : ℤ) := div_nonneg h0 (by positivity)
  have hfloor : ⌊x / 2 ^ (-1074 : ℤ)⌋ = 0 := by
    rw [Int.floor_eq_zero_iff]
    exact ⟨hq0, lt_trans hq (by norm_num)⟩
  have hround : roundHalfEven (x / 2 ^ (-1074 : ℤ)) = 0 := by
    unfold roundHalfEven
    rw [hfloor, if_pos]
    simpa using hq
  unfold roundDouble
  rw [he, hround]
  simp only [Int.cast_zero, zero_mul, abs_zero]
  rw [if_pos (by positivity)]

/-! ## Bar widths (C23, C26) -/

theorem le_foldl_max (xs : List ℚ) (x : ℚ) :
    x ≤ xs.foldl max x ∧ ∀ y ∈ xs, y ≤ xs.foldl max x := by
  induction xs generalizing x with
  | nil => simp
  | cons z zs ih =>
    have h := ih (max x z)
    simp only [List.foldl_cons, List.mem_cons]
    refine ⟨le_trans (le_max_left x z) h.1, ?_⟩
    intro y hy
    rcases hy with rfl | hy
    · exact le_trans (le_max_right x y) h.1
    · exact h.2 y hy

theorem foldl_max_mem (xs : List ℚ) (x : ℚ) :
    xs.foldl max x = x ∨ xs.foldl max x ∈ xs := by
  induction xs generalizing x with
  | nil => simp
  | cons z zs ih =>
    simp only [List.foldl_cons, List.mem_cons]
    rcases ih (max x z) with h | h
    · rcases max_choice x z with hm | hm
      · exact Or.inl (by rw [h, hm])
      · exact Or.inr (Or.inl (by rw [h, hm]))
    · exact Or.inr (Or.inr h)

/-- `Math.max` of a non-empty list is an element of the list and is at
least every element. -/
theorem mathMax_spec (l : List ℚ) (hl : l ≠ []) :
    ∃ m, mathMax l = some m ∧ m ∈ l ∧ ∀ y ∈ l, y ≤ m := by
  cases l with
  | nil => exact absurd rfl hl
  | cons x xs =>
    refine ⟨xs.foldl max x, rfl, ?_, ?_⟩
    · rcases foldl_max_mem xs x with h | h
      · rw [h]; simp
      · simp [h]
    · intro y hy
      rcases List.mem_cons.1 hy with rfl | hy
      · exact (le_foldl_max xs y).1
      · exact (le_foldl_max xs x).2 y hy

/-- A power of two within the range of the doubles is a double. -/
theorem roundDouble_two_zpow (z : ℤ) (h1 : -1074 ≤ z) (h2 : z < 1024) :
    roundDouble ((2 : ℚ) ^ z) = some ((2 : ℚ) ^ z) := by
  have hlog : Int.log 2 |(2 : ℚ) ^ z| = z := by
    rw [abs_of_pos (by positivity)]
    have := Int.log_zpow (R := ℚ) (by norm_num : 1 < 2) z
    exact_mod_cast this
  have he : ulpExponent ((2 : ℚ) ^ z) ≤ z := by
    unfold ulpExponent
    rw [hlog]
    simp only [max_le_iff]
    omega
  obtain ⟨k, hk⟩ : ∃ k : ℕ, z - ulpExponent ((2 : ℚ) ^ z) = (k : ℤ) :=
    ⟨(z - ulpExponent ((2 : ℚ) ^ z)).toNat, by omega⟩
  have hgrid : (2 : ℚ) ^ z / 2 ^ ulpExponent ((2 : ℚ) ^ z) = ((2 ^ k : ℕ) : ℤ) := by
    rw [← zpow_sub₀ (by norm_num : (2 : ℚ) ≠ 0), hk, zpow_natCast]
    push_cast
    rfl
  have hval : (roundHalfEven ((2 : ℚ) ^ z / 2 ^ ulpExponent ((2 : ℚ) ^ z)) : ℚ)
      * 2 ^ ulpExponent ((2 : ℚ) ^ z) = 2 ^ z := by
    rw [hgrid, roundHalfEven_intCast, ← hgrid]
    have : (2 : ℚ) ^ ulpExponent ((2 : ℚ) ^ z) ≠ 0 := by positivity
    field_simp
  unfold roundDouble
  rw [hval, if_pos]
  rw [abs_of_pos (by positivity)]
  exact zpow_lt_zpow_right₀ (by norm_num) h2

/-- The width of the first of two years' bars when the second year has
the larger revenue. -/
theorem revenueBarWidth_pair (a b : YearData) (hab : a.revenue ≤ b.revenue)
    (hb : b.revenue ≠ 0) :
    revenueBarWidth [a, b] a =
      (roundDouble (a.revenue / b.revenue)).bind fun q => roundDouble (q * 100) := by
  simp [revenueBarWidth, maxRevenue, mathMax, max_eq_right hab, doubleDiv, doubleMul, hb]

/-- Counterexample to C26 as stated: the revenues `2 ^ (-1074)` (the double
`5e-324`) and `2 ^ 1023` (the double `8.98846567431158e307`) are positive
doubles, yet the width of the first year's bar is 0: the quotient
`2 ^ (-2097)` underflows to zero. -/
theorem revenueBarWidth_zero_by_underflow :
    (0 : ℚ) < 2 ^ (-1074 : ℤ) ∧ (0 : ℚ) < 2 ^ (1023 : ℤ) ∧
    roundDouble ((2 : ℚ) ^ (-1074 : ℤ)) = some ((2 : ℚ) ^ (-1074 : ℤ)) ∧
    roundDouble ((2 : ℚ) ^ (1023 : ℤ)) = some ((2 : ℚ) ^ (1023 : ℤ)) ∧
    revenueBarWidth
      [ { year := JsVal.num 2022, revenue := 2 ^ (-1074 : ℤ), profit := 0, loss := 0, margin := 0, growth_rate := 0 },
        { year := JsVal.num 2023, revenue := 2 ^ (1023 : ℤ), profit := 0, loss := 0, margin := 0, growth_rate := 0 } ]
      { year := JsVal.num 2022, revenue := 2 ^ (-1074 : ℤ), profit := 0, loss := 0, margin := 0, growth_rate := 0 }
      = some 0 := by
  refine ⟨by positivity, by positivity, roundDouble_two_zpow _ (by norm_num) (by norm_num),
    roundDouble_two_zpow _ (by norm_num) (by norm_num), ?_⟩
  have hq : (2 : ℚ) ^ (-1074 : ℤ) / 2 ^ (1023 : ℤ) = 2 ^ (-2097 : ℤ) := by
    rw [← zpow_sub₀ (by norm_num : (2 : ℚ) ≠ 0)]
    norm_num
  have hunder : roundDouble ((2 : ℚ) ^ (-2097 : ℤ)) = some 0 :=
    roundDouble_underflow _ (by positivity)
      (zpow_lt_zpow_right₀ (by norm_num) (by norm_num))
  rw [revenueBarWidth_pair _ _ (zpow_le_zpow_right₀ (by norm_num) (by norm_num))
    (by positivity)]
  show (roundDouble ((2 : ℚ) ^ (-1074 : ℤ) / 2 ^ (1023 : ℤ))).bind
    (fun q => roundDouble (q * 100)) = some 0
  rw [hq, hunder, Option.some_bind, zero_mul]
  exact roundDouble_zero

/-- C26, amended: for a non-empty `yearly_data` in which every revenue is
positive, `maxRevenue` is the largest revenue, every revenue bar width
`revenue / maxRevenue * 100`, computed in double arithmetic, is at least 0
and at most 100, and a year whose revenue is the largest (there is one)
has width exactly 100.  The width is greater than 0 when the exact
quotient `revenue / maxRevenue` is at least `2 ^ (-1074)`, the smallest
positive double; below that the quotient can round to zero. -/
theorem revenueBarWidth_bounds (yearly_data : List YearData) (hne : yearly_data ≠ [])
    (hpos : ∀ d ∈ yearly_data, 0 < d.revenue) :
    ∃ m, maxRevenue yearly_data = some m ∧
      (∀ d ∈ yearly_data, d.revenue ≤ m) ∧
      (∀ d ∈ yearly_data, ∃ w, revenueBarWidth yearly_data d = some w ∧ 0 ≤ w ∧ w ≤ 100 ∧
        ((2 : ℚ) ^ (-1074 : ℤ) ≤ d.revenue / m → 0 < w)) ∧
      (∃ d ∈ yearly_data, d.revenue = m) ∧
      (∀ d ∈ yearly_data, d.revenue = m → revenueBarWidth yearly_data d = some 100) := by
  have hne2 : (yearly_data.map fun d => d.revenue) ≠ [] := by simpa using hne
  obtain ⟨m, hm, hmem, hle⟩ := mathMax_spec _ hne2
  obtain ⟨d0, hd0, hd0m⟩ := List.mem_map.1 hmem
  have hmpos : 0 < m := by rw [← hd0m]; exact hpos d0 hd0
  have hm0 : m ≠ 0 := ne_of_gt hmpos
  have hle2 : ∀ d ∈ yearly_data, d.revenue ≤ m :=
    fun d hd => hle _ (List.mem_map.2 ⟨d, hd, rfl⟩)
  have hw : ∀ d : YearData, revenueBarWidth yearly_data d =
      (roundDouble (d.revenue / m)).bind fun q => roundDouble (q * 100) := by
    intro d
    simp [revenueBarWidth, maxRevenue, hm, doubleDiv, doubleMul, hm0]
  have h1 : ((1 : ℕ) : ℚ) < 2 ^ (53 : ℤ) := by norm_num
  have h100 : ((100 : ℕ) : ℚ) < 2 ^ (53 : ℤ) := by norm_num
  refine ⟨m, hm, hle2, ?_, ⟨d0, hd0, hd0m⟩, ?_⟩
  · intro d hd
    have hx0 : 0 ≤ d.revenue / m := div_nonneg (hpos d hd).le hmpos.le
    have hx1 : d.revenue / m ≤ ((1 : ℕ) : ℚ) := by
      rw [Nat.cast_one]; exact (div_le_one hmpos).2 (hle2 d hd)
    obtain ⟨q, hq, hq0, hq1⟩ := roundDouble_le_natCast _ 1 hx0 hx1 h1
    rw [Nat.cast_one] at hq1
    have hy1 : q * 100 ≤ ((100 : ℕ) : ℚ) := by
      rw [Nat.cast_ofNat]; linarith
    obtain ⟨w, hwv, hw0, hw1⟩ := roundDouble_le_natCast _ 100 (by positivity) hy1 h100
    rw [Nat.cast_ofNat] at hw1
    refine ⟨w, by rw [hw d, hq]; exact hwv, hw0, hw1, ?_⟩
    intro hbig
    have hq2 := le_roundDouble _ q hbig hq
    have hq3 : (2 : ℚ) ^ (-1074 : ℤ) ≤ q * 100 := by linarith
    exact lt_of_lt_of_le (by positivity) (le_roundDouble _ w hq3 hwv)
  · intro d _ hdm
    have e1 : roundDouble (d.revenue / m) = some 1 := by
      rw [hdm, div_self hm0]
      have := roundDouble_natCast 1 h1
      rwa [Nat.cast_one] at this
    have e2 : roundDouble ((1 : ℚ) * 100) = some 100 := by
      have := roundDouble_natCast 100 h100
      rw [Nat.cast_ofNat] at this
      rw [one_mul]; exact this
    rw [hw d, e1]
    exact e2

/-- Witness of amended C26: two years with revenues 100 and 80; the first
bar has width 100, the second a width between 0 and 100. -/
theorem revenueBarWidth_bounds_witness :
    revenueBarWidth
        [ { year := JsVal.num 2022, revenue := 100, profit := 10, loss := 0, margin := 10, growth_rate := 0 },
          { year := JsVal.num 2023, revenue := 80, profit := 0, loss := 5, margin := 0, growth_rate := -20 } ]
        { year := JsVal.num 2022, revenue := 100, profit := 10, loss := 0, margin := 10, growth_rate := 0 }
      = some 100 ∧
    ∃ w, revenueBarWidth
        [ { year := JsVal.num 2022, revenue := 100, profit := 10, loss := 0, margin := 10, growth_rate := 0 },
          { year := JsVal.num 2023, revenue := 80, profit := 0, loss := 5, margin := 0, growth_rate := -20 } ]
        { year := JsVal.num 2023, revenue := 80, profit := 0, loss := 5, margin := 0, growth_rate := -20 }
      = some w ∧ 0 ≤ w ∧ w ≤ 100 := by
  obtain ⟨m, hm, -, hall, -, hmax⟩ := revenueBarWidth_bounds
    [ { year := JsVal.num 2022, revenue := 100, profit := 10, loss := 0, margin := 10, growth_rate := 0 },
      { year := JsVal.num 2023, revenue := 80, profit := 0, loss := 5, margin := 0, growth_rate := -20 } ]
    (by simp)
    (by
      intro d hd
      simp only [List.mem_cons, List.mem_singleton, List.not_mem_nil, or_false] at hd
      rcases hd with rfl | rfl <;> norm_num)
  have hm100 : m = 100 := by
    simp only [maxRevenue, mathMax, List.map_cons, List.map_nil, List.foldl_cons,
      List.foldl_nil, Option.some.injEq] at hm
    rw [← hm]
    norm_num
  refine ⟨hmax _ (by simp) (by rw [hm100]), ?_⟩
  obtain ⟨w, hw, h0, h1, -⟩ := hall
    { year := JsVal.num 2023, revenue := 80, profit := 0, loss := 5, margin := 0, growth_rate := -20 }
    (by simp)
  exact ⟨w, hw, h0, h1⟩

/-- The profit bar of a year with positive profit is always within
(0, 100]; the loss bar is within [0, 100] when the year's loss is not
negative and the scale `maxProfit` is positive. -/
theorem profitLossBarWidth_bounds_nonneg_loss (yearly_data : List YearData) (d : YearData)
    (hd : d ∈ yearly_data) :
    (0 < d.profit →
      ∃ w, profitLossBarWidth yearly_data d = some w ∧ 0 < w ∧ w ≤ 100) ∧
    (d.profit ≤ 0 → 0 ≤ d.loss → (∀ m, maxProfit yearly_data = some m → 0 < m) →
      ∃ w, profitLossBarWidth yearly_data d = some w ∧ 0 ≤ w ∧ w ≤ 100) := by
  have hne : (yearly_data.map fun d => max d.profit d.loss) ≠ [] := by
    intro h
    rw [List.map_eq_nil_iff] at h
    rw [h] at hd
    exact absurd hd (List.not_mem_nil d)
  obtain ⟨m, hm, -, hle⟩ := mathMax_spec _ hne
  have hdm : max d.profit d.loss ≤ m := hle _ (List.mem_map.2 ⟨d, hd, rfl⟩)
  constructor
  · intro hp
    have hmpos : 0 < m := lt_of_lt_of_le hp (le_trans (le_max_left _ _) hdm)
    have hm0 : m ≠ 0 := ne_of_gt hmpos
    refine ⟨d.profit / m * 100, ?_, by positivity, ?_⟩
    · simp [profitLossBarWidth, maxProfit, hm, jsDiv, hm0, hp, bind, Option.bind, pure]
    · have h1 : d.profit / m ≤ 1 :=
        (div_le_one hmpos).2 (le_trans (le_max_left _ _) hdm)
      linarith
  · intro hp hl hscale
    have hmpos : 0 < m := hscale m hm
    have hm0 : m ≠ 0 := ne_of_gt hmpos
    have hnp : ¬ 0 < d.profit := not_lt.2 hp
    refine ⟨|d.loss| / m * 100, ?_, by positivity, ?_⟩
    · simp [profitLossBarWidth, maxProfit, hm, jsDiv, hm0, hnp, bind, Option.bind, pure]
    · have h1 : |d.loss| / m ≤ 1 := by
        rw [abs_of_nonneg hl]
        exact (div_le_one hmpos).2 (le_trans (le_max_right _ _) hdm)
      linarith

/-- C23, the code at the failing input: with the years
`{profit: 10, loss: 0}` and `{profit: 0, loss: -50}` the scale `maxProfit`
is 10 and the loss bar of the second year is 500 percent wide, above 100;
with the single year `{profit: 0, loss: -50}` the scale is 0 and the
width is no finite number.  The bar takes the absolute value of the loss,
the scale does not. -/
theorem profitLossBarWidth_negative_loss_exceeds_100 :
    maxProfit
        [ { year := JsVal.num 2022, revenue := 100, profit := 10, loss := 0, margin := 10, growth_rate := 0 },
          { year := JsVal.num 2023, revenue := 80, profit := 0, loss := -50, margin := 0, growth_rate := -20 } ]
      = some 10 ∧
    profitLossBarWidth
        [ { year := JsVal.num 2022, revenue := 100, profit := 10, loss := 0, margin := 10, growth_rate := 0 },
          { year := JsVal.num 2023, revenue := 80, profit := 0, loss := -50, margin := 0, growth_rate := -20 } ]
        { year := JsVal.num 2023, revenue := 80, profit := 0, loss := -50, margin := 0, growth_rate := -20 }
      = some 500 ∧
    (100 : ℚ) < 500 ∧
    maxProfit
        [ { year := JsVal.num 2023, revenue := 80, profit := 0, loss := -50, margin := 0, growth_rate := -20 } ]
      = some 0 ∧
    profitLossBarWidth
        [ { year := JsVal.num 2023, revenue := 80, profit := 0, loss := -50, margin := 0, growth_rate := -20 } ]
        { year := JsVal.num 2023, revenue := 80, profit := 0, loss := -50, margin := 0, growth_rate := -20 }
      = none := by
  refine ⟨?_, ?_, by norm_num, ?_, ?_⟩
  · norm_num [maxProfit, mathMax]
  · norm_num [profitLossBarWidth, maxProfit, mathMax, jsDiv, bind, Option.bind, pure, abs_of_neg]
  · norm_num [maxProfit, mathMax]
  · norm_num [profitLossBarWidth, maxProfit, mathMax, jsDiv, bind, Option.bind, pure]

end IpoAnalyser
